import Mathlib

/-!
# HCL collective planner and Gaudi3 connection tables

A shallow embedding of the planning code of
`hcl/src/platform/gen2_arch_common/collective_states.cpp` and of the
connection (queue-pair) tables of `hcl/src/platform/gaudi3/qp_manager.cpp`.

Machine integers are natural numbers wrapped explicitly (`u32`, `u64`) where
the C++ code computes in `uint32_t` / `uint64_t`.  A `VERIFY` that fails, an
out-of-range `.at()` and an integer division by zero are results of type
`HclFailure`.
-/

namespace HCL

/-! ## Machine integers and failures -/

/-- Value of a natural number stored in a `uint32_t`. -/
def u32 (n : Nat) : Nat := n % 2 ^ 32

/-- Value of a natural number stored in a `uint64_t`. -/
def u64 (n : Nat) : Nat := n % 2 ^ 64

/-- The `VERIFY` statements of the embedded code, one constructor per site. -/
inductive VerifySite where
  /-- `VERIFY(m_sendBufferAddr != m_recvBufferAddr, ...)` in `checkInPlaceOp`. -/
  | all2AllInPlace
  /-- `VERIFY(false, "Unsupported operation ...")` in `checkInPlaceOp`. -/
  | unsupportedInPlaceOp
  /-- `VERIFY(false, "invalid collective operation value ...")`. -/
  | invalidCollectiveOp
  /-- `VERIFY(numSlices > 1, "Not found optimal buffer size ...")` in `getNumSlices`. -/
  | numSlicesNotFound
  /-- The zero-divider check of `div` / `div_round_up`. -/
  | dividerZero
  /-- `VERIFY(m_reproScaleoutLongtermAmount <= m_reproScaleoutBuffersAmount + 1)`. -/
  | reproLongtermAmount
  /-- `VERIFY(qps.size() == m_maxQPsPerConnection, ...)` in scale-up `registerQPs`. -/
  | qpCountMismatch
  /-- `VERIFY(false, "could not find a match ...")` in `getQPi`. -/
  | qpiNotFound
  /-- `VERIFY(false, "Invalid current op ...")` in `isScaleoutRequired`. -/
  | invalidCurrentOp
  /-- `VERIFY(false, "Unknown collective opcode ...")` in `isSendAddrValid`,
  `isRecvAddrValid`, `calcSendAddrSize` and `calcRecvAddrSize`. -/
  | unknownCollectiveOpcode
  /-- `VERIFY(false, "Cannot run collectiveOp ... on Gaudi3 device")` in
  `getBaseQpAndUsage`. -/
  | cannotRunCollectiveOp
  /-- `VERIFY(false, "invalid op(...)")` in `getQPi(collectiveOp, isSend)`. -/
  | invalidOp
  /-- `VERIFY(false, "unreachable code")` in `getDestQPi`. -/
  | unreachableCode
  deriving DecidableEq, Repr

/-- The ways a call of the embedded code can fail instead of returning.
The spec's ProgrammingInvariantViolation and ConfigurationError are both
failed `VERIFY`s in the code; they differ only in the site. -/
inductive HclFailure where
  /-- A failed `VERIFY` (fatal). -/
  | verify (site : VerifySite)
  /-- The `std::out_of_range` thrown by `.at()`. -/
  | outOfRange
  /-- A built-in integer division by zero. -/
  | divisionByZero
  deriving DecidableEq, Repr

/-! ## Operation kinds, element types, communicator -/

/-- The enumeration `HCL_CollectiveOp`. -/
inductive HCL_CollectiveOp where
  | eHCLReduce
  | eHCLAllReduce
  | eHCLReduceScatter
  | eHCLAll2All
  | eHCLBroadcast
  | eHCLAllGather
  | eHCLGather
  | eHCLScatter
  | eHCLSimpleBroadcast
  | eHCLNoCollective
  | eHCLSinglePeerBroadcast
  | eHCLCollectiveLastValue
  deriving DecidableEq, Repr

/-- The element types the planner distinguishes (`hcclDataType_t`); every
other element type is `hcclOtherType`. -/
inductive hcclDataType_t where
  | hcclFloat32
  | hcclFloat16
  | hcclBfloat16
  | hcclOtherType
  deriving DecidableEq, Repr

/-- The values of `HclDynamicCommunicator` the planner reads through its
getters (`getCommSize`, `getPodSize`, `getMyRank`, ...). -/
structure HclDynamicCommunicator where
  /-- `getCommSize()` / `m_commSize`. -/
  commSize : Nat
  /-- `getPodSize()`. -/
  podSize : Nat
  /-- `getMyRank()`. -/
  myRank : Nat
  /-- `getMyPod()`. -/
  myPod : Nat
  /-- `getRankInPod()`. -/
  rankInPod : Nat
  /-- `isLastRankInPod()`. -/
  lastRankInPod : Bool
  /-- `isCommunicatorMultiPod()`. -/
  multiPod : Bool
  /-- `getSliceSize()`. -/
  sliceSize : Nat
  /-- `getCollectiveCtr()`. -/
  collectiveCtr : Nat
  /-- `getMaxScaleOutQpSetsNum()`. -/
  maxScaleOutQpSetsNum : Nat
  deriving DecidableEq, Repr

/-- The global configuration values (`GCFG_*`) the planner reads. -/
structure GlobalConf where
  /-- `GCFG_HCL_COMPLEX_BCAST_MIN_SIZE`. -/
  HCL_COMPLEX_BCAST_MIN_SIZE : Nat
  /-- `GCFG_HCL_USE_SINGLE_PEER_BROADCAST`. -/
  HCL_USE_SINGLE_PEER_BROADCAST : Bool
  /-- `GCFG_HCL_MIN_IMB_SIZE_FACTOR`. -/
  HCL_MIN_IMB_SIZE_FACTOR : Nat
  deriving DecidableEq, Repr

/-- The members of `CommonState` (with those of its base
`HclCollectiveParams`) that the embedded functions read or write. -/
structure CommonState where
  m_collectiveOp : HCL_CollectiveOp
  m_currentOp : HCL_CollectiveOp
  m_dataType : hcclDataType_t
  m_dataTypeSizeInBytes : Nat
  m_count : Nat
  m_sendBufferAddr : Nat
  m_recvBufferAddr : Nat
  m_root : Nat
  m_dynamicComm : HclDynamicCommunicator
  m_rootBox : Nat
  m_isMultiPod : Bool
  m_isRoot : Bool
  m_isRootPeer : Bool
  m_isRootBox : Bool
  m_isHostNic : Bool
  m_isGdr : Bool
  m_inPlace : Bool
  m_isReductionCollective : Bool
  m_16BitReduction : Bool
  m_boxIterations : Nat
  m_optimalBufferCount : Nat
  m_scaleUpStrideCount : Nat
  m_boxStrideCount : Nat
  m_isSlicing : Bool
  m_sliceIterations : Nat
  m_rankScaleUpCount : Nat
  m_rankScaleOutCount : Nat
  m_sliceOffsetCount : Nat
  m_boxCount : Nat
  m_all2allIterations : Nat
  m_all2allIterStrideCount : Nat
  m_remainderCount : Nat
  m_hasBufferSize : Bool
  m_reproScaleoutBuffersAmount : Nat
  m_reproScaleoutLongtermAmount : Nat
  m_qpSet : Nat
  m_boxIter : Nat
  m_all2allIter : Nat
  deriving DecidableEq, Repr

open HCL_CollectiveOp hcclDataType_t

/-! ## In-place detection -/

/-- The function `CommonState::checkInPlaceOp`: sets `m_inPlace` by the rule of
the operation kind.  `dataSize` and `bufferOffset` are `uint64_t`; the address
sum wraps at 64 bits. -/
def CommonState.checkInPlaceOp (s : CommonState) : Except HclFailure CommonState :=
  let commSize := u32 s.m_dynamicComm.commSize
  let myRank := s.m_dynamicComm.myRank
  let dataSize := u64 (s.m_count * s.m_dataTypeSizeInBytes)
  match s.m_collectiveOp with
  | eHCLReduceScatter =>
    if commSize = 0 then .error .divisionByZero
    else
      let bufferOffset := u64 ((dataSize / commSize) * myRank)
      .ok { s with
        m_inPlace := decide (s.m_recvBufferAddr = u64 (s.m_sendBufferAddr + bufferOffset)) }
  | eHCLAllGather =>
    let bufferOffset := u64 (dataSize * myRank)
    .ok { s with
      m_inPlace := decide (s.m_sendBufferAddr = u64 (s.m_recvBufferAddr + bufferOffset)) }
  | eHCLGather | eHCLAllReduce | eHCLSimpleBroadcast | eHCLBroadcast | eHCLSinglePeerBroadcast =>
    .ok { s with m_inPlace := decide (s.m_sendBufferAddr = s.m_recvBufferAddr) }
  | eHCLReduce =>
    if s.m_dataType = hcclBfloat16 ∨ s.m_dataType = hcclFloat16 ∨
        s.m_dynamicComm.multiPod = true then
      .ok { s with m_inPlace := false }
    else
      .ok { s with m_inPlace := decide (s.m_sendBufferAddr = s.m_recvBufferAddr) }
  | eHCLAll2All =>
    if s.m_sendBufferAddr ≠ s.m_recvBufferAddr then .ok { s with m_inPlace := false }
    else .error (.verify .all2AllInPlace)
  | eHCLNoCollective => .ok { s with m_inPlace := false }
  | eHCLScatter | eHCLCollectiveLastValue => .error (.verify .unsupportedInPlaceOp)

/-! ## Address validity -/

/-- The function `CommonState::isRoot`. -/
def CommonState.isRoot (s : CommonState) : Bool := s.m_isRoot

/-- The function `CommonState::isSendAddrValid`; the `default` label is a
failed `VERIFY`. -/
def CommonState.isSendAddrValid (s : CommonState) : Except HclFailure Bool :=
  match s.m_collectiveOp with
  | eHCLAllReduce | eHCLAll2All | eHCLAllGather | eHCLReduceScatter | eHCLReduce => .ok true
  | eHCLSimpleBroadcast | eHCLBroadcast | eHCLSinglePeerBroadcast =>
    .ok (if s.isRoot = true then true else false)
  | _ => .error (.verify .unknownCollectiveOpcode)

/-- The function `CommonState::isRecvAddrValid`; the `default` label is a
failed `VERIFY`. -/
def CommonState.isRecvAddrValid (s : CommonState) : Except HclFailure Bool :=
  match s.m_collectiveOp with
  | eHCLAllReduce | eHCLBroadcast | eHCLSinglePeerBroadcast | eHCLSimpleBroadcast
  | eHCLAll2All | eHCLAllGather | eHCLReduceScatter => .ok true
  | eHCLReduce => .ok (if s.isRoot = true then true else false)
  | _ => .error (.verify .unknownCollectiveOpcode)

/-! ## Arithmetic helpers and the remainder calculator -/

/-- Unsigned 32-bit subtraction `a - b` (wraps below zero). -/
def sub32 (a b : Nat) : Nat := (u32 a + (2 ^ 32 - u32 b)) % 2 ^ 32

/-- Unsigned 64-bit subtraction `a - b` (wraps below zero). -/
def sub64 (a b : Nat) : Nat := (u64 a + (2 ^ 64 - u64 b)) % 2 ^ 64

/-- Modelled from the spec: `div` of `hcl_math_utils.h`, which is not among the
sources; the floor quotient the spec names, a zero divider being a failed
`VERIFY`. -/
def div (a b : Nat) : Except HclFailure Nat :=
  if b = 0 then .error (.verify .dividerZero) else .ok (a / b)

/-- Modelled from the spec: `div_round_up` of `hcl_math_utils.h`, which is not
among the sources; the ceiling quotient the spec names, a zero divider being a
failed `VERIFY`. -/
def div_round_up (a b : Nat) : Except HclFailure Nat :=
  if b = 0 then .error (.verify .dividerZero) else .ok ((a + b - 1) / b)

/-- Modelled from the spec: `mod` of `hcl_math_utils.h`, which is not among the
sources; the remainder, a zero divider being a failed `VERIFY` as for `div`. -/
def mod (a b : Nat) : Except HclFailure Nat :=
  if b = 0 then .error (.verify .dividerZero) else .ok (a % b)

/-- The virtual methods of the abstract class `RemainderCalculator`, whose
implementations are not among the sources: they are parameters of the planner. -/
structure RemainderCalculator where
  /-- `getDiv(a, b)`. -/
  getDiv : Nat → Nat → Except HclFailure Nat
  /-- `isSlicing(totalCount, totalCountPerRank, bufferCount, numParticipatingRanks)`. -/
  isSlicing : Nat → Nat → Nat → Nat → Bool
  /-- `isValidSlicing(originalBufferCount, sliceCount, collectiveCount, numSlices,
  numRanks, minBufferCount)`. -/
  isValidSlicing : Nat → Nat → Nat → Nat → Nat → Nat → Bool
  /-- `getRemainderCount(totalCount, scaleUpCount, commSize)`. -/
  getRemainderCount : Nat → Nat → Nat → Nat
  /-- `getBoxCount(nonRemainderBoxCount, numBoxes, podSize, boxIndex, scaleUpCount,
  remainderCount)`. -/
  getBoxCount : Nat → Nat → Nat → Nat → Nat → Nat → Nat
  /-- `getScaleOutCount(nonRemainderScaleOutCount, numBoxes, boxCount, boxIndex,
  myRankInPod, scaleUpCount, remainderCount, lastRankInPod)`. -/
  getScaleOutCount : Nat → Nat → Nat → Nat → Nat → Nat → Nat → Bool → Nat

/-- The constant `SLICE_RATIO_FIXED_POINT_ACCURACY`. -/
def SLICE_RATIO_FIXED_POINT_ACCURACY : Nat := 4

/-- The constant `MAX_NUM_SLICES_SEARCH`. -/
def MAX_NUM_SLICES_SEARCH : Nat := 4

/-! ## The slice-count search -/

/-- The variables `getNumSlices` carries through its search loop. -/
structure SliceSearch where
  /-- The local `numSlices`. -/
  numSlices : Nat
  /-- The local `minSliceRatio`. -/
  minSliceRatio : Nat
  /-- The member `m_optimalBufferCount`. -/
  optimalBufferCount : Nat
  deriving DecidableEq, Repr

/-- How one pass through the body of the search loop of `getNumSlices` ends. -/
inductive LoopStep where
  /-- The end of the body or a `continue`: on to the next candidate. -/
  | next (st : SliceSearch)
  /-- The `break`. -/
  | stop (st : SliceSearch)
  /-- A failed `VERIFY`. -/
  | fail (e : HclFailure)

/-- The body of the `for` loop of `CommonState::getNumSlices` for the candidate
`numSlicesToCheck`. -/
def getNumSlicesBody (rc : RemainderCalculator)
    (count totalRankCount numRanks originalBufferCount minBufferCount numSlicesToCheck : Nat)
    (st : SliceSearch) : LoopStep :=
  match div_round_up totalRankCount numSlicesToCheck with
  | .error e => .fail e
  | .ok r =>
    let sliceCountNotRounded := u32 r
    match div_round_up sliceCountNotRounded numRanks with
    | .error e => .fail e
    | .ok q =>
      let sliceCount := u32 (q * numRanks)
      let sumSlices := u32 (sliceCount * sub32 numSlicesToCheck 1)
      if totalRankCount ≤ sumSlices then .next st
      else
        let lastSliceCount := u32 (totalRankCount - sumSlices)
        if rc.isValidSlicing originalBufferCount sliceCount count numSlicesToCheck numRanks
            minBufferCount = true then
          match div (u32 (sliceCount * 2 ^ SLICE_RATIO_FIXED_POINT_ACCURACY)) lastSliceCount with
          | .error e => .fail e
          | .ok sliceRatio =>
            if sliceRatio < st.minSliceRatio then
              .next { numSlices := numSlicesToCheck, minSliceRatio := sliceRatio,
                      optimalBufferCount := sliceCount }
            else .next st
        else if sliceCount < minBufferCount ∨
            st.minSliceRatio = 2 ^ SLICE_RATIO_FIXED_POINT_ACCURACY then
          .stop st
        else .next st

/-- The `for` loop of `CommonState::getNumSlices` from the candidate
`numSlicesToCheck` on; `fuel` is the number of candidates left
(`maxSlices - numSlicesToCheck`). -/
def getNumSlicesLoop (rc : RemainderCalculator)
    (count totalRankCount numRanks originalBufferCount minBufferCount : Nat) :
    Nat → Nat → SliceSearch → Except HclFailure SliceSearch
  | 0, _, st => .ok st
  | fuel + 1, numSlicesToCheck, st =>
    match getNumSlicesBody rc count totalRankCount numRanks originalBufferCount minBufferCount
        numSlicesToCheck st with
    | .fail e => .error e
    | .stop st1 => .ok st1
    | .next st1 =>
      getNumSlicesLoop rc count totalRankCount numRanks originalBufferCount minBufferCount
        fuel (numSlicesToCheck + 1) st1

/-- The local `minSlices` of `getNumSlices` after the `if (minSlices == 1)`
adjustment: the 32-bit value of `div_round_up(totalRankCount,
m_optimalBufferCount)`, replaced by 2 when it is 1. -/
def minSlicesOf (q : Nat) : Nat := if u32 q = 1 then 2 else u32 q

/-- The local `maxSlices` of `getNumSlices` after the `if (minSlices == 1)`
adjustment. -/
def maxSlicesOf (q : Nat) : Nat :=
  if u32 q = 1 then u32 (u32 (u32 q + MAX_NUM_SLICES_SEARCH) + 1)
  else u32 (u32 q + MAX_NUM_SLICES_SEARCH)

/-- The state of the search before the loop of `getNumSlices`: the check of
the first slicing with the maximal buffer size. -/
def getNumSlicesFirst (rc : RemainderCalculator) (count optimalBufferCount totalRankCount
    numRanks minSlices : Nat) : Except HclFailure SliceSearch :=
  let minSliceRatio := u32 (optimalBufferCount * 2 ^ SLICE_RATIO_FIXED_POINT_ACCURACY)
  if rc.isValidSlicing (u32 optimalBufferCount) (u32 optimalBufferCount) count minSlices
      numRanks 0 = true then
    let lastSliceCount :=
      u32 (sub64 totalRankCount (u64 (optimalBufferCount * sub32 minSlices 1)))
    match div (u64 (optimalBufferCount * 2 ^ SLICE_RATIO_FIXED_POINT_ACCURACY))
        lastSliceCount with
    | .error e => .error e
    | .ok r =>
      .ok { numSlices := minSlices, minSliceRatio := u32 r,
            optimalBufferCount := optimalBufferCount }
  else
    .ok { numSlices := 0, minSliceRatio := minSliceRatio,
          optimalBufferCount := optimalBufferCount }

/-- The function `CommonState::getNumSlices`: the chosen number of slices,
with the state whose `m_optimalBufferCount` the search has updated. -/
def CommonState.getNumSlices (cfg : GlobalConf) (rc : RemainderCalculator) (s : CommonState)
    (totalRankCount numRanks : Nat) : Except HclFailure (Nat × CommonState) :=
  let originalBufferCount := u32 s.m_optimalBufferCount
  match div s.m_optimalBufferCount cfg.HCL_MIN_IMB_SIZE_FACTOR with
  | .error e => .error e
  | .ok mb =>
    let minBufferCount := u32 mb
    match div_round_up totalRankCount s.m_optimalBufferCount with
    | .error e => .error e
    | .ok q =>
      let minSlices := minSlicesOf q
      let maxSlices := maxSlicesOf q
      match getNumSlicesFirst rc s.m_count s.m_optimalBufferCount totalRankCount numRanks
          minSlices with
      | .error e => .error e
      | .ok st0 =>
        match getNumSlicesLoop rc s.m_count totalRankCount numRanks originalBufferCount
            minBufferCount (maxSlices - minSlices) minSlices st0 with
        | .error e => .error e
        | .ok st =>
          if 1 < st.numSlices then
            .ok (st.numSlices, { s with m_optimalBufferCount := st.optimalBufferCount })
          else .error (.verify .numSlicesNotFound)

/-! ## Planning: the one-time derivation of the constructor -/

/-- The function `CommonState::initCollectiveOp`: the downgrade of Broadcast. -/
def CommonState.initCollectiveOp (cfg : GlobalConf) (s : CommonState)
    (singlePeerBroadcastAllowed : Bool) : CommonState :=
  if s.m_collectiveOp = eHCLBroadcast then
    if u64 (s.m_count * s.m_dataTypeSizeInBytes) ≤ cfg.HCL_COMPLEX_BCAST_MIN_SIZE ∨
        s.m_dynamicComm.podSize ≤ 2 then
      { s with m_collectiveOp := eHCLSimpleBroadcast }
    else if singlePeerBroadcastAllowed = true ∧
        (cfg.HCL_USE_SINGLE_PEER_BROADCAST = true ∨ s.m_isMultiPod = false) then
      { s with m_collectiveOp := eHCLSinglePeerBroadcast }
    else s
  else s

/-- The function `CommonState::setIsReductionCollective`. -/
def CommonState.setIsReductionCollective (s : CommonState) : CommonState :=
  { s with m_isReductionCollective :=
      decide (s.m_collectiveOp = eHCLReduceScatter ∨ s.m_collectiveOp = eHCLAllReduce ∨
        s.m_collectiveOp = eHCLReduce) }

/-- The function `CommonState::check16BitReductionOp`. -/
def CommonState.check16BitReductionOp (s : CommonState) : CommonState :=
  { s with m_16BitReduction :=
      s.m_isReductionCollective &&
        decide (s.m_dataType = hcclBfloat16 ∨ s.m_dataType = hcclFloat16) }

/-- The function `CommonState::checkHierarchicalOp`. -/
def CommonState.checkHierarchicalOp (s : CommonState) : Except HclFailure CommonState :=
  if s.m_isMultiPod = false then
    .ok { s with m_boxIterations := 1, m_boxStrideCount := 0 }
  else if s.m_collectiveOp = eHCLNoCollective then
    .ok { s with m_boxIterations := 1, m_boxStrideCount := 0 }
  else if s.m_dynamicComm.podSize = 0 then .error .divisionByZero
  else .ok { s with m_boxIterations := u32 (s.m_dynamicComm.commSize / s.m_dynamicComm.podSize) }

/-- The first `switch` of `CommonState::calcMaxSliceCounts`: the stride counts,
with the locals `totalCountPerRank` and `numParticipatingRanks`. -/
def CommonState.calcStrideCounts (rc : RemainderCalculator) (s : CommonState) :
    Except HclFailure (CommonState × Nat × Nat) :=
  let commSize := u32 s.m_dynamicComm.commSize
  let podSize := u32 s.m_dynamicComm.podSize
  match s.m_collectiveOp with
  | eHCLSimpleBroadcast =>
    .ok ({ s with m_scaleUpStrideCount := s.m_count, m_boxStrideCount := 0 }, s.m_count, commSize)
  | eHCLScatter =>
    match div s.m_count commSize with
    | .error e => .error e
    | .ok d =>
      .ok ({ s with m_scaleUpStrideCount := d,
                    m_boxStrideCount := u64 (s.m_optimalBufferCount * podSize) }, d, commSize)
  | eHCLGather | eHCLAllGather =>
    .ok ({ s with m_scaleUpStrideCount := s.m_count,
                  m_boxStrideCount := u64 (s.m_count * podSize) }, s.m_count, commSize)
  | eHCLBroadcast =>
    match rc.getDiv s.m_count podSize with
    | .error e => .error e
    | .ok d =>
      .ok ({ s with m_scaleUpStrideCount := s.m_count, m_boxStrideCount := 0 }, d, podSize)
  | eHCLSinglePeerBroadcast =>
    let numParticipatingRanks := sub32 podSize 1
    let opt : Except HclFailure Nat :=
      if s.m_isHostNic = true ∧ s.m_isMultiPod = true then
        div s.m_optimalBufferCount numParticipatingRanks
      else .ok s.m_optimalBufferCount
    match opt with
    | .error e => .error e
    | .ok o =>
      match rc.getDiv s.m_count numParticipatingRanks with
      | .error e => .error e
      | .ok d =>
        .ok ({ s with m_optimalBufferCount := o, m_scaleUpStrideCount := o,
                      m_boxStrideCount := 0 }, d, numParticipatingRanks)
  | eHCLReduce | eHCLAllReduce =>
    match rc.getDiv s.m_count commSize with
    | .error e => .error e
    | .ok d =>
      .ok ({ s with m_scaleUpStrideCount := s.m_optimalBufferCount,
                    m_boxStrideCount := u64 (d * podSize) }, d, commSize)
  | eHCLAll2All | eHCLReduceScatter =>
    match div s.m_count commSize with
    | .error e => .error e
    | .ok d =>
      .ok ({ s with m_scaleUpStrideCount := d, m_boxStrideCount := u64 (d * podSize) },
        d, commSize)
  | eHCLNoCollective =>
    .ok ({ s with m_scaleUpStrideCount := 0, m_boxStrideCount := 0 }, s.m_count, commSize)
  | eHCLCollectiveLastValue => .error (.verify .invalidCollectiveOp)

/-- The second `switch` of `CommonState::calcMaxSliceCounts`: the counts of a
slice that is not the final one. -/
def CommonState.calcNonFinalCounts (s : CommonState) (totalCountPerRank : Nat) :
    Except HclFailure CommonState :=
  let podSize := u32 s.m_dynamicComm.podSize
  let o := s.m_optimalBufferCount
  match s.m_collectiveOp with
  | eHCLSimpleBroadcast =>
    .ok { s with m_rankScaleUpCount := o, m_rankScaleOutCount := o, m_sliceOffsetCount := o,
                 m_boxCount := o }
  | eHCLScatter =>
    .ok { s with m_rankScaleUpCount := o, m_sliceOffsetCount := o,
                 m_boxStrideCount := u64 (s.m_scaleUpStrideCount * podSize),
                 m_boxCount := u64 (o * podSize), m_rankScaleOutCount := u64 (o * podSize) }
  | eHCLGather | eHCLAllGather =>
    .ok { s with m_rankScaleUpCount := o, m_rankScaleOutCount := o, m_sliceOffsetCount := o,
                 m_boxCount := u64 (o * podSize) }
  | eHCLBroadcast =>
    .ok { s with m_rankScaleUpCount := o, m_boxCount := u64 (o * podSize),
                 m_rankScaleOutCount := o, m_sliceOffsetCount := u64 (o * podSize) }
  | eHCLSinglePeerBroadcast =>
    .ok { s with m_rankScaleUpCount := o, m_scaleUpStrideCount := o,
                 m_boxCount := u64 (o * sub32 podSize 1),
                 m_rankScaleOutCount := u64 (o * sub32 podSize 1),
                 m_sliceOffsetCount := u64 (o * sub32 podSize 1) }
  | eHCLReduce | eHCLAllReduce =>
    .ok { s with m_rankScaleUpCount := o, m_rankScaleOutCount := o, m_scaleUpStrideCount := o,
                 m_boxCount := u64 (o * podSize),
                 m_boxStrideCount := u64 (totalCountPerRank * podSize),
                 m_sliceOffsetCount := u64 (o * podSize) }
  | eHCLAll2All | eHCLReduceScatter =>
    .ok { s with m_rankScaleUpCount := o, m_sliceOffsetCount := o, m_rankScaleOutCount := o,
                 m_boxCount := u64 (o * podSize) }
  | eHCLNoCollective =>
    .ok { s with m_rankScaleUpCount := o, m_rankScaleOutCount := o, m_boxCount := o,
                 m_sliceOffsetCount := o }
  | eHCLCollectiveLastValue => .error (.verify .invalidCollectiveOp)

/-- The function `CommonState::calcMaxSliceCounts`. -/
def CommonState.calcMaxSliceCounts (cfg : GlobalConf) (rc : RemainderCalculator)
    (s : CommonState) : Except HclFailure CommonState :=
  match div s.m_dynamicComm.sliceSize s.m_dataTypeSizeInBytes with
  | .error e => .error e
  | .ok o =>
    match CommonState.calcStrideCounts rc { s with m_optimalBufferCount := o } with
    | .error e => .error e
    | .ok (s1, totalCountPerRank, numParticipatingRanks) =>
      let slicing := rc.isSlicing s1.m_count totalCountPerRank s1.m_optimalBufferCount
        numParticipatingRanks
      if slicing = false then
        .ok { s1 with m_isSlicing := false, m_sliceIterations := 1 }
      else
        match CommonState.getNumSlices cfg rc { s1 with m_isSlicing := true } totalCountPerRank
            numParticipatingRanks with
        | .error e => .error e
        | .ok (n, s2) =>
          let s3 : CommonState := { s2 with m_sliceIterations := n }
          let s4 : CommonState :=
            if s3.m_collectiveOp = eHCLAll2All then
              { s3 with m_all2allIterations := u32 s3.m_dynamicComm.podSize,
                        m_all2allIterStrideCount := s3.m_rankScaleUpCount }
            else s3
          CommonState.calcNonFinalCounts s4 totalCountPerRank

/-- The function `CommonState::calcReproScaleoutLongterm` (unsigned 32-bit
arithmetic), with the `VERIFY` that closes it. -/
def CommonState.calcReproScaleoutLongterm (s : CommonState) : Except HclFailure CommonState :=
  let a := s.m_reproScaleoutBuffersAmount
  let b := s.m_boxIterations
  let amount : Nat :=
    if s.m_isMultiPod = true ∧ (s.m_collectiveOp = eHCLReduceScatter ∨
        s.m_collectiveOp = eHCLAllReduce ∨ s.m_collectiveOp = eHCLReduce) then
      if b ≤ a then 1
      else if b ≤ u32 (2 * a) then sub32 (u32 (b + 1)) a
      else u32 (a + 1)
    else 1
  if amount ≤ u32 (a + 1) then .ok { s with m_reproScaleoutLongtermAmount := amount }
  else .error (.verify .reproLongtermAmount)

/-- The body of the constructor `CommonState::CommonState`, after the member
initialisers: the one-time derivation of a call's planner state.
`singlePeerBroadcastAllowed` is `deviceType == synDeviceGaudi2`. -/
def CommonState.plan (cfg : GlobalConf) (rc : RemainderCalculator) (s : CommonState)
    (singlePeerBroadcastAllowed : Bool) : Except HclFailure CommonState :=
  match (CommonState.initCollectiveOp cfg s singlePeerBroadcastAllowed).checkInPlaceOp with
  | .error e => .error e
  | .ok s1 =>
    match (s1.setIsReductionCollective.check16BitReductionOp).checkHierarchicalOp with
    | .error e => .error e
    | .ok s2 =>
      match CommonState.calcMaxSliceCounts cfg rc s2 with
      | .error e => .error e
      | .ok s3 => s3.calcReproScaleoutLongterm

/-- The function `CommonState::isRemainderAllowedForCollective`. -/
def CommonState.isRemainderAllowedForCollective (s : CommonState) : Bool :=
  match s.m_collectiveOp with
  | eHCLAllReduce | eHCLBroadcast | eHCLSinglePeerBroadcast | eHCLReduce => true
  | _ => false

/-- The assignment of `m_hasBufferSize` that closes `calcSliceCounts` and
`calcBoxAndScaleOutCounts`. -/
def CommonState.setHasBufferSize (s : CommonState) : CommonState :=
  if s.isRemainderAllowedForCollective = true then
    { s with m_hasBufferSize :=
        decide (s.m_boxCount ≠ u64 (s.m_rankScaleUpCount * u64 s.m_dynamicComm.podSize)) }
  else { s with m_hasBufferSize := false }

/-- The local `totalCountForLastSlice` of `CommonState::calcSliceCounts`: what
is left of the call for the final slice (unsigned 64-bit arithmetic). -/
def CommonState.totalCountForLastSlice (s : CommonState) : Except HclFailure Nat :=
  let commSize := u64 s.m_dynamicComm.commSize
  let n1 := sub32 s.m_sliceIterations 1
  match s.m_collectiveOp with
  | eHCLSimpleBroadcast | eHCLNoCollective | eHCLGather | eHCLAllGather =>
    .ok (sub64 s.m_count (u64 (s.m_rankScaleUpCount * n1)))
  | eHCLBroadcast | eHCLSinglePeerBroadcast =>
    .ok (sub64 s.m_count (u64 (s.m_boxCount * n1)))
  | eHCLScatter =>
    .ok (sub64 s.m_count (u64 (s.m_rankScaleUpCount * commSize * n1)))
  | eHCLAll2All =>
    if commSize = 0 then .error .divisionByZero
    else .ok (sub64 (s.m_count / commSize) (u64 (s.m_rankScaleUpCount * n1)))
  | eHCLReduceScatter | eHCLReduce | eHCLAllReduce =>
    .ok (sub64 s.m_count (u64 (s.m_boxCount * s.m_boxIterations * n1)))
  | eHCLCollectiveLastValue => .error (.verify .invalidCollectiveOp)

/-- The `switch` of `CommonState::calcSliceCounts`: the counts of the final
slice, from what is left of the call for it. -/
def CommonState.calcFinalCounts (rc : RemainderCalculator) (s : CommonState) (t : Nat) :
    Except HclFailure CommonState :=
  let podSize := u64 s.m_dynamicComm.podSize
  let commSize := u64 s.m_dynamicComm.commSize
  match s.m_collectiveOp with
  | eHCLSimpleBroadcast | eHCLNoCollective =>
    .ok { s with m_rankScaleUpCount := t, m_rankScaleOutCount := t, m_boxCount := t }
  | eHCLGather | eHCLAllGather =>
    .ok { s with m_rankScaleUpCount := t, m_rankScaleOutCount := t,
                 m_boxCount := u64 (t * podSize) }
  | eHCLBroadcast =>
    match rc.getDiv t podSize with
    | .error e => .error e
    | .ok d =>
      .ok { s with m_rankScaleUpCount := d, m_rankScaleOutCount := d, m_scaleUpStrideCount := d,
                   m_boxCount := t, m_boxStrideCount := 0,
                   m_remainderCount := rc.getRemainderCount t d podSize }
  | eHCLSinglePeerBroadcast =>
    match rc.getDiv t (sub64 podSize 1) with
    | .error e => .error e
    | .ok d =>
      .ok { s with m_rankScaleUpCount := d, m_scaleUpStrideCount := d, m_boxCount := t,
                   m_boxStrideCount := 0, m_rankScaleOutCount := t }
  | eHCLScatter =>
    if commSize = 0 then .error .divisionByZero
    else
      .ok { s with m_rankScaleUpCount := t / commSize,
                   m_boxCount := u64 (t / commSize * podSize),
                   m_rankScaleOutCount := u64 (t / commSize * podSize) }
  | eHCLAll2All =>
    let s1 : CommonState :=
      { s with m_rankScaleUpCount := t, m_boxCount := u64 (t * podSize),
               m_rankScaleOutCount := t }
    if s.m_isHostNic = true ∧ s.m_isSlicing = false then
      match div_round_up (u64 (t * podSize)) s.m_optimalBufferCount with
      | .error e => .error e
      | .ok r =>
        .ok { s1 with m_all2allIterations := u32 r,
                      m_all2allIterStrideCount := s.m_optimalBufferCount }
    else .ok s1
  | eHCLReduceScatter =>
    if commSize = 0 then .error .divisionByZero
    else
      .ok { s with m_rankScaleUpCount := t / commSize,
                   m_boxCount := u64 (t / commSize * podSize),
                   m_rankScaleOutCount := t / commSize }
  | eHCLReduce | eHCLAllReduce =>
    match rc.getDiv t commSize with
    | .error e => .error e
    | .ok d =>
      .ok { s with m_rankScaleUpCount := d,
                   m_remainderCount := rc.getRemainderCount t d commSize,
                   m_rankScaleOutCount := d, m_scaleUpStrideCount := d,
                   m_boxCount := u64 (d * podSize) }
  | eHCLCollectiveLastValue => .error (.verify .invalidCollectiveOp)

/-- The function `CommonState::calcSliceCounts`: on the final slice the counts
are recomputed from what is left of the call; on every other slice the state
is returned as it is. -/
def CommonState.calcSliceCounts (rc : RemainderCalculator) (s : CommonState) (sliceIter : Nat) :
    Except HclFailure CommonState :=
  if sliceIter = sub32 s.m_sliceIterations 1 then
    match s.totalCountForLastSlice with
    | .error e => .error e
    | .ok t =>
      match CommonState.calcFinalCounts rc s t with
      | .error e => .error e
      | .ok s1 => .ok s1.setHasBufferSize
  else .ok s

/-- Planning followed by `calcSliceCounts` for the final slice, as the
collective routine calls them. -/
def CommonState.planFinalSlice (cfg : GlobalConf) (rc : RemainderCalculator) (s : CommonState)
    (singlePeerBroadcastAllowed : Bool) : Except HclFailure CommonState :=
  match CommonState.plan cfg rc s singlePeerBroadcastAllowed with
  | .error e => .error e
  | .ok s1 => CommonState.calcSliceCounts rc s1 (sub32 s1.m_sliceIterations 1)

/-- The members `SliceState` adds to the `CommonState` it copies. -/
structure SliceState extends CommonState where
  /-- `m_isSend`. -/
  m_isSend : Bool
  /-- `m_sliceIter`. -/
  m_sliceIter : Nat
  /-- `m_boxNumInfo.m_boxNum`. -/
  m_boxNum : Nat

/-- The function `SliceState::calcBoxAndScaleOutCounts`. -/
def SliceState.calcBoxAndScaleOutCounts (rc : RemainderCalculator) (s : SliceState) :
    Except HclFailure SliceState :=
  if s.m_sliceIter = sub32 s.m_sliceIterations 1 then
    let podSize := u64 s.m_dynamicComm.podSize
    let myRankInPod := s.m_dynamicComm.rankInPod
    let isLastRankInPod := s.m_dynamicComm.lastRankInPod
    let r : Except HclFailure CommonState :=
      match s.m_collectiveOp with
      | eHCLReduce | eHCLAllReduce =>
        let boxIndex :=
          if (s.m_currentOp = eHCLReduceScatter ∧ s.m_isSend = true) ∨
              (s.m_currentOp ≠ eHCLReduceScatter ∧ s.m_isSend = false) then s.m_boxNum
          else s.m_dynamicComm.myPod
        let boxCount := rc.getBoxCount s.m_boxCount s.m_boxIterations podSize boxIndex
          s.m_rankScaleOutCount s.m_remainderCount
        .ok { s.toCommonState with
          m_boxCount := boxCount,
          m_rankScaleOutCount := rc.getScaleOutCount s.m_rankScaleOutCount s.m_boxIterations
            boxCount boxIndex myRankInPod s.m_rankScaleUpCount s.m_remainderCount
            isLastRankInPod }
      | eHCLBroadcast =>
        .ok { s.toCommonState with
          m_rankScaleOutCount := rc.getScaleOutCount s.m_rankScaleOutCount 1 s.m_boxCount 0
            myRankInPod s.m_rankScaleUpCount s.m_remainderCount isLastRankInPod }
      | eHCLSimpleBroadcast | eHCLNoCollective | eHCLGather | eHCLAllGather
      | eHCLSinglePeerBroadcast | eHCLScatter | eHCLAll2All | eHCLReduceScatter =>
        .ok s.toCommonState
      | eHCLCollectiveLastValue => .error (.verify .invalidCollectiveOp)
    match r with
    | .error e => .error e
    | .ok c => .ok { s with toCommonState := c.setHasBufferSize }
  else .ok s

/-! ## Buffer sizes and slice addresses -/

/-- The function `CommonState::calcSendAddrSize`: the size in bytes of the send
buffer (`uint64_t` arithmetic); the kinds without a `case` end in the `VERIFY`
after the `switch`. -/
def CommonState.calcSendAddrSize (s : CommonState) : Except HclFailure Nat :=
  let countSize := u64 (s.m_dataTypeSizeInBytes * s.m_count)
  match s.m_collectiveOp with
  | eHCLReduce | eHCLAllReduce | eHCLBroadcast | eHCLSinglePeerBroadcast | eHCLSimpleBroadcast
  | eHCLNoCollective | eHCLAll2All | eHCLAllGather | eHCLReduceScatter => .ok countSize
  | _ => .error (.verify .unknownCollectiveOpcode)

/-- The function `CommonState::calcRecvAddrSize`: the size in bytes of the
receive buffer; `getCommSize()` is converted to `uint64_t` for the product and
the quotient. -/
def CommonState.calcRecvAddrSize (s : CommonState) : Except HclFailure Nat :=
  let countSize := u64 (s.m_dataTypeSizeInBytes * s.m_count)
  match s.m_collectiveOp with
  | eHCLReduce | eHCLAllReduce | eHCLBroadcast | eHCLSinglePeerBroadcast | eHCLSimpleBroadcast
  | eHCLNoCollective | eHCLAll2All => .ok countSize
  | eHCLAllGather => .ok (u64 (countSize * u64 s.m_dynamicComm.commSize))
  | eHCLReduceScatter =>
    if u64 s.m_dynamicComm.commSize = 0 then .error .divisionByZero
    else .ok (countSize / u64 s.m_dynamicComm.commSize)
  | _ => .error (.verify .unknownCollectiveOpcode)

/-- The function `CommonState::getAddressOffset`: the byte offset of slice
`iterNum` (`uint64_t` arithmetic, multiplied left to right). -/
def CommonState.getAddressOffset (s : CommonState) (iterNum : Nat) : Nat :=
  u64 (u64 (u32 iterNum * s.m_sliceOffsetCount) * s.m_dataTypeSizeInBytes)

/-- The function `CommonState::getSendAddress`. -/
def CommonState.getSendAddress (s : CommonState) (iterNum : Nat) : Nat :=
  u64 (s.m_sendBufferAddr + s.getAddressOffset iterNum)

/-- The function `CommonState::getRecvAddress`. -/
def CommonState.getRecvAddress (s : CommonState) (iterNum : Nat) : Nat :=
  u64 (s.m_recvBufferAddr + s.getAddressOffset iterNum)

/-! ## Box hops: the scale-out requirement and the connection set -/

/-- Modelled from the spec: `HclDynamicCommunicator::isCommunicatorMultiPod`,
whose definition is not among the sources; a communicator is multi-box when
it has more ranks than one box holds. -/
def isCommunicatorMultiPod (commSize podSize : Nat) : Bool := decide (podSize < commSize)

/-- The member of `BoxNumInfo` that `isScaleoutRequired` reads. -/
structure BoxNumInfo where
  /-- `m_boxNum`, the box at the other end of the hop. -/
  m_boxNum : Nat
  deriving DecidableEq, Repr

/-- Modelled from the spec: `getNextBox` of collective_utils.h, the box after
`boxNumber` in ring order over `numOfBoxes` boxes. -/
def getNextBox (boxNumber numOfBoxes : Nat) : Nat := u32 (boxNumber + 1) % numOfBoxes

/-- Modelled from the spec: `getPrevBox` of collective_utils.h, the box before
`boxNumber` in ring order over `numOfBoxes` boxes. -/
def getPrevBox (boxNumber numOfBoxes : Nat) : Nat :=
  u32 (boxNumber + numOfBoxes - 1) % numOfBoxes

/-- The function `CommonState::isRootOrRootPeer`. -/
def CommonState.isRootOrRootPeer (s : CommonState) : Bool := s.m_isRoot || s.m_isRootPeer

/-- The function `CommonState::isRootPeerInclusive`; `arePeers` is
`m_dynamicComm.arePeers`, whose definition is not among the sources. -/
def CommonState.isRootPeerInclusive (arePeers : Nat → Nat → Bool) (s : CommonState)
    (rank : Nat) : Bool :=
  arePeers rank s.m_root

/-- The function `CommonState::isRootPeerExclusive`. -/
def CommonState.isRootPeerExclusive (arePeers : Nat → Nat → Bool) (s : CommonState)
    (rank : Nat) : Bool :=
  s.isRootPeerInclusive arePeers rank && decide (rank ≠ s.m_root)

/-- The function `CommonState::isRootPeer`. -/
def CommonState.isRootPeer (s : CommonState) : Bool := s.m_isRootPeer

/-- The function `CommonState::rootBox`. -/
def CommonState.rootBox (s : CommonState) : Nat := s.m_rootBox

/-- The function `CommonState::isScaleoutRequired`: the answer, or the failed
`VERIFY` of the last group of `case` labels. A `break` leaves the `switch` for
the final `return false`. -/
def CommonState.isScaleoutRequired (s : CommonState) (isSend : Bool)
    (sendBoxNumInfo : BoxNumInfo) : Except HclFailure Bool :=
  if sendBoxNumInfo.m_boxNum = s.m_dynamicComm.myPod then .ok false
  else
    match s.m_currentOp with
    | eHCLReduceScatter | eHCLAll2All => .ok true
    | eHCLAllGather =>
      if s.m_collectiveOp ≠ eHCLBroadcast ∧ s.m_collectiveOp ≠ eHCLSinglePeerBroadcast then
        .ok true
      else .ok false
    | eHCLScatter =>
      let myBox := s.m_dynamicComm.myPod
      if isSend = true then
        if sendBoxNumInfo.m_boxNum = getNextBox myBox s.m_boxIterations ∧
            sendBoxNumInfo.m_boxNum ≠ s.rootBox ∧
            (s.m_collectiveOp ≠ eHCLSinglePeerBroadcast ∨ s.isRootOrRootPeer = true) then
          .ok true
        else .ok false
      else
        if sendBoxNumInfo.m_boxNum = getPrevBox myBox s.m_boxIterations ∧
            myBox ≠ s.rootBox ∧
            (s.m_collectiveOp ≠ eHCLSinglePeerBroadcast ∨ s.isRootPeer = true) then
          .ok true
        else .ok false
    | eHCLGather =>
      if isSend = true ∧ sendBoxNumInfo.m_boxNum = s.rootBox then .ok true
      else if isSend = false ∧ s.m_dynamicComm.myPod = s.rootBox then .ok true
      else .ok false
    | eHCLSimpleBroadcast =>
      if isSend = true ∧ s.m_isRoot = true then .ok true
      else if isSend = false ∧ s.isRootPeer = true ∧ sendBoxNumInfo.m_boxNum = s.rootBox then
        .ok true
      else .ok false
    | eHCLSinglePeerBroadcast | eHCLBroadcast | eHCLAllReduce | eHCLReduce
    | eHCLNoCollective | eHCLCollectiveLastValue => .error (.verify .invalidCurrentOp)

/-- The function `CommonState::calcSliceQpSet`: the sum is a `uint64_t` (the
counter is one, `sliceIter` is an `unsigned`); a zero divisor ends the call. -/
def CommonState.calcSliceQpSet (s : CommonState) (sliceIter : Nat) :
    Except HclFailure CommonState :=
  if s.m_dynamicComm.maxScaleOutQpSetsNum = 0 then .error .divisionByZero
  else
    .ok { s with
      m_qpSet :=
        u64 (s.m_dynamicComm.collectiveCtr + sliceIter) % s.m_dynamicComm.maxScaleOutQpSetsNum }

/-- The function `CommonState::getQpSet`, which returns a `uint8_t`. -/
def CommonState.getQpSet (s : CommonState) : Nat := s.m_qpSet % 2 ^ 8

/-- The function `CommonState::calcBoxIterRecv`: the box iteration at which
this rank receives from the box `boxNumInfo.m_boxNum` (`unsigned` arithmetic). -/
def CommonState.calcBoxIterRecv (s : CommonState) (boxNumInfo : BoxNumInfo) : Nat :=
  let boxIter := sub32 (u32 (s.m_boxIterations + s.m_dynamicComm.myPod)) boxNumInfo.m_boxNum
  if s.m_boxIterations ≤ boxIter then sub32 boxIter s.m_boxIterations else boxIter

/-- The function `CommonState::isEdgeIteration`. -/
def CommonState.isEdgeIteration (s : CommonState) (boxNumInfo : BoxNumInfo) : Bool :=
  decide (s.m_boxIterations ≤ u32 (s.calcBoxIterRecv boxNumInfo + s.m_reproScaleoutBuffersAmount))

/-! ## The native scale-out descriptor -/

/-- The members of the `ScaleOutCollectiveOp` that `NativeScaleoutDescriptor::run`
derives from the slice state alone; the others come from its collaborators. -/
structure ScaleOutCollectiveOp where
  /-- The sub-operation, `sliceState.m_currentOp`. -/
  m_collectiveOp : HCL_CollectiveOp
  /-- The direction, `sliceState.m_isSend`. -/
  m_isSend : Bool
  /-- The element type, the local `dataType`. -/
  m_dataType : hcclDataType_t
  /-- The local `doReduction`. -/
  m_doReduction : Bool
  /-- The connection set, `sliceState.getQpSet()`. -/
  m_qpSet : Nat
  deriving DecidableEq, Repr

/-- The function `NativeScaleoutDescriptor::run`, as far as the slice state
decides the `ScaleOutCollectiveOp` it hands to `createScaleOutCollectiveOp`;
the box iteration of a send is computed in `unsigned` arithmetic. -/
def NativeScaleoutDescriptor.run (sliceState : SliceState) :
    Except HclFailure ScaleOutCollectiveOp :=
  let dataType :=
    if sliceState.m_isSend = false ∧ sliceState.m_currentOp ≠ eHCLAllGather ∧
        sliceState.m_currentOp ≠ eHCLGather ∧ sliceState.m_16BitReduction = true then
      hcclFloat32
    else sliceState.m_dataType
  let doReduction : Except HclFailure Bool :=
    if sliceState.m_isSend = false then .ok false
    else
      match mod (sub32 (u32 (sliceState.m_boxNum + sliceState.m_boxIterations))
          sliceState.m_dynamicComm.myPod) sliceState.m_boxIterations with
      | .error e => .error e
      | .ok boxIter =>
        .ok (sliceState.m_isReductionCollective &&
          decide (sliceState.m_reproScaleoutBuffersAmount ≤ boxIter))
  match doReduction with
  | .error e => .error e
  | .ok r =>
    .ok { m_collectiveOp := sliceState.m_currentOp, m_isSend := sliceState.m_isSend,
          m_dataType := dataType, m_doReduction := r,
          m_qpSet := sliceState.toCommonState.getQpSet }

/-! ## Connection (queue-pair) tables of Gaudi3 -/

/-- The constants and device functions `qp_manager.cpp` uses whose
declarations are not among the sources; they are parameters of the tables. -/
structure Gaudi3Device where
  /-- The constant `DEFAULT_COMMUNICATORS_SIZE`. -/
  DEFAULT_COMMUNICATORS_SIZE : Nat
  /-- The constant `MAX_QPS_PER_CONNECTION_G3`, the size of the innermost arrays. -/
  MAX_QPS_PER_CONNECTION_G3 : Nat
  /-- The constant `MAX_QPS_SETS_PER_CONNECTION`. -/
  MAX_QPS_SETS_PER_CONNECTION : Nat
  /-- The constant `INVALID_QP`. -/
  INVALID_QP : Nat
  /-- `m_device.getNicToQpOffset(nic)`. -/
  getNicToQpOffset : Nat → Nat
  /-- `m_device.getCommSize(comm)`. -/
  getCommSize : Nat → Nat

/-- The state a call leaves behind together with the failure that ended it,
if any: an exception does not undo the writes made before it. -/
structure Outcome (σ : Type) where
  /-- The state after the call. -/
  state : σ
  /-- The failure that ended the call; `none` when it returned. -/
  failure : Option HclFailure

/-- The checked access `.at(i)` of `std::vector` and `std::array`. -/
def at? {α : Type} (xs : List α) (i : Nat) : Except HclFailure α :=
  match xs[i]? with
  | some v => .ok v
  | none => .error .outOfRange

/-- The scale-up manager `QPManagerGaudi3ScaleUp`: `m_qpInfoScaleUp[comm][qpi]`. -/
structure QPManagerGaudi3ScaleUp where
  /-- `m_maxQPsPerConnection`. -/
  m_maxQPsPerConnection : Nat
  /-- `m_qpInfoScaleUp`. -/
  m_qpInfoScaleUp : List (List Nat)
  deriving DecidableEq, Repr

/-- The constructor `QPManagerGaudi3ScaleUp::QPManagerGaudi3ScaleUp`: every
entry is `INVALID_QP`. -/
def QPManagerGaudi3ScaleUp.new (d : Gaudi3Device) : QPManagerGaudi3ScaleUp :=
  { m_maxQPsPerConnection := d.MAX_QPS_PER_CONNECTION_G3,
    m_qpInfoScaleUp := List.replicate d.DEFAULT_COMMUNICATORS_SIZE
      (List.replicate d.MAX_QPS_PER_CONNECTION_G3 d.INVALID_QP) }

/-- The function `QPManagerGaudi3ScaleUp::resizeDBForNewComms`. -/
def QPManagerGaudi3ScaleUp.resizeDBForNewComms (d : Gaudi3Device)
    (m : QPManagerGaudi3ScaleUp) : QPManagerGaudi3ScaleUp :=
  { m with
    m_qpInfoScaleUp :=
      m.m_qpInfoScaleUp ++ List.replicate d.DEFAULT_COMMUNICATORS_SIZE
        (List.replicate d.MAX_QPS_PER_CONNECTION_G3 d.INVALID_QP) }

/-- The assignment `m_qpInfoScaleUp.at(comm).at(qpi) = v`. -/
def setScaleUp (t : List (List Nat)) (comm qpi v : Nat) : Except HclFailure (List (List Nat)) :=
  match at? t comm with
  | .error e => .error e
  | .ok row =>
    if qpi < row.length then .ok (t.set comm (row.set qpi v)) else .error .outOfRange

/-- The `for` loop of scale-up `registerQPs`, from role `qpi` on, `fuel` roles
being left. -/
def registerScaleUpLoop (comm : Nat) (qps : List Nat) :
    Nat → Nat → List (List Nat) → Outcome (List (List Nat))
  | 0, _, t => ⟨t, none⟩
  | fuel + 1, qpi, t =>
    match setScaleUp t comm qpi (qps[qpi]?.getD 0) with
    | .error e => ⟨t, some e⟩
    | .ok t1 => registerScaleUpLoop comm qps fuel (qpi + 1) t1

/-- The function `QPManagerGaudi3ScaleUp::registerQPs`. -/
def QPManagerGaudi3ScaleUp.registerQPs (d : Gaudi3Device) (m : QPManagerGaudi3ScaleUp)
    (comm : Nat) (qps : List Nat) : Outcome QPManagerGaudi3ScaleUp :=
  if qps.length ≠ m.m_maxQPsPerConnection then ⟨m, some (.verify .qpCountMismatch)⟩
  else
    let m1 := if m.m_qpInfoScaleUp.length ≤ comm then m.resizeDBForNewComms d else m
    let r := registerScaleUpLoop comm qps m.m_maxQPsPerConnection 0 m1.m_qpInfoScaleUp
    ⟨{ m1 with m_qpInfoScaleUp := r.state }, r.failure⟩

/-- The function `QPManagerGaudi3ScaleUp::getQPn`. -/
def QPManagerGaudi3ScaleUp.getQPn (m : QPManagerGaudi3ScaleUp) (comm qpi : Nat) :
    Except HclFailure Nat :=
  match at? m.m_qpInfoScaleUp comm with
  | .error e => .error e
  | .ok row => at? row qpi

/-- The `for` loop of scale-up `getQPi`, from role `qpi` on, `fuel` roles being
left; the sum with the nic offset is a `uint32_t`. -/
def getQPiScaleUpLoop (d : Gaudi3Device) (m : QPManagerGaudi3ScaleUp) (comm nic qpn : Nat) :
    Nat → Nat → Except HclFailure Nat
  | 0, _ => .error (.verify .qpiNotFound)
  | fuel + 1, qpi =>
    match m.getQPn comm qpi with
    | .error e => .error e
    | .ok base =>
      if u32 (base + d.getNicToQpOffset nic) = qpn then .ok qpi
      else getQPiScaleUpLoop d m comm nic qpn fuel (qpi + 1)

/-- The function `QPManagerGaudi3ScaleUp::getQPi`. -/
def QPManagerGaudi3ScaleUp.getQPi (d : Gaudi3Device) (m : QPManagerGaudi3ScaleUp)
    (comm nic qpn : Nat) : Except HclFailure Nat :=
  getQPiScaleUpLoop d m comm nic qpn m.m_maxQPsPerConnection 0

/-- The scale-out manager `QPManagerGaudi3ScaleOut`:
`m_qpInfoScaleOut[comm][remoteRank][qpSet][qpi]`. -/
structure QPManagerGaudi3ScaleOut where
  /-- `m_maxQPsPerConnection`. -/
  m_maxQPsPerConnection : Nat
  /-- `m_qpInfoScaleOut`. -/
  m_qpInfoScaleOut : List (List (List (List Nat)))
  deriving DecidableEq, Repr

/-- The constructor `QPManagerGaudi3ScaleOut::QPManagerGaudi3ScaleOut`: the
table starts empty. -/
def QPManagerGaudi3ScaleOut.new (d : Gaudi3Device) : QPManagerGaudi3ScaleOut :=
  { m_maxQPsPerConnection := d.MAX_QPS_PER_CONNECTION_G3, m_qpInfoScaleOut := [] }

/-- The function `QPManagerGaudi3ScaleOut::resizeDBForNewComms`: the new
communicators hold no rank yet, so the fill loop finds nothing to fill. -/
def QPManagerGaudi3ScaleOut.resizeDBForNewComms (d : Gaudi3Device)
    (m : QPManagerGaudi3ScaleOut) : QPManagerGaudi3ScaleOut :=
  { m with
    m_qpInfoScaleOut := m.m_qpInfoScaleOut ++ List.replicate d.DEFAULT_COMMUNICATORS_SIZE [] }

/-- A rank entry with every connection `INVALID_QP`. -/
def invalidRankEntry (d : Gaudi3Device) : List (List Nat) :=
  List.replicate d.MAX_QPS_SETS_PER_CONNECTION
    (List.replicate d.MAX_QPS_PER_CONNECTION_G3 d.INVALID_QP)

/-- The function `QPManagerGaudi3ScaleOut::resizeDBPerComm`: the communicator's
vector is resized to the communicator size and every entry filled with
`INVALID_QP`. -/
def QPManagerGaudi3ScaleOut.resizeDBPerComm (d : Gaudi3Device) (m : QPManagerGaudi3ScaleOut)
    (comm : Nat) : Outcome QPManagerGaudi3ScaleOut :=
  match at? m.m_qpInfoScaleOut comm with
  | .error e => ⟨m, some e⟩
  | .ok _ =>
    ⟨{ m with
        m_qpInfoScaleOut :=
          m.m_qpInfoScaleOut.set comm
            (List.replicate (d.getCommSize comm) (invalidRankEntry d)) }, none⟩

/-- The assignment `m_qpInfoScaleOut.at(comm).at(remoteRank).at(qpSet).at(qpi) = v`. -/
def setScaleOut (t : List (List (List (List Nat)))) (comm remoteRank qpSet qpi v : Nat) :
    Except HclFailure (List (List (List (List Nat)))) :=
  match at? t comm with
  | .error e => .error e
  | .ok ranks =>
    match at? ranks remoteRank with
    | .error e => .error e
    | .ok sets =>
      match at? sets qpSet with
      | .error e => .error e
      | .ok row =>
        if qpi < row.length then
          .ok (t.set comm (ranks.set remoteRank (sets.set qpSet (row.set qpi v))))
        else .error .outOfRange

/-- The inner `for` loop of scale-out `registerQPs`, from role `qpi` on; the
`break` ends it at the first index outside `qps`. -/
def registerScaleOutInner (maxQPs comm remoteRank qpSet : Nat) (qps : List Nat) :
    Nat → Nat → List (List (List (List Nat))) → Outcome (List (List (List (List Nat))))
  | 0, _, t => ⟨t, none⟩
  | fuel + 1, qpi, t =>
    let qpIndex := u32 (maxQPs * qpSet + qpi)
    if qps.length ≤ qpIndex then ⟨t, none⟩
    else
      match at? qps qpIndex with
      | .error e => ⟨t, some e⟩
      | .ok qpBase =>
        match setScaleOut t comm remoteRank qpSet qpi qpBase with
        | .error e => ⟨t, some e⟩
        | .ok t1 => registerScaleOutInner maxQPs comm remoteRank qpSet qps fuel (qpi + 1) t1

/-- The outer `for` loop of scale-out `registerQPs`, from set `qpSet` on. -/
def registerScaleOutOuter (maxQPs comm remoteRank : Nat) (qps : List Nat) :
    Nat → Nat → List (List (List (List Nat))) → Outcome (List (List (List (List Nat))))
  | 0, _, t => ⟨t, none⟩
  | fuel + 1, qpSet, t =>
    match registerScaleOutInner maxQPs comm remoteRank qpSet qps maxQPs 0 t with
    | ⟨t1, some e⟩ => ⟨t1, some e⟩
    | ⟨t1, none⟩ => registerScaleOutOuter maxQPs comm remoteRank qps fuel (qpSet + 1) t1

/-- The function `QPManagerGaudi3ScaleOut::registerQPs`. -/
def QPManagerGaudi3ScaleOut.registerQPs (d : Gaudi3Device) (m : QPManagerGaudi3ScaleOut)
    (comm remoteRank : Nat) (qps : List Nat) : Outcome QPManagerGaudi3ScaleOut :=
  let m1 := if m.m_qpInfoScaleOut.length ≤ comm then m.resizeDBForNewComms d else m
  match at? m1.m_qpInfoScaleOut comm with
  | .error e => ⟨m1, some e⟩
  | .ok ranks =>
    let r2 : Outcome QPManagerGaudi3ScaleOut :=
      if ranks.length = 0 then m1.resizeDBPerComm d comm else ⟨m1, none⟩
    match r2 with
    | ⟨m2, some e⟩ => ⟨m2, some e⟩
    | ⟨m2, none⟩ =>
      let r := registerScaleOutOuter m2.m_maxQPsPerConnection comm remoteRank qps
        d.MAX_QPS_SETS_PER_CONNECTION 0 m2.m_qpInfoScaleOut
      ⟨{ m2 with m_qpInfoScaleOut := r.state }, r.failure⟩

/-- The function `QPManagerGaudi3ScaleOut::getQPn`. -/
def QPManagerGaudi3ScaleOut.getQPn (m : QPManagerGaudi3ScaleOut)
    (comm remoteRank qpSet qpi : Nat) : Except HclFailure Nat :=
  match at? m.m_qpInfoScaleOut comm with
  | .error e => .error e
  | .ok ranks =>
    match at? ranks remoteRank with
    | .error e => .error e
    | .ok sets =>
      match at? sets qpSet with
      | .error e => .error e
      | .ok row => at? row qpi

/-! ## The connection of an operation -/

/-- The enumeration `G3::QP_e` of the roles of a connection; its declaration
is not among the sources, so the numbers of the roles are a parameter. -/
inductive QP_e where
  | QPE_RS_RECV
  | QPE_AG_RECV
  | QPE_A2A_RECV
  | QPE_RS_SEND
  | QPE_AG_SEND
  | QPE_A2A_SEND
  deriving DecidableEq, Repr

/-- The constants `getBaseQpAndUsage` uses whose declarations are not among
the sources. -/
structure Gaudi3Constants where
  /-- The constant `INVALID_COUNT`. -/
  INVALID_COUNT : Nat
  /-- The enumerator `LOOPBACK` of `HclConfigType`. -/
  LOOPBACK : Nat
  /-- The number of each role of `G3::QP_e`. -/
  qpIndex : QP_e → Nat

/-- The struct `QPUsage`. -/
structure QPUsage where
  /-- The connection id. -/
  qpn : Nat
  /-- The flag `disregardRank`. -/
  disregardRank : Bool
  deriving DecidableEq, Repr

/-- The class `QPManagerGaudi3` with its two subclasses. -/
inductive QPManagerGaudi3 where
  | scaleUp (m : QPManagerGaudi3ScaleUp)
  | scaleOut (m : QPManagerGaudi3ScaleOut)

/-- The virtual function `getQPn(hints)`, by the members of the hints it reads. -/
def QPManagerGaudi3.getQPn (m : QPManagerGaudi3) (comm remoteRank qpi qpSet : Nat) :
    Except HclFailure Nat :=
  match m with
  | .scaleUp up => up.getQPn comm qpi
  | .scaleOut out => out.getQPn comm remoteRank qpSet qpi

/-- The `switch` of `QPManagerGaudi3::getBaseQpAndUsage`: the role `qpi` and the
flag `ret.disregardRank` it leaves. -/
def getBaseQpAndUsageSwitch (k : Gaudi3Constants) (collectiveOp : HCL_CollectiveOp)
    (isSend isComplexCollective isReductionInIMB isHierarchical : Bool) (boxType : Nat)
    (isScaleOut isReduction : Bool) (complexCollective : HCL_CollectiveOp)
    (isRoot outOfBounds : Bool) : Except HclFailure (QP_e × Bool) :=
  match collectiveOp with
  | eHCLReduceScatter =>
    if isSend = true then .ok (.QPE_RS_SEND, false)
    else if isComplexCollective = true ∧ isReductionInIMB = false ∧
        (isHierarchical = false ∨ outOfBounds = true) then
      if complexCollective = eHCLReduce ∧ isRoot = false ∧ outOfBounds = false then
        .ok (.QPE_RS_RECV, true)
      else .ok (.QPE_RS_RECV, false)
    else if (isComplexCollective = true ∧ isReductionInIMB = true ∧ outOfBounds = true) ∨
        isReduction = true then
      .ok (.QPE_RS_RECV, false)
    else if complexCollective = eHCLReduce ∧ isRoot = true ∧ isReductionInIMB = false ∧
        isHierarchical = true then
      .ok (.QPE_RS_RECV, false)
    else .ok (.QPE_RS_RECV, true)
  | eHCLGather | eHCLAllGather =>
    if isSend = true then
      if isComplexCollective = false ∨ collectiveOp = eHCLGather then .ok (.QPE_AG_SEND, true)
      else .ok (.QPE_AG_SEND, false)
    else .ok (.QPE_AG_RECV, false)
  | eHCLAll2All =>
    if isScaleOut = true then
      if isSend = true then .ok (.QPE_RS_SEND, false) else .ok (.QPE_RS_RECV, false)
    else
      if isSend = true then .ok (.QPE_A2A_SEND, false) else .ok (.QPE_A2A_RECV, false)
  | eHCLReduce | eHCLScatter =>
    if isSend = true then .ok (.QPE_RS_SEND, decide (boxType = k.LOOPBACK))
    else .ok (.QPE_RS_RECV, true)
  | eHCLBroadcast | eHCLSinglePeerBroadcast | eHCLSimpleBroadcast =>
    if isSend = true then .ok (.QPE_AG_SEND, true) else .ok (.QPE_AG_RECV, true)
  | eHCLNoCollective =>
    if isSend = true then .ok (.QPE_RS_SEND, true) else .ok (.QPE_RS_RECV, true)
  | _ => .error (.verify .cannotRunCollectiveOp)

/-- The function `QPManagerGaudi3::getBaseQpAndUsage`. `comm`, `myRank` and
`scaleupGroupSize` are what it reads of `dynamicComm` (the communicator id,
`getMyRank()` and `getScaleupGroupSize()`). -/
def QPManagerGaudi3.getBaseQpAndUsage (k : Gaudi3Constants) (m : QPManagerGaudi3)
    (comm myRank scaleupGroupSize : Nat) (collectiveOp : HCL_CollectiveOp)
    (isSend isComplexCollective isReductionInIMB isHierarchical : Bool)
    (count cellCount boxType : Nat) (isScaleOut : Bool) (remoteRank qpSet : Nat)
    (isReduction : Bool) (complexCollective : HCL_CollectiveOp) (isRoot : Bool) :
    Except HclFailure QPUsage :=
  let outOfBounds : Except HclFailure Bool :=
    if count ≠ k.INVALID_COUNT then
      match mod myRank scaleupGroupSize with
      | .error e => .error e
      | .ok r => .ok (decide (count ≤ u64 (cellCount * r)))
    else .ok false
  match outOfBounds with
  | .error e => .error e
  | .ok oob =>
    match getBaseQpAndUsageSwitch k collectiveOp isSend isComplexCollective isReductionInIMB
        isHierarchical boxType isScaleOut isReduction complexCollective isRoot oob with
    | .error e => .error e
    | .ok (qpi, disregardRank) =>
      match m.getQPn comm remoteRank (k.qpIndex qpi) qpSet with
      | .error e => .error e
      | .ok qpn => .ok { qpn := qpn, disregardRank := if isScaleOut = true then true
                                                      else disregardRank }

/-! ## The roles of a connection -/

/-- The function `QPManagerGaudi3::getQPi(collectiveOp, isSend)`: the number of
the role of an operation and a direction; the `default` label is a failed
`VERIFY`. -/
def QPManagerGaudi3.getQPi (k : Gaudi3Constants) (collectiveOp : HCL_CollectiveOp)
    (isSend : Bool) : Except HclFailure Nat :=
  match collectiveOp with
  | eHCLReduceScatter =>
    .ok (if isSend = true then k.qpIndex .QPE_RS_SEND else k.qpIndex .QPE_RS_RECV)
  | eHCLAllGather =>
    .ok (if isSend = true then k.qpIndex .QPE_AG_SEND else k.qpIndex .QPE_AG_RECV)
  | eHCLAll2All =>
    .ok (if isSend = true then k.qpIndex .QPE_A2A_SEND else k.qpIndex .QPE_A2A_RECV)
  | _ => .error (.verify .invalidOp)

/-- The function `QPManagerGaudi3::getDestQPi`: a `switch` over the number
`qpi` with one `case` per role, in the order of the source; a number that is
no role leaves the `switch` for the failed `VERIFY`. -/
def QPManagerGaudi3.getDestQPi (k : Gaudi3Constants) (qpi : Nat) : Except HclFailure Nat :=
  if qpi = k.qpIndex .QPE_RS_RECV then .ok (k.qpIndex .QPE_RS_SEND)
  else if qpi = k.qpIndex .QPE_AG_RECV then .ok (k.qpIndex .QPE_AG_SEND)
  else if qpi = k.qpIndex .QPE_RS_SEND then .ok (k.qpIndex .QPE_RS_RECV)
  else if qpi = k.qpIndex .QPE_AG_SEND then .ok (k.qpIndex .QPE_AG_RECV)
  else if qpi = k.qpIndex .QPE_A2A_SEND then .ok (k.qpIndex .QPE_A2A_RECV)
  else if qpi = k.qpIndex .QPE_A2A_RECV then .ok (k.qpIndex .QPE_A2A_SEND)
  else .error (.verify .unreachableCode)

/-- The function `HclDeviceGaudi3::isSender`. -/
def HclDeviceGaudi3.isSender (k : Gaudi3Constants) (_qpi : Nat) : Bool :=
  decide (_qpi = k.qpIndex .QPE_RS_SEND) || decide (_qpi = k.qpIndex .QPE_AG_SEND) ||
    decide (_qpi = k.qpIndex .QPE_A2A_SEND)

/-- The test of the loop body of `HclDeviceGaudi3::allocateQps` for the role
number `i`: true when `createCollectiveQp` opens a connection, false when the
id 0 is pushed instead. `isRsQp` and `isA2AQp` are the static helpers of
`QPManagerGaudi3ScaleOut`, whose definitions are not among the sources;
`nullSubmit` is `GCFG_HCL_NULL_SUBMIT` and `isPeer` is
`getComm(comm).isPeer(remoteRank)`. -/
def HclDeviceGaudi3.allocateQpsOpens (isRsQp isA2AQp : Nat → Bool)
    (nullSubmit isScaleOut isPeer : Bool) (i : Nat) : Bool :=
  if (isScaleOut = true ∧ ((isPeer = false ∧ isRsQp i = false) ∨
      (isPeer = true ∧ isA2AQp i = true))) ∨ nullSubmit = true then false
  else true

/-! ## Closing the connections of a communicator -/

/-- The device and communicator functions `closeQPs` calls whose definitions
are not among the sources; they are parameters of the tables. -/
structure Gaudi3Ports where
  /-- `m_device.getComm(comm).getInnerRanksExclusive()`. -/
  getInnerRanksExclusive : Nat → List Nat
  /-- `m_device.getComm(comm).getOuterRanksExclusive()`. -/
  getOuterRanksExclusive : Nat → List Nat
  /-- `m_device.getActiveNics(m_device.getMyRank(comm), rank, 1, comm)`, by
  `rank` and `comm`. -/
  getActiveNics : Nat → Nat → List Nat
  /-- `m_device.isScaleOutPort(nic, comm)`. -/
  isScaleOutPort : Nat → Nat → Bool
  /-- The helper `isInvalidQPn(qpn)`. -/
  isInvalidQPn : Nat → Bool

/-- A connection table during `closeQPs`, with the calls
`m_device.destroyQp(nic, qpn)` made so far, in order. -/
structure Closing (τ : Type) where
  /-- The table. -/
  table : τ
  /-- The pairs `(nic, qpn)` handed to `destroyQp`. -/
  destroyed : List (Nat × Nat)

/-- A `for` loop over `xs` whose body can fail: a failure ends the loop in the
state reached. -/
def forEach {α σ : Type} (body : α → σ → Outcome σ) : List α → σ → Outcome σ
  | [], s => ⟨s, none⟩
  | x :: xs, s =>
    match body x s with
    | ⟨s1, some e⟩ => ⟨s1, some e⟩
    | ⟨s1, none⟩ => forEach body xs s1

/-- The read `m_qpInfoScaleUp.at(comm).at(qpi)`. -/
def getScaleUp (t : List (List Nat)) (comm qpi : Nat) : Except HclFailure Nat :=
  match at? t comm with
  | .error e => .error e
  | .ok row => at? row qpi

/-- The body of the loop over the nics of scale-up `closeQPs`. -/
def closeScaleUpNic (d : Gaudi3Device) (p : Gaudi3Ports) (comm qpi nic : Nat)
    (st : Closing (List (List Nat))) : Outcome (Closing (List (List Nat))) :=
  if p.isScaleOutPort nic comm = true then ⟨st, none⟩
  else
    match getScaleUp st.table comm qpi with
    | .error e => ⟨st, some e⟩
    | .ok qpBase =>
      if p.isInvalidQPn qpBase = true then ⟨st, none⟩
      else
        ⟨{ st with
            destroyed := st.destroyed ++ [(nic, u32 (qpBase + d.getNicToQpOffset nic))] }, none⟩

/-- The body of the loop over the roles of scale-up `closeQPs`: the loop over
the nics of the connection to `rank`, then the entry is set to 0. -/
def closeScaleUpQpi (d : Gaudi3Device) (p : Gaudi3Ports) (comm rank qpi : Nat)
    (st : Closing (List (List Nat))) : Outcome (Closing (List (List Nat))) :=
  match forEach (closeScaleUpNic d p comm qpi) (p.getActiveNics rank comm) st with
  | ⟨st1, some e⟩ => ⟨st1, some e⟩
  | ⟨st1, none⟩ =>
    match setScaleUp st1.table comm qpi 0 with
    | .error e => ⟨st1, some e⟩
    | .ok t1 => ⟨{ st1 with table := t1 }, none⟩

/-- The function `QPManagerGaudi3ScaleUp::closeQPs`: the manager it leaves and
the connections it destroyed. -/
def QPManagerGaudi3ScaleUp.closeQPs (d : Gaudi3Device) (p : Gaudi3Ports)
    (m : QPManagerGaudi3ScaleUp) (comm : Nat) : Outcome (Closing QPManagerGaudi3ScaleUp) :=
  let r := forEach
    (fun rank => forEach (closeScaleUpQpi d p comm rank) (List.range m.m_maxQPsPerConnection))
    (p.getInnerRanksExclusive comm) ⟨m.m_qpInfoScaleUp, []⟩
  ⟨⟨{ m with m_qpInfoScaleUp := r.state.table }, r.state.destroyed⟩, r.failure⟩

/-- The read `m_qpInfoScaleOut.at(comm).at(rank).at(qpSet).at(qpi)`. -/
def getScaleOut (t : List (List (List (List Nat)))) (comm remoteRank qpSet qpi : Nat) :
    Except HclFailure Nat :=
  match at? t comm with
  | .error e => .error e
  | .ok ranks =>
    match at? ranks remoteRank with
    | .error e => .error e
    | .ok sets =>
      match at? sets qpSet with
      | .error e => .error e
      | .ok row => at? row qpi

/-- The body of the loop over the nics of scale-out `closeQPs`. -/
def closeScaleOutNic (d : Gaudi3Device) (p : Gaudi3Ports) (comm rank qpSet qpi nic : Nat)
    (st : Closing (List (List (List (List Nat))))) :
    Outcome (Closing (List (List (List (List Nat))))) :=
  if p.isScaleOutPort nic comm = false then ⟨st, none⟩
  else
    match getScaleOut st.table comm rank qpSet qpi with
    | .error e => ⟨st, some e⟩
    | .ok qpBase =>
      if p.isInvalidQPn qpBase = true then ⟨st, none⟩
      else
        ⟨{ st with
            destroyed := st.destroyed ++ [(nic, u32 (qpBase + d.getNicToQpOffset nic))] }, none⟩

/-- The body of the loop over the roles of scale-out `closeQPs`: the loop over
the nics of the connection to `rank`, then the entry is set to 0. -/
def closeScaleOutQpi (d : Gaudi3Device) (p : Gaudi3Ports) (comm rank qpSet qpi : Nat)
    (st : Closing (List (List (List (List Nat))))) :
    Outcome (Closing (List (List (List (List Nat))))) :=
  match forEach (closeScaleOutNic d p comm rank qpSet qpi) (p.getActiveNics rank comm) st with
  | ⟨st1, some e⟩ => ⟨st1, some e⟩
  | ⟨st1, none⟩ =>
    match setScaleOut st1.table comm rank qpSet qpi 0 with
    | .error e => ⟨st1, some e⟩
    | .ok t1 => ⟨{ st1 with table := t1 }, none⟩

/-- The loops of scale-out `closeQPs` over the connection sets and the roles
of the connection to `rank`. -/
def closeScaleOutRank (d : Gaudi3Device) (p : Gaudi3Ports) (maxQPs comm rank : Nat)
    (st : Closing (List (List (List (List Nat))))) :
    Outcome (Closing (List (List (List (List Nat))))) :=
  forEach
    (fun qpSet => forEach (closeScaleOutQpi d p comm rank qpSet) (List.range maxQPs))
    (List.range d.MAX_QPS_SETS_PER_CONNECTION) st

/-- The function `QPManagerGaudi3ScaleOut::closeQPs`: the manager it leaves and
the connections it destroyed. An empty table (the host-nic flows) is left as
it is. -/
def QPManagerGaudi3ScaleOut.closeQPs (d : Gaudi3Device) (p : Gaudi3Ports)
    (m : QPManagerGaudi3ScaleOut) (comm : Nat) : Outcome (Closing QPManagerGaudi3ScaleOut) :=
  if m.m_qpInfoScaleOut.length = 0 then ⟨⟨m, []⟩, none⟩
  else
    let r := forEach (closeScaleOutRank d p m.m_maxQPsPerConnection comm)
      (p.getOuterRanksExclusive comm) ⟨m.m_qpInfoScaleOut, []⟩
    ⟨⟨{ m with m_qpInfoScaleOut := r.state.table }, r.state.destroyed⟩, r.failure⟩

/-- The local `sliceCount` of the search loop of `getNumSlices` for the
candidate `k` slices (with `numRanks` and `k` not zero): the rough count
`div_round_up(totalRankCount, k)` rounded up to a multiple of `numRanks`. -/
def sliceCountOf (totalRankCount numRanks k : Nat) : Nat :=
  u32 ((u32 ((totalRankCount + k - 1) / k) + numRanks - 1) / numRanks * numRanks)

/-- The local `sumSlices` of the search loop of `getNumSlices` for the
candidate `k` slices. -/
def sumSlicesOf (totalRankCount numRanks k : Nat) : Nat :=
  u32 (sliceCountOf totalRankCount numRanks k * sub32 k 1)

/-- What the planning theorems assume of a remainder calculator: slicing is
asked for only when the per-rank count exceeds the buffer count (the spec's
rule), and the share `getDiv(a, b)` is at most the ceiling of `a / b`. -/
def RemainderCalculator.Sound (rc : RemainderCalculator) : Prop :=
  (∀ a b c d, rc.isSlicing a b c d = true → c < b) ∧
    (∀ a b v, 0 < b → rc.getDiv a b = .ok v → v * b < a + b)

/-- What the planning theorems assume of a call: a box is not empty and not
larger than the communicator, the boxes visited fit the communicator,
SinglePeerBroadcast has a peer to delegate to, and the counts are small
enough for the 32-bit arithmetic of `getNumSlices`. -/
def CommonState.WellSized (s : CommonState) : Prop :=
  0 < s.m_dynamicComm.podSize ∧
    s.m_dynamicComm.podSize ≤ s.m_dynamicComm.commSize ∧
    s.m_dynamicComm.podSize * s.m_boxIterations ≤ s.m_dynamicComm.commSize ∧
    (s.m_collectiveOp = eHCLSinglePeerBroadcast → 2 ≤ s.m_dynamicComm.podSize) ∧
    (s.m_count + 3) * (s.m_dynamicComm.commSize + 2) < 2 ^ 32

/-- The number of elements of the call one slice covers per element of the
per-rank slice count: the factor by which `calcSliceCounts` multiplies the
slice count of the operation when it subtracts the slices before the final
one. -/
def CommonState.sliceMultiplier (s : CommonState) : Nat :=
  match s.m_collectiveOp with
  | eHCLSimpleBroadcast | eHCLNoCollective | eHCLGather | eHCLAllGather | eHCLAll2All => 1
  | eHCLBroadcast => s.m_dynamicComm.podSize
  | eHCLSinglePeerBroadcast => s.m_dynamicComm.podSize - 1
  | eHCLScatter => s.m_dynamicComm.commSize
  | eHCLReduceScatter | eHCLReduce | eHCLAllReduce =>
    s.m_dynamicComm.podSize * s.m_boxIterations
  | eHCLCollectiveLastValue => 0

/-- The number of elements of the call that one slice with the counts of `s`
covers, as `calcSliceCounts` accounts for it when it subtracts the slices
before the final one from the count of the call. -/
def CommonState.sliceElements (s : CommonState) : Nat :=
  match s.m_collectiveOp with
  | eHCLSimpleBroadcast | eHCLNoCollective | eHCLGather | eHCLAllGather | eHCLAll2All =>
    s.m_rankScaleUpCount
  | eHCLBroadcast | eHCLSinglePeerBroadcast => s.m_boxCount
  | eHCLScatter => s.m_rankScaleUpCount * u64 s.m_dynamicComm.commSize
  | eHCLReduceScatter | eHCLReduce | eHCLAllReduce => s.m_boxCount * s.m_boxIterations
  | eHCLCollectiveLastValue => 0

/-- The number of elements `calcSliceCounts` splits into slices: `m_count`,
and for All-to-All the share `m_count / commSize` of one rank. -/
def CommonState.requestedElements (s : CommonState) : Nat :=
  match s.m_collectiveOp with
  | eHCLAll2All => s.m_count / u64 s.m_dynamicComm.commSize
  | _ => s.m_count

/-- The entry `t[comm][qpi]` of a scale-up table, if it exists. -/
def entryScaleUp (t : List (List Nat)) (comm qpi : Nat) : Option Nat :=
  t[comm]?.bind fun row => row[qpi]?

/-- The invariant of a scale-up manager: the constructor's
`VERIFY(m_maxQPsPerConnection == MAX_QPS_PER_CONNECTION_G3)` and the size of
the `std::array` rows. -/
def QPManagerGaudi3ScaleUp.WellFormed (d : Gaudi3Device) (m : QPManagerGaudi3ScaleUp) : Prop :=
  m.m_maxQPsPerConnection = d.MAX_QPS_PER_CONNECTION_G3 ∧
    ∀ row ∈ m.m_qpInfoScaleUp, row.length = d.MAX_QPS_PER_CONNECTION_G3

/-- The entry `t[comm][remoteRank][qpSet][qpi]` of a scale-out table, if it
exists. -/
def entryScaleOut (t : List (List (List (List Nat)))) (comm remoteRank qpSet qpi : Nat) :
    Option Nat :=
  t[comm]?.bind fun ranks => ranks[remoteRank]?.bind fun sets =>
    sets[qpSet]?.bind fun row => row[qpi]?

/-- The invariant of a scale-out manager: the constructor's
`VERIFY(m_maxQPsPerConnection == MAX_QPS_PER_CONNECTION_G3)` and the sizes of
the `std::array`s of every rank entry. -/
def QPManagerGaudi3ScaleOut.WellFormed (d : Gaudi3Device) (m : QPManagerGaudi3ScaleOut) : Prop :=
  m.m_maxQPsPerConnection = d.MAX_QPS_PER_CONNECTION_G3 ∧
    ∀ ranks ∈ m.m_qpInfoScaleOut, ∀ sets ∈ ranks,
      sets.length = d.MAX_QPS_SETS_PER_CONNECTION ∧
        ∀ row ∈ sets, row.length = d.MAX_QPS_PER_CONNECTION_G3

/-- The number of ranks the vector of `comm` holds once `registerQPs` has
allocated it: its size if it is not empty, else `getCommSize(comm)`. -/
def QPManagerGaudi3ScaleOut.rankCapacity (d : Gaudi3Device) (m : QPManagerGaudi3ScaleOut)
    (comm : Nat) : Nat :=
  match m.m_qpInfoScaleOut[comm]? with
  | some (r :: rs) => (r :: rs).length
  | _ => d.getCommSize comm

/-- The local `lastSliceCount` of the search loop of `getNumSlices` for the
candidate `k` slices. -/
def lastSliceCountOf (totalRankCount numRanks k : Nat) : Nat :=
  u32 (totalRankCount - sumSlicesOf totalRankCount numRanks k)

/-- The local `sliceRatio` of the search loop of `getNumSlices` for the
candidate `k` slices: the first slice over the last one, in sixteenths,
rounded down. -/
def sliceRatioOf (totalRankCount numRanks k : Nat) : Nat :=
  u32 (sliceCountOf totalRankCount numRanks k * 2 ^ SLICE_RATIO_FIXED_POINT_ACCURACY) /
    lastSliceCountOf totalRankCount numRanks k

/-- The candidate `k` of the search loop of `getNumSlices` is valid: its last
slice is not empty and `isValidSlicing` accepts it. -/
def validCandidate (rc : RemainderCalculator)
    (count totalRankCount numRanks originalBufferCount minBufferCount k : Nat) : Bool :=
  decide (sumSlicesOf totalRankCount numRanks k < totalRankCount) &&
    rc.isValidSlicing originalBufferCount (sliceCountOf totalRankCount numRanks k) count k
      numRanks minBufferCount

/-- The local `boxIndex` of `SliceState::calcBoxAndScaleOutCounts`. -/
def SliceState.boxIndex (s : SliceState) : Nat :=
  if (s.m_currentOp = eHCLReduceScatter ∧ s.m_isSend = true) ∨
      (s.m_currentOp ≠ eHCLReduceScatter ∧ s.m_isSend = false) then s.m_boxNum
  else s.m_dynamicComm.myPod

/-- A device with six roles per connection, four connection sets, tables
growing by sixteen communicators, and nic `n` at offset `n`. -/
def device0 : Gaudi3Device :=
  { DEFAULT_COMMUNICATORS_SIZE := 16, MAX_QPS_PER_CONNECTION_G3 := 6,
    MAX_QPS_SETS_PER_CONNECTION := 4, INVALID_QP := 4294967295,
    getNicToQpOffset := fun nic => nic, getCommSize := fun _ => 8 }


/-- A communicator of four ranks in one box; this rank is rank 1. -/
def comm4 : HclDynamicCommunicator :=
  { commSize := 4, podSize := 4, myRank := 1, myPod := 0, rankInPod := 1,
    lastRankInPod := false, multiPod := false, sliceSize := 1024, collectiveCtr := 0,
    maxScaleOutQpSetsNum := 4 }

/-- A call of `count` elements of four bytes on `comm`, before planning. -/
def callState (op : HCL_CollectiveOp) (comm : HclDynamicCommunicator)
    (count sendAddr recvAddr : Nat) : CommonState :=
  { m_collectiveOp := op, m_currentOp := eHCLNoCollective, m_dataType := hcclFloat32,
    m_dataTypeSizeInBytes := 4, m_count := count, m_sendBufferAddr := sendAddr,
    m_recvBufferAddr := recvAddr, m_root := 0, m_dynamicComm := comm, m_rootBox := 0,
    m_isMultiPod := comm.multiPod, m_isRoot := false, m_isRootPeer := false,
    m_isRootBox := true, m_isHostNic := false, m_isGdr := false, m_inPlace := false,
    m_isReductionCollective := false, m_16BitReduction := false, m_boxIterations := 0,
    m_optimalBufferCount := 0, m_scaleUpStrideCount := 0, m_boxStrideCount := 0,
    m_isSlicing := false, m_sliceIterations := 0, m_rankScaleUpCount := 0,
    m_rankScaleOutCount := 0, m_sliceOffsetCount := 0, m_boxCount := 0,
    m_all2allIterations := 0, m_all2allIterStrideCount := 0, m_remainderCount := 0,
    m_hasBufferSize := false, m_reproScaleoutBuffersAmount := 0,
    m_reproScaleoutLongtermAmount := 0, m_qpSet := 0, m_boxIter := 0, m_all2allIter := 0 }

/-- An AllGather of 4 elements of four bytes on two ranks, rank 1 sending from
`recvAddr + 16`. -/
def allGatherCall : CommonState :=
  callState eHCLAllGather { comm4 with commSize := 2, podSize := 2 } 4 16 0

/-- A ReduceScatter of 4 elements of four bytes on two ranks, rank 1 receiving
at `sendAddr + 8`. -/
def reduceScatterCall4 : CommonState :=
  callState eHCLReduceScatter { comm4 with commSize := 2, podSize := 2 } 4 0 8

/-- The call `reduceScatterCall4` with elements of two bytes. -/
def reduceScatterCall2 : CommonState :=
  { reduceScatterCall4 with m_dataType := hcclBfloat16, m_dataTypeSizeInBytes := 2 }

/-- A remainder calculator for the concrete inputs: shares are floor
quotients, slicing is needed when the per-rank count exceeds the buffer count,
a slicing is valid when its slice count fits the buffer and is not below the
minimum, and no remainder is handed out. -/
def floorCalculator : RemainderCalculator :=
  { getDiv := fun a b => div a b,
    isSlicing := fun _ totalCountPerRank bufferCount _ => decide (bufferCount < totalCountPerRank),
    isValidSlicing := fun originalBufferCount sliceCount _ _ _ minBufferCount =>
      decide (sliceCount ≤ originalBufferCount ∧ minBufferCount ≤ sliceCount),
    getRemainderCount := fun _ _ _ => 0,
    getBoxCount := fun nonRemainderBoxCount _ _ _ _ _ => nonRemainderBoxCount,
    getScaleOutCount := fun nonRemainderScaleOutCount _ _ _ _ _ _ _ => nonRemainderScaleOutCount }

/-- The scale-up manager after the six connection ids of the null-submit mode
(`allocateQps` pushes 0 for every role) are registered for communicator 0. -/
def nullSubmitManager : QPManagerGaudi3ScaleUp :=
  ((QPManagerGaudi3ScaleUp.new device0).registerQPs device0 0 [0, 0, 0, 0, 0, 0]).state

/-- A communicator of one rank. -/
def comm1 : HclDynamicCommunicator :=
  { commSize := 1, podSize := 1, myRank := 0, myPod := 0, rankInPod := 0,
    lastRankInPod := true, multiPod := false, sliceSize := 1024, collectiveCtr := 0,
    maxScaleOutQpSetsNum := 4 }

/-- A communicator of two ranks in one box; this rank is rank 1. -/
def comm2 : HclDynamicCommunicator :=
  { commSize := 2, podSize := 2, myRank := 1, myPod := 0, rankInPod := 1,
    lastRankInPod := true, multiPod := false, sliceSize := 1024, collectiveCtr := 0,
    maxScaleOutQpSetsNum := 4 }

/-- An AllReduce of 1024 elements of four bytes on a communicator of one rank,
with a buffer of `o` elements. -/
def bufferState (o : Nat) : CommonState :=
  { callState eHCLAllReduce comm1 1024 0 8192 with m_optimalBufferCount := o }

/-- The state of a planner result, or `d` when planning failed. -/
def stateOr (r : Except HclFailure CommonState) (d : CommonState) : CommonState :=
  match r with
  | .ok s => s
  | .error _ => d

/-- A call of `count` elements of four bytes on a single-box communicator, as
`calcMaxSliceCounts` receives it: `checkHierarchicalOp` has set one box
iteration. -/
def plannable (op : HCL_CollectiveOp) (comm : HclDynamicCommunicator) (count : Nat) :
    CommonState :=
  { callState op comm count 0 65536 with m_boxIterations := 1 }

/-- The global configuration of the concrete inputs. -/
def conf0 : GlobalConf :=
  { HCL_COMPLEX_BCAST_MIN_SIZE := 256, HCL_USE_SINGLE_PEER_BROADCAST := false,
    HCL_MIN_IMB_SIZE_FACTOR := 2 }

/-- The planner state of an AllGather of 2000 elements per rank on four ranks,
after `calcMaxSliceCounts`. -/
def slicedAllGather : CommonState :=
  stateOr (CommonState.calcMaxSliceCounts conf0 floorCalculator
    (plannable eHCLAllGather comm4 2000)) (plannable eHCLAllGather comm4 2000)

/-- The planner state of an AllReduce of 1024 elements on one rank, after
`calcMaxSliceCounts`. -/
def slicedAllReduce : CommonState :=
  stateOr (CommonState.calcMaxSliceCounts conf0 floorCalculator
    (plannable eHCLAllReduce comm1 1024)) (plannable eHCLAllReduce comm1 1024)

/-- A communicator of eight ranks in two boxes of four; this rank is rank 1 of
box 0, the call counter stands at 5 and there are four connection sets. -/
def comm8 : HclDynamicCommunicator :=
  { commSize := 8, podSize := 4, myRank := 1, myPod := 0, rankInPod := 1,
    lastRankInPod := false, multiPod := isCommunicatorMultiPod 8 4, sliceSize := 1024,
    collectiveCtr := 5, maxScaleOutQpSetsNum := 4 }

/-- A call of 1024 elements on `comm8` with root rank `root` in box `rootBox`,
planned as `collectiveOp` and now running the sub-operation `currentOp` over two
box iterations; `isRoot` and `isRootPeer` are the flags of this rank. -/
def hopState (collectiveOp currentOp : HCL_CollectiveOp) (root rootBox : Nat)
    (isRoot isRootPeer : Bool) : CommonState :=
  { callState collectiveOp comm8 1024 0 65536 with
    m_currentOp := currentOp, m_root := root, m_rootBox := rootBox, m_isRoot := isRoot,
    m_isRootPeer := isRootPeer, m_isRootBox := decide (rootBox = 0), m_boxIterations := 2 }

/-- The peer relation of `comm8`: two ranks are peers when they hold the same
position in their boxes. -/
def arePeers8 (rank1 rank2 : Nat) : Bool := decide (rank1 % 4 = rank2 % 4)

/-- A Scatter step of a Broadcast rooted at rank 4 of box 1, seen by rank 5
of box 1, a peer of nobody and not the root. -/
def scatterInRootBox : CommonState :=
  { hopState eHCLBroadcast eHCLScatter 4 1 false false with
    m_dynamicComm := { comm8 with myRank := 5, myPod := 1 } }

/-- A Scatter step of a SinglePeerBroadcast rooted at rank 0 of box 0, seen by
rank 4 of box 1, the peer of the root in that box. -/
def singlePeerReceiver : CommonState :=
  { hopState eHCLSinglePeerBroadcast eHCLScatter 0 0 false true with
    m_dynamicComm := { comm8 with myRank := 4, myPod := 1, rankInPod := 0 } }

/-- The ports of a rank of box 0 of `comm8`: three scale-up nics to each of
the ranks 0, 2 and 3 of its box, two scale-out nics to rank 5 of the other
box; a connection id is invalid when it is 0 or `INVALID_QP`. -/
def ports0 : Gaudi3Ports :=
  { getInnerRanksExclusive := fun _ => [0, 2, 3],
    getOuterRanksExclusive := fun _ => [5],
    getActiveNics := fun rank _ => if rank < 4 then [0, 1, 2] else [8, 22],
    isScaleOutPort := fun nic _ => decide (nic = 8 ∨ nic = 22 ∨ nic = 23),
    isInvalidQPn := fun qpn => decide (qpn = 0 ∨ qpn = 4294967295) }

/-- The ports `ports0` with a helper `isInvalidQPn` that counts only
`INVALID_QP` as invalid. -/
def portsStrict : Gaudi3Ports :=
  { ports0 with isInvalidQPn := fun qpn => decide (qpn = 4294967295) }

/-- The scale-up manager with six connections registered for communicator 0. -/
def openScaleUp : QPManagerGaudi3ScaleUp :=
  ((QPManagerGaudi3ScaleUp.new device0).registerQPs device0 0 [10, 20, 30, 40, 50, 60]).state

/-- The scale-out manager with two connection sets of six connections
registered for rank 5 of communicator 0. -/
def openScaleOut : QPManagerGaudi3ScaleOut :=
  ((QPManagerGaudi3ScaleOut.new device0).registerQPs device0 0 5
    [100, 110, 120, 130, 140, 150, 200, 210, 220, 230, 240, 250]).state

/-- An AllReduce of 1024 bfloat16 elements on a communicator of one rank. -/
def bf16AllReduce : CommonState :=
  { callState eHCLAllReduce comm1 1024 0 8192 with
    m_dataType := hcclBfloat16, m_dataTypeSizeInBytes := 2 }

/-- The planner state of `bf16AllReduce`. -/
def plannedBf16AllReduce : CommonState :=
  stateOr (CommonState.plan conf0 floorCalculator bf16AllReduce false) bf16AllReduce

/-- The slice state of the leg of slice `sliceIter` towards box `boxNum`. -/
def sliceOf (c : CommonState) (isSend : Bool) (sliceIter boxNum : Nat) : SliceState :=
  { toCommonState := c, m_isSend := isSend, m_sliceIter := sliceIter, m_boxNum := boxNum }

/-- The receive leg of the ReduceScatter step of `plannedBf16AllReduce` for
slice 0 from box 1. -/
def reduceScatterRecv : SliceState :=
  sliceOf { plannedBf16AllReduce with m_currentOp := eHCLReduceScatter } false 0 1

/-- The constants of the concrete inputs: the roles numbered in the order of
their declaration here. -/
def consts0 : Gaudi3Constants :=
  { INVALID_COUNT := 18446744073709551615, LOOPBACK := 3,
    qpIndex := fun q =>
      match q with
      | .QPE_RS_RECV => 0
      | .QPE_AG_RECV => 1
      | .QPE_A2A_RECV => 2
      | .QPE_RS_SEND => 3
      | .QPE_AG_SEND => 4
      | .QPE_A2A_SEND => 5 }

/-- A remainder calculator that accepts a slicing only when its slices fill
the whole buffer and a minimum buffer count is asked for. -/
def fullBufferCalculator : RemainderCalculator :=
  { floorCalculator with
    isValidSlicing := fun originalBufferCount sliceCount _ _ _ minBufferCount =>
      decide (sliceCount = originalBufferCount ∧ 0 < minBufferCount ∧
        minBufferCount ≤ sliceCount) }

/-- The state `getNumSlices` leaves of `bufferState 256` for 1001 elements. -/
def searched251 : CommonState := { bufferState 256 with m_optimalBufferCount := 251 }

/-- The planner state of an AllReduce on `comm8` in its ReduceScatter step,
with one reduction staging buffer and two box iterations. -/
def stagedAllReduce : CommonState :=
  { hopState eHCLAllReduce eHCLReduceScatter 0 0 true false with
    m_reproScaleoutBuffersAmount := 1, m_isReductionCollective := true }

/-- The send of the rank of box 0 of `comm8` to box 1 in `stagedAllReduce`. -/
def sendToBox1 : SliceState := sliceOf stagedAllReduce true 0 1

/-- The state of rank 5 of box 1 of `comm8` in the call of `stagedAllReduce`. -/
def stagedInBox1 : CommonState :=
  { stagedAllReduce with m_dynamicComm := { comm8 with myRank := 5, myPod := 1 } }

/-- The helper `isRsQp` for the role numbers of `consts0`. -/
def isRsQp0 (i : Nat) : Bool := decide (i = 0 ∨ i = 3)

/-- The helper `isA2AQp` for the role numbers of `consts0`. -/
def isA2AQp0 (i : Nat) : Bool := decide (i = 2 ∨ i = 5)

/-- A Broadcast of 1024 elements of four bytes on the single box of `comm4`. -/
def bigBroadcast : CommonState := callState eHCLBroadcast comm4 1024 0 65536

/-- The ports `ports0` with scale-up nics of their own for each rank of the
box: nics 0 to 2 lead to rank 0, nics 3 to 5 to rank 2, nics 6, 7 and 9 to
rank 3. -/
def portsPerRank : Gaudi3Ports :=
  { ports0 with
    getActiveNics := fun rank _ =>
      if rank = 0 then [0, 1, 2] else if rank = 2 then [3, 4, 5] else [6, 7, 9] }

/-- The ports `portsPerRank` with a helper `isInvalidQPn` that counts only
`INVALID_QP` as invalid. -/
def portsPerRankStrict : Gaudi3Ports :=
  { portsPerRank with isInvalidQPn := fun qpn => decide (qpn = 4294967295) }

theorem u64_of_lt {n : Nat} (h : n < 2 ^ 64) : u64 n = n := Nat.mod_eq_of_lt h

theorem u32_of_lt {n : Nat} (h : n < 2 ^ 32) : u32 n = n := Nat.mod_eq_of_lt h

/-- C5: for a ReduceScatter call (communicator not empty, no 64-bit overflow of
the byte size or of the end of the send buffer) `checkInPlaceOp` returns the
state with the in-place flag true exactly when
`recvAddr = sendAddr + ((elementSize * count) / commSize) * myRank`. -/
theorem checkInPlaceOp_reduceScatter (s : CommonState)
    (hop : s.m_collectiveOp = eHCLReduceScatter)
    (hcomm : 0 < s.m_dynamicComm.commSize) (hcomm32 : s.m_dynamicComm.commSize < 2 ^ 32)
    (hsize : s.m_dataTypeSizeInBytes * s.m_count < 2 ^ 64)
    (hend : s.m_sendBufferAddr +
      (s.m_dataTypeSizeInBytes * s.m_count / s.m_dynamicComm.commSize) *
        s.m_dynamicComm.myRank < 2 ^ 64) :
    s.checkInPlaceOp = .ok { s with
      m_inPlace := decide (s.m_recvBufferAddr = s.m_sendBufferAddr +
        (s.m_dataTypeSizeInBytes * s.m_count / s.m_dynamicComm.commSize) *
          s.m_dynamicComm.myRank) } := by
  have hne : u32 s.m_dynamicComm.commSize ≠ 0 := by
    rw [u32_of_lt hcomm32]; omega
  have hoff : (s.m_dataTypeSizeInBytes * s.m_count / s.m_dynamicComm.commSize) *
      s.m_dynamicComm.myRank < 2 ^ 64 := by omega
  simp only [CommonState.checkInPlaceOp, hop, hne, if_false]
  rw [u32_of_lt hcomm32, Nat.mul_comm s.m_count, u64_of_lt hsize, u64_of_lt hoff,
    u64_of_lt hend]

/-- Witness of C5: four ranks, 64 elements of four bytes, rank 1 receiving at
offset 64 of the send buffer. -/
theorem checkInPlaceOp_reduceScatter_witness :
    (callState eHCLReduceScatter comm4 64 4096 4160).checkInPlaceOp =
      .ok { callState eHCLReduceScatter comm4 64 4096 4160 with m_inPlace := true } :=
  checkInPlaceOp_reduceScatter (callState eHCLReduceScatter comm4 64 4096 4160) rfl
    (by decide) (by decide) (by decide) (by decide)

/-- Counterexample of C6: AllGather of 4 elements of four bytes on two ranks,
rank 1 sending from `recvAddr + 16`: the code reports in-place, although the
address does not differ by the ReduceScatter offset `(4 * 4 / 2) * 1 = 8`. -/
theorem checkInPlaceOp_allGather_not_reduceScatter_offset :
    (allGatherCall.checkInPlaceOp.map fun s => s.m_inPlace) = .ok true ∧
      allGatherCall.m_sendBufferAddr ≠ allGatherCall.m_recvBufferAddr +
        (allGatherCall.m_dataTypeSizeInBytes * allGatherCall.m_count /
          allGatherCall.m_dynamicComm.commSize) * allGatherCall.m_dynamicComm.myRank := by
  constructor
  · rfl
  · decide

/-- C6 (amended): for an AllGather call (no 64-bit overflow) `checkInPlaceOp`
returns the state with the in-place flag true exactly when
`sendAddr = recvAddr + (elementSize * count) * myRank`: the byte offset is the
whole per-rank size times the rank, not divided by the communicator size. -/
theorem checkInPlaceOp_allGather (s : CommonState)
    (hop : s.m_collectiveOp = eHCLAllGather)
    (hsize : s.m_dataTypeSizeInBytes * s.m_count < 2 ^ 64)
    (hend : s.m_recvBufferAddr +
      (s.m_dataTypeSizeInBytes * s.m_count) * s.m_dynamicComm.myRank < 2 ^ 64) :
    s.checkInPlaceOp = .ok { s with
      m_inPlace := decide (s.m_sendBufferAddr = s.m_recvBufferAddr +
        (s.m_dataTypeSizeInBytes * s.m_count) * s.m_dynamicComm.myRank) } := by
  have hoff : (s.m_dataTypeSizeInBytes * s.m_count) * s.m_dynamicComm.myRank < 2 ^ 64 := by
    omega
  simp only [CommonState.checkInPlaceOp, hop]
  rw [Nat.mul_comm s.m_count, u64_of_lt hsize, u64_of_lt hoff, u64_of_lt hend]

/-- Witness of C6 (amended): the input of the counterexample. -/
theorem checkInPlaceOp_allGather_witness :
    allGatherCall.checkInPlaceOp = .ok { allGatherCall with m_inPlace := true } :=
  checkInPlaceOp_allGather allGatherCall rfl (by decide) (by decide)

/-- Counterexample of C7: two ReduceScatter calls that agree on operation kind,
send address, receive address, count, rank and communicator size, and differ
in the element type (four bytes against two): the first is in place, the
second is not. -/
theorem checkInPlaceOp_not_function_of_six :
    reduceScatterCall4.m_collectiveOp = reduceScatterCall2.m_collectiveOp ∧
      reduceScatterCall4.m_sendBufferAddr = reduceScatterCall2.m_sendBufferAddr ∧
      reduceScatterCall4.m_recvBufferAddr = reduceScatterCall2.m_recvBufferAddr ∧
      reduceScatterCall4.m_count = reduceScatterCall2.m_count ∧
      reduceScatterCall4.m_dynamicComm.myRank = reduceScatterCall2.m_dynamicComm.myRank ∧
      reduceScatterCall4.m_dynamicComm.commSize = reduceScatterCall2.m_dynamicComm.commSize ∧
      (reduceScatterCall4.checkInPlaceOp.map fun s => s.m_inPlace) = .ok true ∧
      (reduceScatterCall2.checkInPlaceOp.map fun s => s.m_inPlace) = .ok false := by
  refine ⟨rfl, rfl, rfl, rfl, rfl, rfl, rfl, rfl⟩

/-- C7 (amended): in-place detection is a function of operation kind, send
address, receive address, count, rank, communicator size, element type,
element size and the multi-box flag of the communicator: two evaluations
whose inputs agree on these yield the same flag, or fail the same way. -/
theorem checkInPlaceOp_function_of_inputs (s t : CommonState)
    (hop : s.m_collectiveOp = t.m_collectiveOp)
    (hsend : s.m_sendBufferAddr = t.m_sendBufferAddr)
    (hrecv : s.m_recvBufferAddr = t.m_recvBufferAddr)
    (hcount : s.m_count = t.m_count)
    (hrank : s.m_dynamicComm.myRank = t.m_dynamicComm.myRank)
    (hcomm : s.m_dynamicComm.commSize = t.m_dynamicComm.commSize)
    (htype : s.m_dataType = t.m_dataType)
    (hsize : s.m_dataTypeSizeInBytes = t.m_dataTypeSizeInBytes)
    (hmulti : s.m_dynamicComm.multiPod = t.m_dynamicComm.multiPod) :
    (s.checkInPlaceOp.map fun x => x.m_inPlace) =
      (t.checkInPlaceOp.map fun x => x.m_inPlace) := by
  simp only [CommonState.checkInPlaceOp, hop, hsend, hrecv, hcount, hrank, hcomm, htype, hsize,
    hmulti]
  cases t.m_collectiveOp <;> first | rfl | (simp only []; split <;> rfl)

/-- Witness of C7 (amended): the same ReduceScatter call, once before and once
after the root and the box iterations of the state are changed. -/
theorem checkInPlaceOp_function_of_inputs_witness :
    (reduceScatterCall4.checkInPlaceOp.map fun x => x.m_inPlace) =
      (({ reduceScatterCall4 with m_root := 3, m_boxIterations := 7 } :
        CommonState).checkInPlaceOp.map fun x => x.m_inPlace) :=
  checkInPlaceOp_function_of_inputs reduceScatterCall4
    { reduceScatterCall4 with m_root := 3, m_boxIterations := 7 }
    rfl rfl rfl rfl rfl rfl rfl rfl rfl

/-- C4: for an All-to-All call with identical send and receive addresses
`checkInPlaceOp` fails at its `VERIFY` and so does planning, which never
returns a state; with different addresses `checkInPlaceOp` returns the state
with the in-place flag false; so every state it returns for All-to-All has the
flag false. -/
theorem checkInPlaceOp_all2All (cfg : GlobalConf) (rc : RemainderCalculator) (s : CommonState)
    (allowed : Bool) (hop : s.m_collectiveOp = eHCLAll2All) :
    (s.m_sendBufferAddr = s.m_recvBufferAddr →
      s.checkInPlaceOp = .error (.verify .all2AllInPlace) ∧
      CommonState.plan cfg rc s allowed = .error (.verify .all2AllInPlace)) ∧
    (s.m_sendBufferAddr ≠ s.m_recvBufferAddr →
      s.checkInPlaceOp = .ok { s with m_inPlace := false }) ∧
    (∀ s1, s.checkInPlaceOp = .ok s1 → s1.m_inPlace = false) := by
  have hinit : CommonState.initCollectiveOp cfg s allowed = s := by
    simp [CommonState.initCollectiveOp, hop]
  refine ⟨fun h => ?_, fun h => ?_, fun s1 h1 => ?_⟩
  · have hc : s.checkInPlaceOp = .error (.verify .all2AllInPlace) := by
      simp [CommonState.checkInPlaceOp, hop, h]
    exact ⟨hc, by simp [CommonState.plan, hinit, hc]⟩
  · simp [CommonState.checkInPlaceOp, hop, h]
  · by_cases h : s.m_sendBufferAddr = s.m_recvBufferAddr
    · simp [CommonState.checkInPlaceOp, hop, h] at h1
    · simp only [CommonState.checkInPlaceOp, hop, ne_eq, h, not_false_eq_true, if_true,
        Except.ok.injEq] at h1
      rw [← h1]

/-- Witness of C4: an All-to-All call sending and receiving at address 4096. -/
theorem checkInPlaceOp_all2All_witness :
    (callState eHCLAll2All comm4 64 4096 4096).checkInPlaceOp =
        .error (.verify .all2AllInPlace) ∧
      CommonState.plan conf0 floorCalculator (callState eHCLAll2All comm4 64 4096 4096) true =
        .error (.verify .all2AllInPlace) :=
  (checkInPlaceOp_all2All conf0 floorCalculator (callState eHCLAll2All comm4 64 4096 4096) true
    rfl).1 rfl

/-! ## Theorems: the scale-up connection table -/

theorem getQPn_scaleUp_eq (m : QPManagerGaudi3ScaleUp) (comm qpi : Nat) :
    m.getQPn comm qpi =
      match entryScaleUp m.m_qpInfoScaleUp comm qpi with
      | some v => .ok v
      | none => .error .outOfRange := by
  unfold QPManagerGaudi3ScaleUp.getQPn entryScaleUp at?
  cases h : m.m_qpInfoScaleUp[comm]? with
  | none => rfl
  | some row => cases h2 : row[qpi]? <;> simp [h2]

theorem setScaleUp_ok {t t1 : List (List Nat)} {comm qpi v : Nat}
    (h : setScaleUp t comm qpi v = .ok t1) :
    entryScaleUp t1 comm qpi = some v ∧
      ∀ c j, ¬ (c = comm ∧ j = qpi) → entryScaleUp t1 c j = entryScaleUp t c j := by
  unfold setScaleUp at? at h
  cases hrow : t[comm]? with
  | none => simp [hrow] at h
  | some row =>
    simp only [hrow] at h
    split at h
    · rename_i hlt
      simp only [Except.ok.injEq] at h
      subst h
      have hc : comm < t.length := by
        rcases List.getElem?_eq_some.mp hrow with ⟨hc, _⟩
        exact hc
      refine ⟨by simp [entryScaleUp, List.getElem?_set, hc, hlt], fun c j hne => ?_⟩
      unfold entryScaleUp
      by_cases hcc : c = comm
      · subst hcc
        have hj : qpi ≠ j := fun e => hne ⟨rfl, e.symm⟩
        simp [List.getElem?_set, hc, hrow, hj]
      · have hcc2 : comm ≠ c := fun e => hcc e.symm
        simp [List.getElem?_set, hcc2]
    · simp at h

theorem setScaleUp_succeeds {t : List (List Nat)} {comm qpi : Nat} (v : Nat)
    (h : (entryScaleUp t comm qpi).isSome = true) : ∃ t1, setScaleUp t comm qpi v = .ok t1 := by
  unfold entryScaleUp at h
  unfold setScaleUp at?
  cases hrow : t[comm]? with
  | none => simp [hrow] at h
  | some row =>
    simp only [hrow, Option.some_bind] at h
    have hlt : qpi < row.length := by
      cases hq : row[qpi]? with
      | none => simp [hq] at h
      | some x => exact (List.getElem?_eq_some.mp hq).1
    exact ⟨t.set comm (row.set qpi v), by simp [hlt]⟩

theorem registerScaleUpLoop_ok (comm : Nat) (qps : List Nat) :
    ∀ (fuel i : Nat) (t : List (List Nat)),
      (registerScaleUpLoop comm qps fuel i t).failure = none →
      (∀ j, i ≤ j → j < i + fuel →
        entryScaleUp (registerScaleUpLoop comm qps fuel i t).state comm j =
          some (qps[j]?.getD 0)) ∧
      (∀ c j, ¬ (c = comm ∧ i ≤ j ∧ j < i + fuel) →
        entryScaleUp (registerScaleUpLoop comm qps fuel i t).state c j = entryScaleUp t c j) := by
  intro fuel
  induction fuel with
  | zero =>
    intro i t _
    exact ⟨fun j h1 h2 => by omega, fun c j _ => rfl⟩
  | succ n ih =>
    intro i t hf
    unfold registerScaleUpLoop at hf ⊢
    cases hset : setScaleUp t comm i (qps[i]?.getD 0) with
    | error e => simp [hset] at hf
    | ok t1 =>
      simp only [hset] at hf ⊢
      obtain ⟨hnew, hold⟩ := setScaleUp_ok hset
      obtain ⟨ih1, ih2⟩ := ih (i + 1) t1 hf
      refine ⟨fun j h1 h2 => ?_, fun c j hne => ?_⟩
      · by_cases hji : j = i
        · subst hji
          rw [ih2 comm j (by omega), hnew]
        · exact ih1 j (by omega) (by omega)
      · rw [ih2 c j (by intro h; exact hne ⟨h.1, by omega, by omega⟩)]
        exact hold c j (by intro h; exact hne ⟨h.1, by omega, by omega⟩)

theorem registerScaleUpLoop_succeeds (comm : Nat) (qps : List Nat) :
    ∀ (fuel i : Nat) (t : List (List Nat)),
      (∀ j, i ≤ j → j < i + fuel → (entryScaleUp t comm j).isSome = true) →
      (registerScaleUpLoop comm qps fuel i t).failure = none := by
  intro fuel
  induction fuel with
  | zero => intro i t _; rfl
  | succ n ih =>
    intro i t h
    unfold registerScaleUpLoop
    obtain ⟨t1, hset⟩ := setScaleUp_succeeds (qps[i]?.getD 0) (h i (by omega) (by omega))
    simp only [hset]
    apply ih
    intro j h1 h2
    obtain ⟨hnew, hold⟩ := setScaleUp_ok hset
    rw [hold comm j (by omega)]
    exact h j (by omega) (by omega)

theorem u32_add_cancel {a b c : Nat} (ha : a < 2 ^ 32) (hb : b < 2 ^ 32)
    (h : u32 (a + c) = u32 (b + c)) : a = b := by
  have h1 : a ≡ b [MOD 2 ^ 32] := Nat.ModEq.add_right_cancel' c h
  unfold Nat.ModEq at h1
  rwa [Nat.mod_eq_of_lt ha, Nat.mod_eq_of_lt hb] at h1

theorem getQPiScaleUpLoop_first (d : Gaudi3Device) (m : QPManagerGaudi3ScaleUp)
    (comm nic qpn : Nat) (f : Nat → Nat) (k : Nat)
    (hentry : ∀ j, j ≤ k → m.getQPn comm j = .ok (f j))
    (hk : u32 (f k + d.getNicToQpOffset nic) = qpn)
    (hfirst : ∀ j, j < k → u32 (f j + d.getNicToQpOffset nic) ≠ qpn) :
    ∀ (fuel i : Nat), i ≤ k → k < i + fuel →
      getQPiScaleUpLoop d m comm nic qpn fuel i = .ok k := by
  intro fuel
  induction fuel with
  | zero => intro i h1 h2; omega
  | succ n ih =>
    intro i h1 h2
    unfold getQPiScaleUpLoop
    rw [hentry i h1]
    by_cases hik : i = k
    · subst hik
      simp [hk]
    · have hlt : i < k := by omega
      simp only [hfirst i hlt, if_false]
      exact ih (i + 1) (by omega) (by omega)

theorem registerQPs_scaleUp_stored (d : Gaudi3Device) (m : QPManagerGaudi3ScaleUp) (comm : Nat)
    (qps : List Nat) (h : (m.registerQPs d comm qps).failure = none) :
    qps.length = m.m_maxQPsPerConnection ∧
      (m.registerQPs d comm qps).state.m_maxQPsPerConnection = m.m_maxQPsPerConnection ∧
      ∀ j, j < m.m_maxQPsPerConnection →
        (m.registerQPs d comm qps).state.getQPn comm j = .ok (qps[j]?.getD 0) := by
  unfold QPManagerGaudi3ScaleUp.registerQPs at h ⊢
  by_cases hlen : qps.length = m.m_maxQPsPerConnection
  · simp only [hlen, ne_eq, not_true_eq_false, if_false] at h ⊢
    refine ⟨trivial, ?_, fun j hj => ?_⟩
    · split <;> rfl
    · rw [getQPn_scaleUp_eq]
      have := (registerScaleUpLoop_ok comm qps _ 0 _ h).1 j (by omega) (by omega)
      simp only [this]
  · simp [hlen] at h

theorem registerQPs_scaleUp_succeeds (d : Gaudi3Device) (m : QPManagerGaudi3ScaleUp)
    (comm : Nat) (qps : List Nat) (hwf : m.WellFormed d)
    (hcomm : comm < m.m_qpInfoScaleUp.length + d.DEFAULT_COMMUNICATORS_SIZE)
    (hlen : qps.length = m.m_maxQPsPerConnection) :
    (m.registerQPs d comm qps).failure = none := by
  unfold QPManagerGaudi3ScaleUp.registerQPs
  simp only [hlen, ne_eq, not_true_eq_false, if_false]
  apply registerScaleUpLoop_succeeds
  intro j _ hj
  obtain ⟨hmax, hrows⟩ := hwf
  unfold entryScaleUp
  by_cases hc : m.m_qpInfoScaleUp.length ≤ comm
  · simp only [hc, if_true, QPManagerGaudi3ScaleUp.resizeDBForNewComms]
    rw [List.getElem?_append_right hc, List.getElem?_replicate]
    have : comm - m.m_qpInfoScaleUp.length < d.DEFAULT_COMMUNICATORS_SIZE := by omega
    simp only [this, if_true, Option.some_bind, List.getElem?_replicate]
    have : j < d.MAX_QPS_PER_CONNECTION_G3 := by omega
    simp [this]
  · simp only [hc, if_false]
    have hc2 : comm < m.m_qpInfoScaleUp.length := by omega
    rw [List.getElem?_eq_getElem hc2]
    simp only [Option.some_bind]
    have hrow := hrows _ (List.getElem_mem hc2)
    have : j < (m.m_qpInfoScaleUp[comm]).length := by omega
    rw [List.getElem?_eq_getElem this]
    rfl

/-- Counterexample of C8: the six connection ids of the null-submit mode, all
0, are registered for communicator 0; role 1 resolves to id 0, and id 0 plus
the offset of nic 3 maps back to role 0, not to role 1. -/
theorem scaleUp_roundtrip_fails_on_equal_ids :
    ((QPManagerGaudi3ScaleUp.new device0).registerQPs device0 0 [0, 0, 0, 0, 0, 0]).failure =
        none ∧
      nullSubmitManager.getQPn 0 1 = .ok 0 ∧
      nullSubmitManager.getQPi device0 0 3 (u32 (0 + device0.getNicToQpOffset 3)) = .ok 0 ∧
      (0 : Nat) ≠ 1 := by
  refine ⟨rfl, rfl, rfl, by decide⟩

/-- C8 (amended): when scale-up `registerQPs` has registered pairwise distinct
32-bit connection ids for a communicator, then for every role `qpi` below the
per-connection count and every nic the role resolves to an id, and that id
plus the nic's offset maps back to the same role. -/
theorem scaleUp_getQPi_getQPn (d : Gaudi3Device) (m : QPManagerGaudi3ScaleUp)
    (comm nic qpi : Nat) (qps : List Nat)
    (hreg : (m.registerQPs d comm qps).failure = none)
    (hnodup : qps.Nodup) (h32 : ∀ q ∈ qps, q < 2 ^ 32)
    (hq : qpi < m.m_maxQPsPerConnection) :
    ∃ qpn, (m.registerQPs d comm qps).state.getQPn comm qpi = .ok qpn ∧
      (m.registerQPs d comm qps).state.getQPi d comm nic (u32 (qpn + d.getNicToQpOffset nic)) =
        .ok qpi := by
  obtain ⟨hlen, hmax, hst⟩ := registerQPs_scaleUp_stored d m comm qps hreg
  refine ⟨qps[qpi]?.getD 0, hst qpi hq, ?_⟩
  unfold QPManagerGaudi3ScaleUp.getQPi
  rw [hmax]
  refine getQPiScaleUpLoop_first d _ comm nic _ (fun j => qps[j]?.getD 0) qpi
    (fun j hj => hst j (by omega)) rfl (fun j hj heq => ?_) _ 0 (by omega) (by omega)
  have hj : j < qps.length := by omega
  have hk : qpi < qps.length := by omega
  simp only [List.getElem?_eq_getElem hj, List.getElem?_eq_getElem hk, Option.getD_some] at heq
  have := u32_add_cancel (h32 _ (List.getElem_mem hj)) (h32 _ (List.getElem_mem hk)) heq
  have := (List.Nodup.getElem_inj_iff hnodup).1 this
  omega

/-- Witness of C8 (amended): the ids 100, ..., 105 registered for communicator
0 of a new manager, role 4 on nic 3. -/
theorem scaleUp_getQPi_getQPn_witness :
    ∃ qpn, ((QPManagerGaudi3ScaleUp.new device0).registerQPs device0 0
        [100, 101, 102, 103, 104, 105]).state.getQPn 0 4 = .ok qpn ∧
      ((QPManagerGaudi3ScaleUp.new device0).registerQPs device0 0
        [100, 101, 102, 103, 104, 105]).state.getQPi device0 0 3
          (u32 (qpn + device0.getNicToQpOffset 3)) = .ok 4 :=
  scaleUp_getQPi_getQPn device0 (QPManagerGaudi3ScaleUp.new device0) 0 3 4
    [100, 101, 102, 103, 104, 105] rfl (by decide) (by decide) (by decide)

/-- C9: scale-up `registerQPs` on a well-formed manager, for a communicator
index below the table size after one growth step, accepts a connection list
exactly when its length is `m_maxQPsPerConnection`: any other length fails at
the size `VERIFY` with the manager unchanged, and an accepted list is stored
so that `getQPn(comm, qpi)` is `qps[qpi]` for every role. -/
theorem scaleUp_registerQPs_accepts_iff (d : Gaudi3Device) (m : QPManagerGaudi3ScaleUp)
    (comm : Nat) (qps : List Nat) (hwf : m.WellFormed d)
    (hcomm : comm < m.m_qpInfoScaleUp.length + d.DEFAULT_COMMUNICATORS_SIZE) :
    ((m.registerQPs d comm qps).failure = none ↔ qps.length = m.m_maxQPsPerConnection) ∧
    (qps.length ≠ m.m_maxQPsPerConnection →
      (m.registerQPs d comm qps).failure = some (.verify .qpCountMismatch) ∧
      (m.registerQPs d comm qps).state = m) ∧
    (qps.length = m.m_maxQPsPerConnection →
      ∀ (qpi : Nat) (hq : qpi < qps.length),
        (m.registerQPs d comm qps).state.getQPn comm qpi = .ok qps[qpi]) := by
  refine ⟨⟨fun h => (registerQPs_scaleUp_stored d m comm qps h).1,
    registerQPs_scaleUp_succeeds d m comm qps hwf hcomm⟩, fun hne => ?_, fun hlen qpi hq => ?_⟩
  · simp [QPManagerGaudi3ScaleUp.registerQPs, hne]
  · have hok := registerQPs_scaleUp_succeeds d m comm qps hwf hcomm hlen
    rw [(registerQPs_scaleUp_stored d m comm qps hok).2.2 qpi (by omega),
      List.getElem?_eq_getElem hq]
    rfl

/-- Witness of C9: a new manager and communicator 0; the list of six ids is
accepted, the list of five is rejected. -/
theorem scaleUp_registerQPs_accepts_iff_witness :
    (((QPManagerGaudi3ScaleUp.new device0).registerQPs device0 0
          [100, 101, 102, 103, 104]).failure = some (.verify .qpCountMismatch) ∧
        ((QPManagerGaudi3ScaleUp.new device0).registerQPs device0 0
          [100, 101, 102, 103, 104]).state = QPManagerGaudi3ScaleUp.new device0) ∧
      ((QPManagerGaudi3ScaleUp.new device0).registerQPs device0 0
        [100, 101, 102, 103, 104, 105]).state.getQPn 0 4 = .ok 104 :=
  have hwf : (QPManagerGaudi3ScaleUp.new device0).WellFormed device0 :=
    ⟨rfl, fun row hrow => by
      simp only [QPManagerGaudi3ScaleUp.new, List.mem_replicate] at hrow
      rw [hrow.2, List.length_replicate]⟩
  ⟨(scaleUp_registerQPs_accepts_iff device0 (QPManagerGaudi3ScaleUp.new device0) 0
      [100, 101, 102, 103, 104] hwf (by decide)).2.1 (by decide),
    (scaleUp_registerQPs_accepts_iff device0 (QPManagerGaudi3ScaleUp.new device0) 0
      [100, 101, 102, 103, 104, 105] hwf (by decide)).2.2 rfl 4 (by decide)⟩

/-! ## Theorems: the scale-out connection table -/

theorem getQPn_scaleOut_eq (m : QPManagerGaudi3ScaleOut) (comm remoteRank qpSet qpi : Nat) :
    m.getQPn comm remoteRank qpSet qpi =
      match entryScaleOut m.m_qpInfoScaleOut comm remoteRank qpSet qpi with
      | some v => .ok v
      | none => .error .outOfRange := by
  unfold QPManagerGaudi3ScaleOut.getQPn entryScaleOut at?
  cases h1 : m.m_qpInfoScaleOut[comm]? with
  | none => rfl
  | some ranks =>
    simp only [Option.some_bind]
    cases h2 : ranks[remoteRank]? with
    | none => rfl
    | some sets =>
      simp only [Option.some_bind]
      cases h3 : sets[qpSet]? with
      | none => rfl
      | some row =>
        simp only [Option.some_bind]
        cases h4 : row[qpi]? <;> rfl

theorem setScaleOut_ok {t t1 : List (List (List (List Nat)))} {comm remoteRank qpSet qpi v : Nat}
    (h : setScaleOut t comm remoteRank qpSet qpi v = .ok t1) :
    entryScaleOut t1 comm remoteRank qpSet qpi = some v ∧
      ∀ c r s j, ¬ (c = comm ∧ r = remoteRank ∧ s = qpSet ∧ j = qpi) →
        entryScaleOut t1 c r s j = entryScaleOut t c r s j := by
  unfold setScaleOut at? at h
  cases h1 : t[comm]? with
  | none => simp [h1] at h
  | some ranks =>
    cases h2 : ranks[remoteRank]? with
    | none => simp [h1, h2] at h
    | some sets =>
      cases h3 : sets[qpSet]? with
      | none => simp [h1, h2, h3] at h
      | some row =>
        simp only [h1, h2, h3] at h
        split at h
        · rename_i hlt
          simp only [Except.ok.injEq] at h
          subst h
          have hc : comm < t.length := (List.getElem?_eq_some.mp h1).1
          have hr : remoteRank < ranks.length := (List.getElem?_eq_some.mp h2).1
          have hs : qpSet < sets.length := (List.getElem?_eq_some.mp h3).1
          refine ⟨by simp [entryScaleOut, List.getElem?_set, hc, hr, hs, hlt],
            fun c r s j hne => ?_⟩
          unfold entryScaleOut
          by_cases hcc : comm = c
          · subst hcc
            by_cases hrr : remoteRank = r
            · subst hrr
              by_cases hss : qpSet = s
              · subst hss
                have hj : qpi ≠ j := fun e => hne ⟨rfl, rfl, rfl, e.symm⟩
                simp [List.getElem?_set, hc, hr, hs, h1, h2, h3, hj]
              · simp [List.getElem?_set, hc, hr, h1, h2, hss]
            · simp [List.getElem?_set, hc, h1, hrr]
          · simp [List.getElem?_set, hcc]
        · simp at h

theorem setScaleOut_succeeds {t : List (List (List (List Nat)))} {comm remoteRank qpSet qpi : Nat}
    (v : Nat) (h : (entryScaleOut t comm remoteRank qpSet qpi).isSome = true) :
    ∃ t1, setScaleOut t comm remoteRank qpSet qpi v = .ok t1 := by
  unfold entryScaleOut at h
  unfold setScaleOut at?
  cases h1 : t[comm]? with
  | none => simp [h1] at h
  | some ranks =>
    cases h2 : ranks[remoteRank]? with
    | none => simp [h1, h2] at h
    | some sets =>
      cases h3 : sets[qpSet]? with
      | none => simp [h1, h2, h3] at h
      | some row =>
        simp only [h1, h2, h3, Option.some_bind] at h
        have hlt : qpi < row.length := by
          cases hq : row[qpi]? with
          | none => simp [hq] at h
          | some x => exact (List.getElem?_eq_some.mp hq).1
        exact ⟨t.set comm (ranks.set remoteRank (sets.set qpSet (row.set qpi v))),
          by simp [h2, h3, hlt]⟩

theorem registerScaleOutInner_ok (maxQPs comm remoteRank qpSet : Nat) (qps : List Nat) :
    ∀ (fuel i : Nat) (t : List (List (List (List Nat)))),
      maxQPs * qpSet + (i + fuel) ≤ 2 ^ 32 →
      (registerScaleOutInner maxQPs comm remoteRank qpSet qps fuel i t).failure = none →
      (∀ j, i ≤ j → j < i + fuel → maxQPs * qpSet + j < qps.length →
        entryScaleOut (registerScaleOutInner maxQPs comm remoteRank qpSet qps fuel i t).state
          comm remoteRank qpSet j = qps[maxQPs * qpSet + j]?) ∧
      (∀ c r s j, ¬ (c = comm ∧ r = remoteRank ∧ s = qpSet ∧ i ≤ j ∧ j < i + fuel ∧
          maxQPs * qpSet + j < qps.length) →
        entryScaleOut (registerScaleOutInner maxQPs comm remoteRank qpSet qps fuel i t).state
          c r s j = entryScaleOut t c r s j) := by
  intro fuel
  induction fuel with
  | zero =>
    intro i t _ _
    exact ⟨fun j h1 h2 => by omega, fun c r s j _ => rfl⟩
  | succ n ih =>
    intro i t hw hf
    have hidx : u32 (maxQPs * qpSet + i) = maxQPs * qpSet + i := u32_of_lt (by omega)
    unfold registerScaleOutInner at hf ⊢
    simp only [hidx] at hf ⊢
    by_cases hbreak : qps.length ≤ maxQPs * qpSet + i
    · simp only [hbreak, if_true]
      exact ⟨fun j h1 h2 h3 => by omega, fun c r s j _ => trivial⟩
    · simp only [hbreak, if_false] at hf ⊢
      have hin : maxQPs * qpSet + i < qps.length := by omega
      have hat : at? qps (maxQPs * qpSet + i) = .ok qps[maxQPs * qpSet + i] := by
        simp [at?, List.getElem?_eq_getElem hin]
      rw [hat] at hf ⊢
      simp only at hf ⊢
      cases hset : setScaleOut t comm remoteRank qpSet i qps[maxQPs * qpSet + i] with
      | error e => simp [hset] at hf
      | ok t1 =>
        simp only [hset] at hf ⊢
        obtain ⟨hnew, hold⟩ := setScaleOut_ok hset
        obtain ⟨ih1, ih2⟩ := ih (i + 1) t1 (by omega) hf
        refine ⟨fun j h1 h2 h3 => ?_, fun c r s j hne => ?_⟩
        · by_cases hji : j = i
          · subst hji
            rw [ih2 comm remoteRank qpSet j (by omega), hnew, List.getElem?_eq_getElem hin]
          · exact ih1 j (by omega) (by omega) h3
        · rw [ih2 c r s j (by intro h; exact hne ⟨h.1, h.2.1, h.2.2.1, by omega, by omega,
            h.2.2.2.2.2⟩)]
          exact hold c r s j (by
            intro h
            exact hne ⟨h.1, h.2.1, h.2.2.1, by omega, by omega, by rw [h.2.2.2]; exact hin⟩)

theorem registerScaleOutInner_succeeds (maxQPs comm remoteRank qpSet : Nat) (qps : List Nat) :
    ∀ (fuel i : Nat) (t : List (List (List (List Nat)))),
      (∀ j, i ≤ j → j < i + fuel → (entryScaleOut t comm remoteRank qpSet j).isSome = true) →
      (registerScaleOutInner maxQPs comm remoteRank qpSet qps fuel i t).failure = none := by
  intro fuel
  induction fuel with
  | zero => intro i t _; rfl
  | succ n ih =>
    intro i t h
    unfold registerScaleOutInner
    by_cases hbreak : qps.length ≤ u32 (maxQPs * qpSet + i)
    · simp only [hbreak, if_true]
    · simp only [hbreak, if_false]
      have hin : u32 (maxQPs * qpSet + i) < qps.length := by omega
      have hat : at? qps (u32 (maxQPs * qpSet + i)) = .ok qps[u32 (maxQPs * qpSet + i)] := by
        simp [at?, List.getElem?_eq_getElem hin]
      rw [hat]
      obtain ⟨t1, hset⟩ := setScaleOut_succeeds qps[u32 (maxQPs * qpSet + i)]
        (h i (by omega) (by omega))
      simp only [hset]
      apply ih
      intro j h1 h2
      obtain ⟨_, hold⟩ := setScaleOut_ok hset
      rw [hold comm remoteRank qpSet j (by omega)]
      exact h j (by omega) (by omega)

theorem setScaleOut_isSome {t t1 : List (List (List (List Nat)))}
    {comm remoteRank qpSet qpi v : Nat} (h : setScaleOut t comm remoteRank qpSet qpi v = .ok t1)
    (c r s j : Nat) :
    (entryScaleOut t1 c r s j).isSome = true ↔ (entryScaleOut t c r s j).isSome = true := by
  obtain ⟨hnew, hold⟩ := setScaleOut_ok h
  by_cases hsame : c = comm ∧ r = remoteRank ∧ s = qpSet ∧ j = qpi
  · obtain ⟨e1, e2, e3, e4⟩ := hsame
    subst e1 e2 e3 e4
    rw [hnew]
    simp only [Option.isSome_some, true_iff]
    unfold setScaleOut at? at h
    unfold entryScaleOut
    cases h1 : t[c]? with
    | none => simp [h1] at h
    | some ranks =>
      cases h2 : ranks[r]? with
      | none => simp [h1, h2] at h
      | some sets =>
        cases h3 : sets[s]? with
        | none => simp [h1, h2, h3] at h
        | some row =>
          simp only [h1, h2, h3] at h
          split at h
          · rename_i hlt
            simp [h2, h3, List.getElem?_eq_getElem hlt]
          · simp at h
  · rw [hold c r s j hsame]

theorem registerScaleOutInner_isSome (maxQPs comm remoteRank qpSet : Nat) (qps : List Nat) :
    ∀ (fuel i : Nat) (t : List (List (List (List Nat)))) (c r s j : Nat),
      (entryScaleOut (registerScaleOutInner maxQPs comm remoteRank qpSet qps fuel i t).state
        c r s j).isSome = true ↔ (entryScaleOut t c r s j).isSome = true := by
  intro fuel
  induction fuel with
  | zero => intro i t c r s j; rfl
  | succ n ih =>
    intro i t c r s j
    unfold registerScaleOutInner
    simp only
    split
    · rfl
    · split
      · rfl
      · split
        · rfl
        · rename_i t1 hset
          rw [ih (i + 1) t1 c r s j]
          exact setScaleOut_isSome hset c r s j

theorem registerScaleOutOuter_ok (maxQPs comm remoteRank : Nat) (qps : List Nat) :
    ∀ (fuel s0 : Nat) (t : List (List (List (List Nat)))),
      maxQPs * (s0 + fuel) ≤ 2 ^ 32 →
      (registerScaleOutOuter maxQPs comm remoteRank qps fuel s0 t).failure = none →
      (∀ s j, s0 ≤ s → s < s0 + fuel → j < maxQPs → maxQPs * s + j < qps.length →
        entryScaleOut (registerScaleOutOuter maxQPs comm remoteRank qps fuel s0 t).state
          comm remoteRank s j = qps[maxQPs * s + j]?) ∧
      (∀ c r s j, ¬ (c = comm ∧ r = remoteRank ∧ s0 ≤ s ∧ s < s0 + fuel ∧ j < maxQPs ∧
          maxQPs * s + j < qps.length) →
        entryScaleOut (registerScaleOutOuter maxQPs comm remoteRank qps fuel s0 t).state
          c r s j = entryScaleOut t c r s j) := by
  intro fuel
  induction fuel with
  | zero =>
    intro s0 t _ _
    exact ⟨fun s j h1 h2 => by omega, fun c r s j _ => rfl⟩
  | succ n ih =>
    intro s0 t hw hf
    have hw1 : maxQPs * s0 + (0 + maxQPs) ≤ 2 ^ 32 := by
      have : maxQPs * (s0 + 1) ≤ maxQPs * (s0 + (n + 1)) := Nat.mul_le_mul_left _ (by omega)
      rw [Nat.mul_succ] at this
      omega
    have hw2 : maxQPs * (s0 + 1 + n) ≤ 2 ^ 32 := by
      have : s0 + 1 + n = s0 + (n + 1) := by omega
      rw [this]; exact hw
    unfold registerScaleOutOuter at hf ⊢
    have hin := registerScaleOutInner_ok maxQPs comm remoteRank s0 qps maxQPs 0 t hw1
    generalize registerScaleOutInner maxQPs comm remoteRank s0 qps maxQPs 0 t = res at hf hin ⊢
    obtain ⟨t1, f⟩ := res
    cases f with
    | some e => simp at hf
    | none =>
      simp only at hf hin ⊢
      obtain ⟨in1, in2⟩ := hin trivial
      obtain ⟨ih1, ih2⟩ := ih (s0 + 1) t1 hw2 hf
      refine ⟨fun s j h1 h2 h3 h4 => ?_, fun c r s j hne => ?_⟩
      · by_cases hs : s = s0
        · subst hs
          rw [ih2 comm remoteRank s j (by omega)]
          exact in1 j (by omega) (by omega) h4
        · exact ih1 s j (by omega) (by omega) h3 h4
      · rw [ih2 c r s j (by
          intro h
          exact hne ⟨h.1, h.2.1, by omega, by omega, h.2.2.2.2.1, h.2.2.2.2.2⟩)]
        exact in2 c r s j (by
          intro h
          obtain ⟨e1, e2, e3, _, e5, e6⟩ := h
          subst e3
          exact hne ⟨e1, e2, by omega, by omega, by omega, e6⟩)

theorem registerScaleOutOuter_succeeds (maxQPs comm remoteRank : Nat) (qps : List Nat) :
    ∀ (fuel s0 : Nat) (t : List (List (List (List Nat)))),
      (∀ s j, s0 ≤ s → s < s0 + fuel → j < maxQPs →
        (entryScaleOut t comm remoteRank s j).isSome = true) →
      (registerScaleOutOuter maxQPs comm remoteRank qps fuel s0 t).failure = none := by
  intro fuel
  induction fuel with
  | zero => intro s0 t _; rfl
  | succ n ih =>
    intro s0 t h
    unfold registerScaleOutOuter
    have hok := registerScaleOutInner_succeeds maxQPs comm remoteRank s0 qps maxQPs 0 t
      (fun j _ hj => h s0 j (by omega) (by omega) (by omega))
    have hst : ∀ c r s j,
        (entryScaleOut (registerScaleOutInner maxQPs comm remoteRank s0 qps maxQPs 0 t).state
          c r s j).isSome = true ↔ (entryScaleOut t c r s j).isSome = true := by
      intro c r s j
      exact registerScaleOutInner_isSome maxQPs comm remoteRank s0 qps maxQPs 0 t c r s j
    generalize registerScaleOutInner maxQPs comm remoteRank s0 qps maxQPs 0 t = res at hok hst ⊢
    obtain ⟨t1, f⟩ := res
    simp only at hok
    subst hok
    simp only
    apply ih
    intro s j h1 h2 h3
    rw [hst]
    exact h s j (by omega) (by omega) h3

theorem entryScaleOut_invalid (d : Gaudi3Device) (t : List (List (List (List Nat))))
    (comm r s j : Nat) (hc : comm < t.length) (hr : r < d.getCommSize comm)
    (hs : s < d.MAX_QPS_SETS_PER_CONNECTION) (hj : j < d.MAX_QPS_PER_CONNECTION_G3) :
    entryScaleOut (t.set comm (List.replicate (d.getCommSize comm) (invalidRankEntry d)))
      comm r s j = some d.INVALID_QP := by
  simp [entryScaleOut, invalidRankEntry, List.getElem?_set, List.getElem?_replicate, hc, hr, hs,
    hj]

theorem entryScaleOut_invalid_value (d : Gaudi3Device) (t : List (List (List (List Nat))))
    (comm r s j v : Nat)
    (h : entryScaleOut (t.set comm (List.replicate (d.getCommSize comm) (invalidRankEntry d)))
      comm r s j = some v) : v = d.INVALID_QP := by
  unfold entryScaleOut invalidRankEntry at h
  rw [List.getElem?_set] at h
  simp only [if_true] at h
  split at h
  · simp only [Option.some_bind, List.getElem?_replicate] at h
    split at h
    · simp only [Option.some_bind, List.getElem?_replicate] at h
      split at h
      · simp only [Option.some_bind, List.getElem?_replicate] at h
        split at h
        · simp only [Option.some.injEq] at h
          exact h.symm
        · cases h
      · cases h
    · cases h
  · cases h

theorem entryScaleOut_set_ne (t : List (List (List (List Nat)))) (comm c r s j : Nat)
    (x : List (List (List Nat))) (h : c ≠ comm) :
    entryScaleOut (t.set comm x) c r s j = entryScaleOut t c r s j := by
  have : comm ≠ c := fun e => h e.symm
  simp [entryScaleOut, List.getElem?_set, this]

theorem registerQPs_scaleOut_alloc (d : Gaudi3Device) (m : QPManagerGaudi3ScaleOut)
    (comm remoteRank : Nat) (qps : List Nat)
    (hcomm : comm < m.m_qpInfoScaleOut.length + d.DEFAULT_COMMUNICATORS_SIZE) :
    ∃ t2 : List (List (List (List Nat))),
      m.registerQPs d comm remoteRank qps =
        ⟨{ m with m_qpInfoScaleOut :=
            (registerScaleOutOuter m.m_maxQPsPerConnection comm remoteRank qps
              d.MAX_QPS_SETS_PER_CONNECTION 0 t2).state },
          (registerScaleOutOuter m.m_maxQPsPerConnection comm remoteRank qps
            d.MAX_QPS_SETS_PER_CONNECTION 0 t2).failure⟩ ∧
      (∀ c r s j v, entryScaleOut m.m_qpInfoScaleOut c r s j = some v →
        entryScaleOut t2 c r s j = some v) ∧
      (m.WellFormed d → remoteRank < m.rankCapacity d comm →
        ∀ s j, s < d.MAX_QPS_SETS_PER_CONNECTION → j < d.MAX_QPS_PER_CONNECTION_G3 →
          (entryScaleOut t2 comm remoteRank s j).isSome = true) ∧
      (∀ c r s j v, entryScaleOut t2 c r s j = some v →
        entryScaleOut m.m_qpInfoScaleOut c r s j = some v ∨
          (entryScaleOut m.m_qpInfoScaleOut c r s j = none ∧ v = d.INVALID_QP)) := by
  by_cases hlen : m.m_qpInfoScaleOut.length ≤ comm
  · -- the communicator is new: the table grows, then the communicator is allocated
    have hlt : comm - m.m_qpInfoScaleOut.length < d.DEFAULT_COMMUNICATORS_SIZE := by omega
    have hnone : m.m_qpInfoScaleOut[comm]? = none := List.getElem?_eq_none hlen
    have hget : (m.m_qpInfoScaleOut ++
        List.replicate d.DEFAULT_COMMUNICATORS_SIZE ([] : List (List (List Nat))))[comm]? =
          some [] := by
      rw [List.getElem?_append_right hlen, List.getElem?_replicate]
      simp [hlt]
    have hclen : comm < (m.m_qpInfoScaleOut ++
        List.replicate d.DEFAULT_COMMUNICATORS_SIZE ([] : List (List (List Nat)))).length := by
      simp only [List.length_append, List.length_replicate]; omega
    refine ⟨(m.m_qpInfoScaleOut ++ List.replicate d.DEFAULT_COMMUNICATORS_SIZE []).set comm
      (List.replicate (d.getCommSize comm) (invalidRankEntry d)), ?_, ?_, ?_, ?_⟩
    · simp [QPManagerGaudi3ScaleOut.registerQPs, hlen, QPManagerGaudi3ScaleOut.resizeDBForNewComms,
        QPManagerGaudi3ScaleOut.resizeDBPerComm, at?, hget]
    · intro c r s j v hv
      have hc : c < m.m_qpInfoScaleOut.length := by
        unfold entryScaleOut at hv
        cases hq : m.m_qpInfoScaleOut[c]? with
        | none => simp [hq] at hv
        | some x => exact (List.getElem?_eq_some.mp hq).1
      rw [entryScaleOut_set_ne _ _ _ _ _ _ _ (by omega)]
      unfold entryScaleOut at hv ⊢
      rw [List.getElem?_append_left hc]
      exact hv
    · intro _ hrank s j hs hj
      have hcap : m.rankCapacity d comm = d.getCommSize comm := by
        simp [QPManagerGaudi3ScaleOut.rankCapacity, hnone]
      rw [entryScaleOut_invalid d _ comm remoteRank s j hclen (by omega) hs hj]
      rfl
    · intro c r s j v hv
      by_cases hcc : c = comm
      · subst hcc
        exact Or.inr ⟨by simp [entryScaleOut, hnone], entryScaleOut_invalid_value d _ c r s j v hv⟩
      · rw [entryScaleOut_set_ne _ _ _ _ _ _ _ hcc] at hv
        by_cases hcl : c < m.m_qpInfoScaleOut.length
        · left
          unfold entryScaleOut at hv ⊢
          rw [List.getElem?_append_left hcl] at hv
          exact hv
        · exfalso
          unfold entryScaleOut at hv
          rw [List.getElem?_append_right (by omega), List.getElem?_replicate] at hv
          split at hv <;> simp at hv
  · have hc : comm < m.m_qpInfoScaleOut.length := by omega
    have hget : m.m_qpInfoScaleOut[comm]? = some m.m_qpInfoScaleOut[comm] :=
      List.getElem?_eq_getElem hc
    by_cases hempty : (m.m_qpInfoScaleOut[comm]).length = 0
    · -- the communicator is known and holds no rank yet: it is allocated
      refine ⟨m.m_qpInfoScaleOut.set comm
        (List.replicate (d.getCommSize comm) (invalidRankEntry d)), ?_, ?_, ?_, ?_⟩
      · simp [QPManagerGaudi3ScaleOut.registerQPs, hlen, QPManagerGaudi3ScaleOut.resizeDBPerComm,
          at?, hget, hempty]
      · intro c r s j v hv
        have hne : c ≠ comm := by
          intro e
          subst e
          have hnil : m.m_qpInfoScaleOut[c] = [] := List.length_eq_zero.mp hempty
          simp [entryScaleOut, hget, hnil] at hv
        rw [entryScaleOut_set_ne _ _ _ _ _ _ _ hne]
        exact hv
      · intro _ hrank s j hs hj
        have hnil : m.m_qpInfoScaleOut[comm] = [] := List.length_eq_zero.mp hempty
        have hcap : m.rankCapacity d comm = d.getCommSize comm := by
          simp [QPManagerGaudi3ScaleOut.rankCapacity, hget, hnil]
        rw [entryScaleOut_invalid d _ comm remoteRank s j hc (by omega) hs hj]
        rfl
      · intro c r s j v hv
        by_cases hcc : c = comm
        · subst hcc
          have hnil : m.m_qpInfoScaleOut[c] = [] := List.length_eq_zero.mp hempty
          exact Or.inr ⟨by simp [entryScaleOut, hget, hnil],
            entryScaleOut_invalid_value d _ c r s j v hv⟩
        · rw [entryScaleOut_set_ne _ _ _ _ _ _ _ hcc] at hv
          exact Or.inl hv
    · -- the communicator is allocated already
      refine ⟨m.m_qpInfoScaleOut, ?_, fun c r s j v hv => hv, ?_, fun c r s j v hv => Or.inl hv⟩
      · simp [QPManagerGaudi3ScaleOut.registerQPs, hlen, at?, hget, hempty]
      · intro hwf hrank s j hs hj
        obtain ⟨_, hrows⟩ := hwf
        have hcap : m.rankCapacity d comm = (m.m_qpInfoScaleOut[comm]).length := by
          unfold QPManagerGaudi3ScaleOut.rankCapacity
          rw [hget]
          cases hq : m.m_qpInfoScaleOut[comm] with
          | nil => simp [hq] at hempty
          | cons a as => rfl
        have hr : remoteRank < (m.m_qpInfoScaleOut[comm]).length := by omega
        have hsets := hrows _ (List.getElem_mem hc) _ (List.getElem_mem hr)
        have hs2 : s < ((m.m_qpInfoScaleOut[comm])[remoteRank]).length := by omega
        have hrow := hsets.2 _ (List.getElem_mem hs2)
        have hj2 : j < (((m.m_qpInfoScaleOut[comm])[remoteRank])[s]).length := by omega
        simp [entryScaleOut, hget, List.getElem?_eq_getElem hr, List.getElem?_eq_getElem hs2,
          List.getElem?_eq_getElem hj2]

theorem getQPn_scaleOut_ok_iff (m : QPManagerGaudi3ScaleOut) (comm remoteRank qpSet qpi v : Nat) :
    m.getQPn comm remoteRank qpSet qpi = .ok v ↔
      entryScaleOut m.m_qpInfoScaleOut comm remoteRank qpSet qpi = some v := by
  rw [getQPn_scaleOut_eq]
  cases entryScaleOut m.m_qpInfoScaleOut comm remoteRank qpSet qpi <;> simp

/-- C10: scale-out `registerQPs` on a well-formed manager, for a communicator
index below the table size after one growth step and a remote rank the
communicator's vector holds, returns without failure for a list `qps` of any
length; it stores `qps[maxQPs * qpSet + qpi]` at `(comm, remoteRank, qpSet,
qpi)` for every such index inside the list, so that `getQPn` returns it; and
every entry the table had before the call, other than these, is unchanged:
those of the same rank whose index is at or past the end of the list, and
those of every other rank or communicator.  The only other entries of the
table after the call are those its allocation created, which hold
`INVALID_QP`. -/
theorem scaleOut_registerQPs_short_list (d : Gaudi3Device) (m : QPManagerGaudi3ScaleOut)
    (comm remoteRank : Nat) (qps : List Nat) (hwf : m.WellFormed d)
    (hsmall : d.MAX_QPS_PER_CONNECTION_G3 * d.MAX_QPS_SETS_PER_CONNECTION ≤ 2 ^ 32)
    (hcomm : comm < m.m_qpInfoScaleOut.length + d.DEFAULT_COMMUNICATORS_SIZE)
    (hrank : remoteRank < m.rankCapacity d comm) :
    (m.registerQPs d comm remoteRank qps).failure = none ∧
    (∀ (qpSet qpi : Nat) (h : m.m_maxQPsPerConnection * qpSet + qpi < qps.length),
      qpSet < d.MAX_QPS_SETS_PER_CONNECTION → qpi < m.m_maxQPsPerConnection →
        (m.registerQPs d comm remoteRank qps).state.getQPn comm remoteRank qpSet qpi =
          .ok qps[m.m_maxQPsPerConnection * qpSet + qpi]) ∧
    (∀ (c r qpSet qpi v : Nat), m.getQPn c r qpSet qpi = .ok v →
      ¬ (c = comm ∧ r = remoteRank ∧ m.m_maxQPsPerConnection * qpSet + qpi < qps.length) →
        (m.registerQPs d comm remoteRank qps).state.getQPn c r qpSet qpi = .ok v) ∧
    (∀ (c r qpSet qpi v : Nat),
      (m.registerQPs d comm remoteRank qps).state.getQPn c r qpSet qpi = .ok v →
      ¬ (c = comm ∧ r = remoteRank ∧ m.m_maxQPsPerConnection * qpSet + qpi < qps.length) →
        m.getQPn c r qpSet qpi = .ok v ∨
          (m.getQPn c r qpSet qpi = .error .outOfRange ∧ v = d.INVALID_QP)) := by
  obtain ⟨t2, heq, hA, hB, hC⟩ := registerQPs_scaleOut_alloc d m comm remoteRank qps hcomm
  have hmax : m.m_maxQPsPerConnection = d.MAX_QPS_PER_CONNECTION_G3 := hwf.1
  have hsome := hB hwf hrank
  have hok := registerScaleOutOuter_succeeds m.m_maxQPsPerConnection comm remoteRank qps
    d.MAX_QPS_SETS_PER_CONNECTION 0 t2
    (fun s j _ hs hj => hsome s j (by omega) (by omega))
  obtain ⟨hnew, hold⟩ := registerScaleOutOuter_ok m.m_maxQPsPerConnection comm remoteRank qps
    d.MAX_QPS_SETS_PER_CONNECTION 0 t2 (by rw [hmax, Nat.zero_add]; exact hsmall) hok
  rw [heq]
  refine ⟨hok, fun qpSet qpi h hs hq => ?_, fun c r qpSet qpi v hv hne => ?_,
    fun c r qpSet qpi v hv hne => ?_⟩
  · rw [getQPn_scaleOut_ok_iff]
    simp only
    rw [hnew qpSet qpi (by omega) (by omega) hq h, List.getElem?_eq_getElem h]
  · rw [getQPn_scaleOut_ok_iff] at hv ⊢
    simp only
    rw [hold c r qpSet qpi (fun hh => hne ⟨hh.1, hh.2.1, hh.2.2.2.2.2⟩)]
    exact hA c r qpSet qpi v hv
  · rw [getQPn_scaleOut_ok_iff] at hv
    simp only at hv
    rw [hold c r qpSet qpi (fun hh => hne ⟨hh.1, hh.2.1, hh.2.2.2.2.2⟩)] at hv
    rcases hC c r qpSet qpi v hv with h1 | ⟨h1, h2⟩
    · exact Or.inl ((getQPn_scaleOut_ok_iff m c r qpSet qpi v).mpr h1)
    · refine Or.inr ⟨?_, h2⟩
      rw [getQPn_scaleOut_eq, h1]

/-- Witness of C10: five ids, one fewer than a connection set holds, registered
for remote rank 3 of communicator 0 on a new manager: the call returns and
role 4 of set 0 resolves to the fifth id. -/
theorem scaleOut_registerQPs_short_list_witness :
    ((QPManagerGaudi3ScaleOut.new device0).registerQPs device0 0 3
        [10, 11, 12, 13, 14]).failure = none ∧
      ((QPManagerGaudi3ScaleOut.new device0).registerQPs device0 0 3
        [10, 11, 12, 13, 14]).state.getQPn 0 3 0 4 = .ok 14 :=
  have h := scaleOut_registerQPs_short_list device0 (QPManagerGaudi3ScaleOut.new device0) 0 3
    [10, 11, 12, 13, 14]
    ⟨rfl, fun ranks hranks => by simp [QPManagerGaudi3ScaleOut.new] at hranks⟩
    (by decide) (by decide) (by decide)
  ⟨h.1, h.2.1 0 4 (by decide) (by decide) (by decide)⟩

/-! ## Theorems: the slice-count search -/

theorem getNumSlicesBody_stop (rc : RemainderCalculator) (count T R obc mbc k : Nat)
    (st st1 : SliceSearch) (h : getNumSlicesBody rc count T R obc mbc k st = .stop st1) :
    st1 = st := by
  unfold getNumSlicesBody at h
  split at h
  · cases h
  · dsimp only at h
    split at h
    · cases h
    · split at h
      · cases h
      · split at h
        · split at h
          · cases h
          · split at h <;> cases h
        · split at h
          · cases h; rfl
          · cases h

theorem getNumSlicesBody_next (rc : RemainderCalculator) (count T R obc mbc k : Nat)
    (st st1 : SliceSearch) (h : getNumSlicesBody rc count T R obc mbc k st = .next st1) :
    st1 = st ∨ (k ≠ 0 ∧ R ≠ 0 ∧ st1.numSlices = k ∧
      st1.optimalBufferCount = sliceCountOf T R k ∧ sumSlicesOf T R k < T ∧
      rc.isValidSlicing obc (sliceCountOf T R k) count k R mbc = true ∧
      st1.minSliceRatio < st.minSliceRatio) := by
  by_cases hk : k = 0
  · simp [getNumSlicesBody, div_round_up, hk] at h
  by_cases hR : R = 0
  · simp [getNumSlicesBody, div_round_up, hk, hR] at h
  simp only [getNumSlicesBody, div_round_up, hk, hR, if_false] at h
  change (if T ≤ sumSlicesOf T R k then _ else _) = _ at h
  split at h
  · simp only [LoopStep.next.injEq] at h
    exact Or.inl h.symm
  · rename_i hsum
    split at h
    · rename_i hvalid
      change rc.isValidSlicing obc (sliceCountOf T R k) count k R mbc = true at hvalid
      split at h
      · simp at h
      · split at h
        · rename_i hlt
          simp only [LoopStep.next.injEq] at h
          subst h
          exact Or.inr ⟨hk, hR, rfl, rfl, by omega, hvalid, hlt⟩
        · simp only [LoopStep.next.injEq] at h
          exact Or.inl h.symm
    · split at h
      · simp at h
      · simp only [LoopStep.next.injEq] at h
        exact Or.inl h.symm

theorem getNumSlicesLoop_cases (rc : RemainderCalculator) (count T R obc mbc : Nat) :
    ∀ (fuel k : Nat) (st res : SliceSearch),
      getNumSlicesLoop rc count T R obc mbc fuel k st = .ok res →
      res = st ∨ ∃ k', k ≤ k' ∧ k' < k + fuel ∧ k' ≠ 0 ∧ R ≠ 0 ∧ res.numSlices = k' ∧
        res.optimalBufferCount = sliceCountOf T R k' ∧ sumSlicesOf T R k' < T ∧
        rc.isValidSlicing obc (sliceCountOf T R k') count k' R mbc = true ∧
        res.minSliceRatio < st.minSliceRatio := by
  intro fuel
  induction fuel with
  | zero =>
    intro k st res h
    simp only [getNumSlicesLoop, Except.ok.injEq] at h
    exact Or.inl h.symm
  | succ n ih =>
    intro k st res h
    unfold getNumSlicesLoop at h
    cases hb : getNumSlicesBody rc count T R obc mbc k st with
    | fail e => simp [hb] at h
    | stop st1 =>
      simp only [hb, Except.ok.injEq] at h
      rw [← h]
      exact Or.inl (getNumSlicesBody_stop rc count T R obc mbc k st st1 hb)
    | next st1 =>
      simp only [hb] at h
      rcases getNumSlicesBody_next rc count T R obc mbc k st st1 hb with h1 | h1
      · subst h1
        rcases ih (k + 1) st1 res h with h2 | ⟨k', a1, a2, a3⟩
        · exact Or.inl h2
        · exact Or.inr ⟨k', by omega, by omega, a3⟩
      · obtain ⟨b1, b2, b3, b4, b5, b6, b7⟩ := h1
        rcases ih (k + 1) st1 res h with h2 | ⟨k', a1, a2, a3, a4, a5, a6, a7, a8, a9⟩
        · subst h2
          exact Or.inr ⟨k, Nat.le_refl _, by omega, b1, b2, b3, b4, b5, b6, b7⟩
        · exact Or.inr ⟨k', by omega, by omega, a3, a4, a5, a6, a7, a8, by omega⟩

theorem getNumSlicesFirst_cases (rc : RemainderCalculator) (count O T R ms : Nat)
    (st0 : SliceSearch) (h : getNumSlicesFirst rc count O T R ms = .ok st0) :
    st0.optimalBufferCount = O ∧ (st0.numSlices = 0 ∨ (st0.numSlices = ms ∧
      rc.isValidSlicing (u32 O) (u32 O) count ms R 0 = true)) := by
  unfold getNumSlicesFirst at h
  dsimp only at h
  split at h
  · rename_i hvalid
    split at h
    · cases h
    · cases h
      exact ⟨rfl, Or.inr ⟨rfl, hvalid⟩⟩
  · cases h
    exact ⟨rfl, Or.inl rfl⟩

theorem maxSlicesOf_le (q : Nat) : maxSlicesOf q ≤ minSlicesOf q + 4 := by
  unfold maxSlicesOf minSlicesOf MAX_NUM_SLICES_SEARCH
  split
  · rename_i h1
    rw [h1]
    decide
  · exact Nat.mod_le _ _

theorem getNumSlices_cases (cfg : GlobalConf) (rc : RemainderCalculator) (s s1 : CommonState)
    (T R n : Nat) (h : s.getNumSlices cfg rc T R = .ok (n, s1)) :
    ∃ q O1, div_round_up T s.m_optimalBufferCount = .ok q ∧
      s1 = { s with m_optimalBufferCount := O1 } ∧ 1 < n ∧ minSlicesOf q ≤ n ∧
      n ≤ minSlicesOf q + 4 ∧
      ((n = minSlicesOf q ∧ O1 = s.m_optimalBufferCount ∧
          rc.isValidSlicing (u32 s.m_optimalBufferCount) (u32 s.m_optimalBufferCount) s.m_count
            (minSlicesOf q) R 0 = true) ∨
        (R ≠ 0 ∧ O1 = sliceCountOf T R n ∧ sumSlicesOf T R n < T)) := by
  unfold CommonState.getNumSlices at h
  dsimp only at h
  split at h
  · cases h
  · rename_i mb _
    split at h
    · cases h
    · rename_i q hq
      split at h
      · cases h
      · rename_i st0 hfirst
        split at h
        · cases h
        · rename_i st hloop
          split at h
          · rename_i hn
            simp only [Except.ok.injEq, Prod.mk.injEq] at h
            obtain ⟨h1, h2⟩ := h
            subst h1
            obtain ⟨f1, f2⟩ := getNumSlicesFirst_cases rc _ _ _ _ _ st0 hfirst
            have hmax := maxSlicesOf_le q
            refine ⟨q, st.optimalBufferCount, hq, h2.symm, hn, ?_⟩
            rcases getNumSlicesLoop_cases rc _ _ _ _ _ _ _ st0 st hloop with
              e | ⟨k, a1, a2, _, a4, a5, a6, a7, _, _⟩
            · subst e
              rcases f2 with z | ⟨z1, z2⟩
              · omega
              · exact ⟨by omega, by omega, Or.inl ⟨z1, f1, z2⟩⟩
            · refine ⟨by omega, by omega, Or.inr ⟨a4, ?_, ?_⟩⟩
              · rw [a6, a5]
              · rw [a5]; exact a7
          · cases h

/-- C2: whenever `getNumSlices(totalRankCount, numRanks)` returns, the slice
count it returns is not 1 and lies between `minSlices` and `minSlices + 4`,
where `minSlices` is the value of `div_round_up(totalRankCount,
m_optimalBufferCount)` as the code holds it in 32 bits, taken as 2 when it is
1; it is the ceiling quotient itself whenever that fits 32 bits. -/
theorem getNumSlices_range (cfg : GlobalConf) (rc : RemainderCalculator) (s s1 : CommonState)
    (totalRankCount numRanks n : Nat)
    (h : s.getNumSlices cfg rc totalRankCount numRanks = .ok (n, s1)) :
    ∃ q, div_round_up totalRankCount s.m_optimalBufferCount = .ok q ∧
      n ≠ 1 ∧ minSlicesOf q ≤ n ∧ n ≤ minSlicesOf q + 4 ∧
      (q < 2 ^ 32 → minSlicesOf q = if q = 1 then 2 else q) := by
  obtain ⟨q, _, hq, _, hn, hlo, hhi, _⟩ := getNumSlices_cases cfg rc s s1 totalRankCount
    numRanks n h
  refine ⟨q, hq, by omega, hlo, hhi, fun h32 => ?_⟩
  unfold minSlicesOf
  rw [u32_of_lt h32]

/-- Witness of C2: 1024 elements for one rank and a buffer of 256 elements:
the search returns 4 slices, and `minSlices` is 4. -/
theorem getNumSlices_range_witness :
    ∃ q, div_round_up 1024 (bufferState 256).m_optimalBufferCount = .ok q ∧
      (4 : Nat) ≠ 1 ∧ minSlicesOf q ≤ 4 ∧ 4 ≤ minSlicesOf q + 4 ∧
      (q < 2 ^ 32 → minSlicesOf q = if q = 1 then 2 else q) :=
  getNumSlices_range conf0 floorCalculator (bufferState 256) (bufferState 256) 1024 1 4 rfl

theorem sub32_one {n : Nat} (h1 : 1 ≤ n) (h2 : n < 2 ^ 32) : sub32 n 1 = n - 1 := by
  unfold sub32 u32
  rw [Nat.mod_eq_of_lt h2]
  have : (1 : Nat) % 2 ^ 32 = 1 := by decide
  rw [this]
  have h3 : n + (2 ^ 32 - 1) = (n - 1) + 2 ^ 32 := by omega
  rw [h3, Nat.add_mod_right]
  exact Nat.mod_eq_of_lt (by omega)

theorem ceil_pred_mul_lt {T O : Nat} (hO : 0 < O) (hT : O < T) :
    2 ≤ (T + O - 1) / O ∧ (T + O - 1) / O ≤ T ∧ O * ((T + O - 1) / O - 1) < T := by
  have e : T + O - 1 = (T - 1) + O := by omega
  rw [e, Nat.add_div_right _ hO]
  have h1 : (T - 1) / O * O ≤ T - 1 := Nat.div_mul_le_self _ _
  have h2 : 1 ≤ (T - 1) / O := (Nat.one_le_div_iff hO).mpr (by omega)
  have h3 : (T - 1) / O ≤ T - 1 := Nat.div_le_self _ _
  refine ⟨by omega, by omega, ?_⟩
  rw [Nat.succ_sub_one, Nat.mul_comm]
  omega

theorem mul_pred_add_self (c : Nat) {n : Nat} (hn : 1 ≤ n) : c * (n - 1) + c = c * n := by
  obtain ⟨m, rfl⟩ : ∃ m, n = m + 1 := ⟨n - 1, by omega⟩
  rw [Nat.add_sub_cancel, Nat.mul_succ]

theorem pred_mul_add_self (m : Nat) {r : Nat} (hr : 1 ≤ r) : (r - 1) * m + m = r * m := by
  obtain ⟨k, rfl⟩ : ∃ k, r = k + 1 := ⟨r - 1, by omega⟩
  rw [Nat.add_sub_cancel, Nat.succ_mul]

theorem sliceCountOf_mul_lt {T R n : Nat} (hR : 1 ≤ R) (hn : 2 ≤ n) (hnT : n ≤ T + 4)
    (hsmall : (T + 3) * (R + 1) < 2 ^ 32) :
    sumSlicesOf T R n = sliceCountOf T R n * (n - 1) := by
  have hT : T < 2 ^ 32 := by nlinarith
  have hTR : T + R * (T + 3) < 2 ^ 32 := by nlinarith
  have hn32 : n < 2 ^ 32 := by nlinarith
  -- the rough slice count
  have hc1 : (T + n - 1) / n * n ≤ T + n - 1 := Nat.div_mul_le_self _ _
  have hc2 : (T + n - 1) / n ≤ T := by
    by_contra hcon
    push_neg at hcon
    have h1 : (T + 1) * n ≤ (T + n - 1) / n * n := Nat.mul_le_mul_right _ hcon
    have h2 : (T + 1) * n = T * n + n := by ring
    have h3 : T ≤ T * n := Nat.le_mul_of_pos_right _ (by omega)
    omega
  have hu1 : u32 ((T + n - 1) / n) = (T + n - 1) / n := u32_of_lt (by omega)
  -- the rounded slice count
  have hs1 : ((T + n - 1) / n + R - 1) / R * R ≤ (T + n - 1) / n + R - 1 :=
    Nat.div_mul_le_self _ _
  have hRT : R ≤ R * (T + 3) := Nat.le_mul_of_pos_right _ (by omega)
  have hu2 : sliceCountOf T R n = ((T + n - 1) / n + R - 1) / R * R := by
    unfold sliceCountOf
    rw [hu1]
    exact u32_of_lt (by omega)
  -- the product
  have hprod : sliceCountOf T R n * (n - 1) ≤ T + R * (n - 1) := by
    rw [hu2]
    have a1 : ((T + n - 1) / n + R - 1) / R * R * (n - 1) ≤
        ((T + n - 1) / n + R - 1) * (n - 1) := Nat.mul_le_mul_right _ hs1
    have a2 : ((T + n - 1) / n + R - 1) * (n - 1) =
        (T + n - 1) / n * (n - 1) + (R - 1) * (n - 1) := by
      have : (T + n - 1) / n + R - 1 = (T + n - 1) / n + (R - 1) := by omega
      rw [this, Nat.add_mul]
    have a3 : (T + n - 1) / n * (n - 1) + (T + n - 1) / n = (T + n - 1) / n * n :=
      mul_pred_add_self _ (by omega)
    have a4 : (R - 1) * (n - 1) + (n - 1) = R * (n - 1) := pred_mul_add_self _ hR
    omega
  have hle : R * (n - 1) ≤ R * (T + 3) := Nat.mul_le_mul_left _ (by omega)
  unfold sumSlicesOf
  rw [sub32_one (by omega) hn32]
  exact u32_of_lt (by omega)

theorem getNumSlices_valid (cfg : GlobalConf) (rc : RemainderCalculator) (s s1 : CommonState)
    (T R n : Nat) (h : s.getNumSlices cfg rc T R = .ok (n, s1))
    (hO : s.m_optimalBufferCount < T) (hR : 1 ≤ R) (hsmall : (T + 3) * (R + 1) < 2 ^ 32) :
    s1 = { s with m_optimalBufferCount := s1.m_optimalBufferCount } ∧ 2 ≤ n ∧ n ≤ T + 4 ∧
      s1.m_optimalBufferCount * (n - 1) < T := by
  obtain ⟨q, O1, hq, hs1, hn, hlo, hhi, hcase⟩ := getNumSlices_cases cfg rc s s1 T R n h
  have hT : T < 2 ^ 32 := by nlinarith
  have hO0 : s.m_optimalBufferCount ≠ 0 := by
    intro h0
    simp [div_round_up, h0] at hq
  have hqv : q = (T + s.m_optimalBufferCount - 1) / s.m_optimalBufferCount := by
    simp only [div_round_up, hO0, if_false, Except.ok.injEq] at hq
    exact hq.symm
  obtain ⟨c1, c2, c3⟩ := ceil_pred_mul_lt (Nat.pos_of_ne_zero hO0) hO
  rw [← hqv] at c1 c2 c3
  have hmin : minSlicesOf q = q := by
    unfold minSlicesOf
    rw [u32_of_lt (by omega)]
    simp only [ite_eq_right_iff]
    intro h1
    omega
  rw [hmin] at hlo hhi hcase
  have hO1 : s1.m_optimalBufferCount = O1 := by rw [hs1]
  refine ⟨by rw [hs1], hn, by omega, ?_⟩
  rw [hO1]
  rcases hcase with ⟨e1, e2, _⟩ | ⟨_, e2, e3⟩
  · rw [e1, e2]
    exact c3
  · rw [e2, ← sliceCountOf_mul_lt hR hn (by omega) hsmall]
    exact e3

/-! ## Theorems: the element counts of the slices -/

theorem share_mul_lt {a b v x : Nat} (hv : v * b < a + b) (hx : x < v) :
    x * b < a := by
  have h1 : (x + 1) * b ≤ v * b := Nat.mul_le_mul_right _ hx
  rw [Nat.add_mul, Nat.one_mul] at h1
  omega

theorem share_le {a b v : Nat} (hb : 0 < b) (hv : v * b < a + b) : v ≤ a := by
  by_contra hcon
  push_neg at hcon
  have h1 : (a + 1) * b ≤ v * b := Nat.mul_le_mul_right _ hcon
  rw [Nat.add_mul, Nat.one_mul] at h1
  have h2 : a ≤ a * b := Nat.le_mul_of_pos_right _ hb
  omega

theorem floor_mul_lt {a b x : Nat} (hx : x < a / b) : x * b < a := by
  have hb : 0 < b := by
    rcases Nat.eq_zero_or_pos b with h0 | h0
    · rw [h0, Nat.div_zero] at hx; omega
    · exact h0
  have h1 : (x + 1) * b ≤ a / b * b := Nat.mul_le_mul_right _ hx
  have h2 : a / b * b ≤ a := Nat.div_mul_le_self _ _
  rw [Nat.add_mul, Nat.one_mul] at h1
  omega

theorem calcStrideCounts_spec (rc : RemainderCalculator) (s s1 : CommonState) (T R : Nat)
    (hrc : rc.Sound) (hw : s.WellSized)
    (h : CommonState.calcStrideCounts rc s = .ok (s1, T, R)) :
    s1.m_collectiveOp = s.m_collectiveOp ∧ s1.m_count = s.m_count ∧
      s1.m_dynamicComm = s.m_dynamicComm ∧ s1.m_boxIterations = s.m_boxIterations ∧
      s1.m_rankScaleUpCount = s.m_rankScaleUpCount ∧ s1.m_boxCount = s.m_boxCount ∧
      1 ≤ R ∧ R ≤ s.m_dynamicComm.commSize ∧ T ≤ s.m_count ∧
      ∀ x, x < T → x * s.sliceMultiplier < s.requestedElements := by
  obtain ⟨hP0, hPC, hPB, hSPB, hsm⟩ := hw
  obtain ⟨_, hdiv⟩ := hrc
  have hC32 : s.m_dynamicComm.commSize < 2 ^ 32 := by nlinarith
  have hP32 : s.m_dynamicComm.podSize < 2 ^ 32 := by omega
  have hC64 : s.m_dynamicComm.commSize < 2 ^ 64 := by omega
  have hC0 : 0 < s.m_dynamicComm.commSize := by omega
  have hCne : s.m_dynamicComm.commSize ≠ 0 := by omega
  unfold CommonState.calcStrideCounts at h
  simp only [u32_of_lt hC32, u32_of_lt hP32] at h
  unfold CommonState.sliceMultiplier CommonState.requestedElements
  simp only [u64_of_lt hC64]
  cases hop : s.m_collectiveOp <;> simp only [hop] at h ⊢
  case eHCLSimpleBroadcast | eHCLNoCollective | eHCLGather | eHCLAllGather =>
    simp only [Except.ok.injEq, Prod.mk.injEq] at h
    obtain ⟨rfl, rfl, rfl⟩ := h
    exact ⟨rfl, rfl, rfl, rfl, rfl, rfl, hC0, Nat.le_refl _, Nat.le_refl _,
      fun x hx => by omega⟩
  case eHCLScatter | eHCLAll2All | eHCLReduceScatter =>
    simp only [div, hCne, if_false, Except.ok.injEq, Prod.mk.injEq] at h
    obtain ⟨rfl, rfl, rfl⟩ := h
    refine ⟨rfl, rfl, rfl, rfl, rfl, rfl, hC0, Nat.le_refl _, Nat.div_le_self _ _,
      fun x hx => ?_⟩
    first
      | omega
      | exact floor_mul_lt hx
      | exact Nat.lt_of_le_of_lt (Nat.mul_le_mul_left _ hPB) (floor_mul_lt hx)
  case eHCLBroadcast =>
    split at h
    · cases h
    · rename_i d hd
      simp only [Except.ok.injEq, Prod.mk.injEq] at h
      obtain ⟨rfl, rfl, rfl⟩ := h
      have hv := hdiv _ _ _ hP0 hd
      exact ⟨rfl, rfl, rfl, rfl, rfl, rfl, hP0, hPC, share_le hP0 hv,
        fun x hx => share_mul_lt hv hx⟩
  case eHCLSinglePeerBroadcast =>
    have hP2 := hSPB hop
    have hR : sub32 s.m_dynamicComm.podSize 1 = s.m_dynamicComm.podSize - 1 :=
      sub32_one (by omega) hP32
    rw [hR] at h
    have hR0 : 0 < s.m_dynamicComm.podSize - 1 := by omega
    split at h
    · cases h
    · split at h
      · cases h
      · rename_i d hd
        simp only [Except.ok.injEq, Prod.mk.injEq] at h
        obtain ⟨rfl, rfl, rfl⟩ := h
        have hv := hdiv _ _ _ hR0 hd
        exact ⟨rfl, rfl, rfl, rfl, rfl, rfl, hR0, by omega, share_le hR0 hv,
          fun x hx => share_mul_lt hv hx⟩
  case eHCLReduce | eHCLAllReduce =>
    split at h
    · cases h
    · rename_i d hd
      simp only [Except.ok.injEq, Prod.mk.injEq] at h
      obtain ⟨rfl, rfl, rfl⟩ := h
      have hv := hdiv _ _ _ hC0 hd
      exact ⟨rfl, rfl, rfl, rfl, rfl, rfl, hC0, Nat.le_refl _, share_le hC0 hv,
        fun x hx => Nat.lt_of_le_of_lt (Nat.mul_le_mul_left _ hPB) (share_mul_lt hv hx)⟩
  case eHCLCollectiveLastValue => cases h

theorem mul_lt_two64 {a b : Nat} (ha : a < 2 ^ 32) (hb : b < 2 ^ 32) : a * b < 2 ^ 64 := by
  have h : a * b < 2 ^ 32 * 2 ^ 32 := Nat.mul_lt_mul'' ha hb
  have e : (2 : Nat) ^ 32 * 2 ^ 32 = 2 ^ 64 := by norm_num
  omega

theorem calcNonFinalCounts_spec (s s1 : CommonState) (T : Nat)
    (hP0 : 0 < s.m_dynamicComm.podSize) (hP : s.m_dynamicComm.podSize < 2 ^ 32)
    (hC : s.m_dynamicComm.commSize < 2 ^ 32) (hO : s.m_optimalBufferCount < 2 ^ 32)
    (h : CommonState.calcNonFinalCounts s T = .ok s1) :
    s1.sliceElements = s.m_optimalBufferCount * s.sliceMultiplier ∧
      s1.m_collectiveOp = s.m_collectiveOp ∧ s1.m_count = s.m_count ∧
      s1.m_dynamicComm = s.m_dynamicComm ∧ s1.m_boxIterations = s.m_boxIterations ∧
      s1.m_isSlicing = s.m_isSlicing ∧ s1.m_sliceIterations = s.m_sliceIterations ∧
      s1.m_optimalBufferCount = s.m_optimalBufferCount := by
  have hOP := u64_of_lt (mul_lt_two64 hO hP)
  have hOP1 : u64 (s.m_optimalBufferCount * (s.m_dynamicComm.podSize - 1)) =
      s.m_optimalBufferCount * (s.m_dynamicComm.podSize - 1) :=
    u64_of_lt (mul_lt_two64 hO (by omega))
  have hC64 : u64 s.m_dynamicComm.commSize = s.m_dynamicComm.commSize := u64_of_lt (by omega)
  unfold CommonState.calcNonFinalCounts at h
  simp only [u32_of_lt hP, sub32_one hP0 hP, hOP, hOP1] at h
  unfold CommonState.sliceElements CommonState.sliceMultiplier
  cases hop : s.m_collectiveOp <;> simp only [hop] at h ⊢
  case eHCLCollectiveLastValue => cases h
  all_goals
    simp only [Except.ok.injEq] at h
    subst h
    simp only [hop, hC64, Nat.mul_one, Nat.mul_assoc, and_self]

theorem small_of_wellSized {count C T R : Nat} (hT : T ≤ count) (hR : R ≤ C)
    (h : (count + 3) * (C + 2) < 2 ^ 32) : (T + 3) * (R + 1) < 2 ^ 32 := by
  have h1 : (T + 3) * (R + 1) ≤ (count + 3) * (C + 2) :=
    Nat.mul_le_mul (by omega) (by omega)
  omega

theorem calcMaxSliceCounts_spec (cfg : GlobalConf) (rc : RemainderCalculator)
    (s s1 : CommonState) (hrc : rc.Sound) (hw : s.WellSized)
    (h : CommonState.calcMaxSliceCounts cfg rc s = .ok s1) :
    ∃ O0 s0 T R, div s.m_dynamicComm.sliceSize s.m_dataTypeSizeInBytes = .ok O0 ∧
      CommonState.calcStrideCounts rc { s with m_optimalBufferCount := O0 } = .ok (s0, T, R) ∧
      s1.m_collectiveOp = s.m_collectiveOp ∧ s1.m_count = s.m_count ∧
      s1.m_dynamicComm = s.m_dynamicComm ∧ s1.m_boxIterations = s.m_boxIterations ∧
      ((s1.m_isSlicing = false ∧ s1.m_sliceIterations = 1) ∨
        (s1.m_isSlicing = true ∧ 2 ≤ s1.m_sliceIterations ∧ s1.m_sliceIterations ≤ T + 4 ∧
          (∃ q, div_round_up T s0.m_optimalBufferCount = .ok q ∧
            minSlicesOf q ≤ s1.m_sliceIterations ∧ s1.m_sliceIterations ≤ minSlicesOf q + 4) ∧
          s1.sliceElements = s1.m_optimalBufferCount * s.sliceMultiplier ∧
          s1.m_optimalBufferCount * (s1.m_sliceIterations - 1) < T)) := by
  have hw0 := hw
  obtain ⟨hP0, hPC, hPB, hSPB, hsm⟩ := hw
  have hC32 : s.m_dynamicComm.commSize < 2 ^ 32 := by nlinarith
  have hcount : s.m_count < 2 ^ 32 := by nlinarith
  unfold CommonState.calcMaxSliceCounts at h
  split at h
  · cases h
  · rename_i O0 hO0
    split at h
    · cases h
    · rename_i s0 T R hstride
      have hwO : ({ s with m_optimalBufferCount := O0 } : CommonState).WellSized := hw0
      obtain ⟨f1, f2, f3, f4, _, _, hR1, hRC, hT, _⟩ :=
        calcStrideCounts_spec rc _ s0 T R hrc hwO hstride
      simp only at f1 f2 f3 f4 hRC hT
      refine ⟨O0, s0, T, R, hO0, hstride, ?_⟩
      dsimp only at h
      split at h
      · simp only [Except.ok.injEq] at h
        subst h
        exact ⟨f1, f2, f3, f4, Or.inl ⟨rfl, rfl⟩⟩
      · rename_i hslicing
        have hsl : rc.isSlicing s0.m_count T s0.m_optimalBufferCount R = true := by
          cases hb : rc.isSlicing s0.m_count T s0.m_optimalBufferCount R
          · exact absurd hb hslicing
          · rfl
        have hOT : s0.m_optimalBufferCount < T := hrc.1 _ _ _ _ hsl
        split at h
        · cases h
        · rename_i n s2 hnum
          obtain ⟨g1, g2, g3, g4⟩ := getNumSlices_valid cfg rc _ s2 T R n hnum hOT hR1
            (small_of_wellSized hT hRC hsm)
          obtain ⟨q, _, hq, _, _, hlo, hhi, _⟩ := getNumSlices_cases cfg rc _ s2 T R n hnum
          simp only at g4 hq
          have hO2 : s2.m_optimalBufferCount < 2 ^ 32 := by
            have : s2.m_optimalBufferCount * 1 ≤ s2.m_optimalBufferCount * (n - 1) :=
              Nat.mul_le_mul_left _ (by omega)
            omega
          rw [g1] at h hO2
          have hnf := calcNonFinalCounts_spec _ s1 T ?_ ?_ ?_ ?_ h
          · obtain ⟨k1, k2, k3, k4, k5, k6, k7, k8⟩ := hnf
            have e1 : s1.m_optimalBufferCount = s2.m_optimalBufferCount := by
              rw [k8]; split <;> rfl
            have e2 : s1.m_sliceIterations = n := by
              rw [k7]; split <;> rfl
            have e3 : s1.m_collectiveOp = s.m_collectiveOp := by
              rw [k2, ← f1]; split <;> rfl
            have e4 : s1.m_count = s.m_count := by
              rw [k3, ← f2]; split <;> rfl
            have e5 : s1.m_dynamicComm = s.m_dynamicComm := by
              rw [k4, ← f3]; split <;> rfl
            have e6 : s1.m_boxIterations = s.m_boxIterations := by
              rw [k5, ← f4]; split <;> rfl
            have e7 : s1.m_isSlicing = true := by
              rw [k6]; split <;> rfl
            refine ⟨e3, e4, e5, e6, Or.inr ⟨e7, by omega, by omega, ⟨q, hq, by omega, by omega⟩,
              ?_, ?_⟩⟩
            · rw [k1, e1]
              congr 1
              · split <;> rfl
              · unfold CommonState.sliceMultiplier
                have m1 : ∀ x : CommonState, x.m_collectiveOp = s.m_collectiveOp →
                    x.m_dynamicComm = s.m_dynamicComm → x.m_boxIterations = s.m_boxIterations →
                    (match x.m_collectiveOp with
                      | eHCLSimpleBroadcast | eHCLNoCollective | eHCLGather | eHCLAllGather
                      | eHCLAll2All => 1
                      | eHCLBroadcast => x.m_dynamicComm.podSize
                      | eHCLSinglePeerBroadcast => x.m_dynamicComm.podSize - 1
                      | eHCLScatter => x.m_dynamicComm.commSize
                      | eHCLReduceScatter | eHCLReduce | eHCLAllReduce =>
                        x.m_dynamicComm.podSize * x.m_boxIterations
                      | eHCLCollectiveLastValue => 0) =
                    (match s.m_collectiveOp with
                      | eHCLSimpleBroadcast | eHCLNoCollective | eHCLGather | eHCLAllGather
                      | eHCLAll2All => 1
                      | eHCLBroadcast => s.m_dynamicComm.podSize
                      | eHCLSinglePeerBroadcast => s.m_dynamicComm.podSize - 1
                      | eHCLScatter => s.m_dynamicComm.commSize
                      | eHCLReduceScatter | eHCLReduce | eHCLAllReduce =>
                        s.m_dynamicComm.podSize * s.m_boxIterations
                      | eHCLCollectiveLastValue => 0) := by
                  intro x x1 x2 x3
                  rw [x1, x2, x3]
                apply m1
                · rw [← f1]; split <;> rfl
                · rw [← f3]; split <;> rfl
                · rw [← f4]; split <;> rfl
            · rw [e1, e2]; exact g4
          · have : ∀ x : CommonState, x.m_dynamicComm = s.m_dynamicComm →
                0 < x.m_dynamicComm.podSize := fun x hx => by rw [hx]; exact hP0
            apply this
            rw [← f3]; split <;> rfl
          · have : ∀ x : CommonState, x.m_dynamicComm = s.m_dynamicComm →
                x.m_dynamicComm.podSize < 2 ^ 32 := fun x hx => by rw [hx]; omega
            apply this
            rw [← f3]; split <;> rfl
          · have : ∀ x : CommonState, x.m_dynamicComm = s.m_dynamicComm →
                x.m_dynamicComm.commSize < 2 ^ 32 := fun x hx => by rw [hx]; omega
            apply this
            rw [← f3]; split <;> rfl
          · have : ∀ x : CommonState, x.m_optimalBufferCount = s2.m_optimalBufferCount →
                x.m_optimalBufferCount < 2 ^ 32 := fun x hx => by rw [hx]; rw [g1]; exact hO2
            apply this
            split <;> rfl

theorem totalCountForLastSlice_eq (s : CommonState)
    (hop : s.m_collectiveOp ≠ eHCLCollectiveLastValue)
    (hC : u64 s.m_dynamicComm.commSize ≠ 0) :
    s.totalCountForLastSlice =
      .ok (sub64 s.requestedElements (u64 (s.sliceElements * sub32 s.m_sliceIterations 1))) := by
  unfold CommonState.totalCountForLastSlice CommonState.requestedElements
    CommonState.sliceElements
  cases h : s.m_collectiveOp <;> simp only [hC, if_false]
  case eHCLCollectiveLastValue => exact absurd h hop

theorem sub64_of_le {a b : Nat} (hb : b ≤ a) (ha : a < 2 ^ 64) : sub64 a (u64 b) = a - b := by
  unfold sub64 u64
  rw [Nat.mod_eq_of_lt ha, Nat.mod_eq_of_lt (show b < 2 ^ 64 by omega),
    Nat.mod_eq_of_lt (show b < 2 ^ 64 by omega)]
  have h3 : a + (2 ^ 64 - b) = (a - b) + 2 ^ 64 := by omega
  rw [h3, Nat.add_mod_right]
  exact Nat.mod_eq_of_lt (by omega)

theorem calcMaxSliceCounts_residual (cfg : GlobalConf) (rc : RemainderCalculator)
    (s s1 : CommonState) (hrc : rc.Sound) (hw : s.WellSized)
    (h : CommonState.calcMaxSliceCounts cfg rc s = .ok s1) :
    1 ≤ s1.m_sliceIterations ∧ s1.m_sliceIterations < 2 ^ 32 ∧
      s1.requestedElements < 2 ^ 32 ∧
      s1.sliceElements * (s1.m_sliceIterations - 1) ≤ s1.requestedElements ∧
      (s1.m_isSlicing = true →
        s1.sliceElements * (s1.m_sliceIterations - 1) < s1.requestedElements) ∧
      s1.totalCountForLastSlice =
        .ok (s1.requestedElements - s1.sliceElements * (s1.m_sliceIterations - 1)) := by
  obtain ⟨O0, s0, T, R, hO0, hstride, e1, e2, e3, e4, hcase⟩ :=
    calcMaxSliceCounts_spec cfg rc s s1 hrc hw h
  have hw0 := hw
  obtain ⟨hP0, hPC, hPB, hSPB, hsm⟩ := hw
  have hC32 : s.m_dynamicComm.commSize < 2 ^ 32 := by nlinarith
  have hcount : s.m_count < 2 ^ 32 := by nlinarith
  have hcount4 : s.m_count + 4 < 2 ^ 32 := by
    have h3 : (s.m_count + 3) * 3 ≤ (s.m_count + 3) * (s.m_dynamicComm.commSize + 2) :=
      Nat.mul_le_mul_left _ (by omega)
    omega
  have hwO : ({ s with m_optimalBufferCount := O0 } : CommonState).WellSized := hw0
  obtain ⟨f1, _, _, _, _, _, _, _, hT, hx0⟩ := calcStrideCounts_spec rc _ s0 T R hrc hwO hstride
  have hx : ∀ x, x < T → x * s.sliceMultiplier < s.requestedElements := hx0
  clear hx0 hwO
  simp only at hT f1
  have hreq : s1.requestedElements = s.requestedElements := by
    unfold CommonState.requestedElements
    rw [e1, e2, e3]
  have hreqle : s.requestedElements ≤ s.m_count := by
    unfold CommonState.requestedElements
    split
    · exact Nat.div_le_self _ _
    · exact Nat.le_refl _
  have hop : s1.m_collectiveOp ≠ eHCLCollectiveLastValue := by
    rw [e1]
    intro hlast
    simp [CommonState.calcStrideCounts, hlast] at hstride
  have hCu : u64 s1.m_dynamicComm.commSize ≠ 0 := by
    rw [e3, u64_of_lt (by omega)]
    omega
  have htot := totalCountForLastSlice_eq s1 hop hCu
  rcases hcase with ⟨c1, c2⟩ | ⟨c1, c2, c3, _, c5, c6⟩
  · have hz : s1.sliceElements * (s1.m_sliceIterations - 1) = 0 := by rw [c2]; simp
    refine ⟨by omega, by omega, by omega, by omega, (fun hh => by rw [c1] at hh; cases hh), ?_⟩
    rw [htot, c2]
    have : sub32 1 1 = 0 := by decide
    rw [this]
    simp only [Nat.sub_self, Nat.mul_zero]
    rw [sub64_of_le (Nat.zero_le _) (by omega)]
  · have hlt : s1.sliceElements * (s1.m_sliceIterations - 1) < s1.requestedElements := by
      rw [c5, hreq, Nat.mul_assoc, Nat.mul_comm s.sliceMultiplier, ← Nat.mul_assoc]
      exact hx _ c6
    refine ⟨by omega, by omega, by omega, by omega, fun _ => hlt, ?_⟩
    rw [htot, sub32_one (by omega) (by omega), sub64_of_le (by omega) (by omega)]

theorem setHasBufferSize_fields (s : CommonState) :
    s.setHasBufferSize.sliceElements = s.sliceElements ∧
      s.setHasBufferSize.m_rankScaleUpCount = s.m_rankScaleUpCount := by
  unfold CommonState.setHasBufferSize
  split <;> exact ⟨rfl, rfl⟩

theorem calcFinalCounts_spec (rc : RemainderCalculator) (s s2 : CommonState) (t : Nat)
    (hrc : rc.Sound) (hC0 : 0 < s.m_dynamicComm.commSize)
    (hC : s.m_dynamicComm.commSize < 2 ^ 32) (hP : s.m_dynamicComm.podSize < 2 ^ 32)
    (ht : t < 2 ^ 32) (h : CommonState.calcFinalCounts rc s t = .ok s2) :
    match s.m_collectiveOp with
    | eHCLReduceScatter | eHCLScatter =>
      s2.m_rankScaleUpCount = t / s.m_dynamicComm.commSize ∧
        s2.sliceElements = t / s.m_dynamicComm.commSize * s.sliceMultiplier
    | eHCLAllReduce | eHCLReduce =>
      rc.getDiv t s.m_dynamicComm.commSize = .ok s2.m_rankScaleUpCount ∧
        s2.sliceElements = s2.m_rankScaleUpCount * s.sliceMultiplier
    | eHCLCollectiveLastValue => False
    | _ => s2.sliceElements = t := by
  have hCu : u64 s.m_dynamicComm.commSize = s.m_dynamicComm.commSize := u64_of_lt (by omega)
  have hPu : u64 s.m_dynamicComm.podSize = s.m_dynamicComm.podSize := u64_of_lt (by omega)
  have hCne : s.m_dynamicComm.commSize ≠ 0 := by omega
  have hdivP : u64 (t / s.m_dynamicComm.commSize * s.m_dynamicComm.podSize) =
      t / s.m_dynamicComm.commSize * s.m_dynamicComm.podSize :=
    u64_of_lt (mul_lt_two64 (Nat.lt_of_le_of_lt (Nat.div_le_self _ _) ht) hP)
  unfold CommonState.calcFinalCounts at h
  simp only [hCu, hPu, hCne, if_false, hdivP] at h
  unfold CommonState.sliceElements CommonState.sliceMultiplier
  cases hop : s.m_collectiveOp <;> simp only [hop] at h ⊢
  case eHCLCollectiveLastValue => cases h
  case eHCLReduce | eHCLAllReduce =>
    split at h
    · cases h
    · rename_i d hd
      simp only [Except.ok.injEq] at h
      subst h
      have hdt : d ≤ t := share_le hC0 (hrc.2 _ _ _ hC0 hd)
      have hdP : u64 (d * s.m_dynamicComm.podSize) = d * s.m_dynamicComm.podSize :=
        u64_of_lt (mul_lt_two64 (by omega) hP)
      simp only [hop, hdP, Nat.mul_assoc]
      exact ⟨hd, trivial⟩
  case eHCLBroadcast | eHCLSinglePeerBroadcast =>
    split at h
    · cases h
    · simp only [Except.ok.injEq] at h
      subst h
      simp only [hop]
  case eHCLAll2All =>
    split at h
    · split at h
      · cases h
      · simp only [Except.ok.injEq] at h
        subst h
        simp only [hop]
    · simp only [Except.ok.injEq] at h
      subst h
      simp only [hop]
  all_goals
    simp only [Except.ok.injEq] at h
    subst h
    simp only [hop, hCu, Nat.mul_assoc, and_self]

theorem calcSliceCounts_final (rc : RemainderCalculator) (s s2 : CommonState) (t : Nat)
    (hn1 : 1 ≤ s.m_sliceIterations) (hn32 : s.m_sliceIterations < 2 ^ 32)
    (htot : s.totalCountForLastSlice = .ok t)
    (h : CommonState.calcSliceCounts rc s (s.m_sliceIterations - 1) = .ok s2) :
    ∃ s3, CommonState.calcFinalCounts rc s t = .ok s3 ∧ s2 = s3.setHasBufferSize := by
  unfold CommonState.calcSliceCounts at h
  rw [sub32_one hn1 hn32, htot] at h
  simp only [if_true] at h
  split at h
  · cases h
  · rename_i s3 h3
    simp only [Except.ok.injEq] at h
    exact ⟨s3, h3, h.symm⟩

theorem floorCalculator_sound : floorCalculator.Sound := by
  constructor
  · intro a b c d h
    simpa [floorCalculator] using h
  · intro a b v hb h
    have hb0 : b ≠ 0 := by omega
    simp only [floorCalculator, div, hb0, if_false, Except.ok.injEq] at h
    subst h
    have := Nat.div_mul_le_self a b
    omega

theorem calcBoxAndScaleOutCounts_sliceElements (rc : RemainderCalculator) (ss ss1 : SliceState)
    (hAR : ss.m_collectiveOp ≠ eHCLAllReduce) (hR : ss.m_collectiveOp ≠ eHCLReduce)
    (h : ss.calcBoxAndScaleOutCounts rc = .ok ss1) :
    ss1.sliceElements = ss.sliceElements := by
  unfold SliceState.calcBoxAndScaleOutCounts at h
  split at h
  · dsimp only at h
    split at h
    · cases h
    · rename_i c hc
      simp only [Except.ok.injEq] at h
      subst h
      rw [(setHasBufferSize_fields c).1]
      cases hop : ss.m_collectiveOp <;> simp only [hop] at hc
      case eHCLAllReduce => exact absurd hop hAR
      case eHCLReduce => exact absurd hop hR
      case eHCLCollectiveLastValue => cases hc
      all_goals
        simp only [Except.ok.injEq] at hc
        subst hc
        simp only [CommonState.sliceElements, hop]
  · simp only [Except.ok.injEq] at h
    subst h
    rfl

/-- Why the count of a ReduceScatter has to be a multiple of the communicator
size: a ReduceScatter of 10 elements on four ranks in one box is planned as one
slice over one box; the final (only) slice hands 10 / 4 = 2 elements to each
rank and 8 elements to the box, so 2 of the 10 elements are in no slice. -/
theorem reduceScatter_drops_remainder :
    ((CommonState.planFinalSlice conf0 floorCalculator
        (callState eHCLReduceScatter comm4 10 0 4096) true).map fun s =>
          (s.m_count, s.m_sliceIterations, s.m_boxIterations, s.m_rankScaleUpCount,
            s.m_boxCount)) = .ok (10, 1, 1, 2, 8) ∧
      (2 : Nat) * comm4.commSize ≠ 10 ∧ (8 : Nat) * 1 ≠ 10 := by
  refine ⟨rfl, by decide, by decide⟩

theorem setHasBufferSize_op (s : CommonState) :
    s.setHasBufferSize.m_collectiveOp = s.m_collectiveOp := by
  unfold CommonState.setHasBufferSize
  split <;> rfl

theorem calcFinalCounts_op (rc : RemainderCalculator) (s s2 : CommonState) (t : Nat)
    (h : CommonState.calcFinalCounts rc s t = .ok s2) :
    s2.m_collectiveOp = s.m_collectiveOp := by
  unfold CommonState.calcFinalCounts at h
  cases hop : s.m_collectiveOp <;> simp only [hop] at h
  case eHCLCollectiveLastValue => cases h
  case eHCLAll2All =>
    split at h
    · split at h
      · cases h
      · cases h; rfl
    · cases h; rfl
  all_goals
    first
      | (cases h; rfl)
      | (split at h
         · cases h
         · cases h; rfl)

theorem planned_facts (rc : RemainderCalculator) (s1 s2 : CommonState) (hrc : rc.Sound)
    (hC0 : 0 < s1.m_dynamicComm.commSize) (hC : s1.m_dynamicComm.commSize < 2 ^ 32)
    (hP : s1.m_dynamicComm.podSize < 2 ^ 32)
    (r1 : 1 ≤ s1.m_sliceIterations) (r2 : s1.m_sliceIterations < 2 ^ 32)
    (r3 : s1.requestedElements < 2 ^ 32) {t : Nat}
    (r6 : s1.totalCountForLastSlice = .ok t) (ht : t ≤ s1.requestedElements)
    (h2 : CommonState.calcSliceCounts rc s1 (s1.m_sliceIterations - 1) = .ok s2) :
    match s1.m_collectiveOp with
    | eHCLReduceScatter | eHCLScatter =>
      s2.m_rankScaleUpCount = t / s1.m_dynamicComm.commSize ∧
        s2.sliceElements = t / s1.m_dynamicComm.commSize * s1.sliceMultiplier
    | eHCLAllReduce | eHCLReduce =>
      rc.getDiv t s1.m_dynamicComm.commSize = .ok s2.m_rankScaleUpCount ∧
        s2.sliceElements = s2.m_rankScaleUpCount * s1.sliceMultiplier
    | eHCLCollectiveLastValue => False
    | _ => s2.sliceElements = t := by
  obtain ⟨s3, h3, rfl⟩ := calcSliceCounts_final rc s1 s2 _ r1 r2 r6 h2
  obtain ⟨k1, k2⟩ := setHasBufferSize_fields s3
  rw [k1, k2]
  exact calcFinalCounts_spec rc s1 s3 _ hrc hC0 hC hP (by omega) h3

/-- What planning leaves for the final slice: for a well-sized call and a sound
remainder calculator, when `calcMaxSliceCounts` returns, the local
`totalCountForLastSlice` of `calcSliceCounts` is what the slices before the
final one leave of the call, a sliced call leaves at least one element, and
each kind hands the final slice what `calcFinalCounts_spec` says. -/
theorem planned_counts_add_up (cfg : GlobalConf) (rc : RemainderCalculator)
    (s s1 : CommonState) (hrc : rc.Sound) (hw : s.WellSized)
    (hplan : CommonState.calcMaxSliceCounts cfg rc s = .ok s1) :
    s1.m_collectiveOp = s.m_collectiveOp ∧ s1.m_count = s.m_count ∧
    ∃ t, s1.totalCountForLastSlice = .ok t ∧
      (s1.m_sliceIterations - 1) * s1.sliceElements + t = s1.requestedElements ∧
      (s1.m_isSlicing = true → 1 ≤ t) ∧
      ∀ s2, CommonState.calcSliceCounts rc s1 (s1.m_sliceIterations - 1) = .ok s2 →
        (match s1.m_collectiveOp with
          | eHCLReduceScatter | eHCLScatter =>
            s2.m_rankScaleUpCount = t / s1.m_dynamicComm.commSize ∧
              s2.sliceElements = t / s1.m_dynamicComm.commSize * s1.sliceMultiplier
          | eHCLAllReduce | eHCLReduce =>
            rc.getDiv t s1.m_dynamicComm.commSize = .ok s2.m_rankScaleUpCount ∧
              s2.sliceElements = s2.m_rankScaleUpCount * s1.sliceMultiplier
          | eHCLCollectiveLastValue => False
          | _ => s2.sliceElements = t) ∧
        ∀ ss ss1 : SliceState, ss.toCommonState = s2 →
          s1.m_collectiveOp ≠ eHCLAllReduce → s1.m_collectiveOp ≠ eHCLReduce →
          ss.calcBoxAndScaleOutCounts rc = .ok ss1 → ss1.sliceElements = s2.sliceElements := by
  obtain ⟨_, _, _, _, _, _, e1, e2, e3, _⟩ := calcMaxSliceCounts_spec cfg rc s s1 hrc hw hplan
  obtain ⟨r1, r2, r3, r4, r5, r6⟩ := calcMaxSliceCounts_residual cfg rc s s1 hrc hw hplan
  obtain ⟨hP0, hPC, _, _, hsm⟩ := hw
  have hC32 : s.m_dynamicComm.commSize < 2 ^ 32 := by nlinarith
  refine ⟨e1, e2, _, r6, ?_, fun hsl => ?_, fun s2 h2 => ⟨?_, fun ss ss1 hss hAR hR hbox => ?_⟩⟩
  · rw [Nat.mul_comm]
    omega
  · have := r5 hsl
    omega
  · exact planned_facts rc s1 s2 hrc (by rw [e3]; omega) (by rw [e3]; omega)
      (by rw [e3]; omega) r1 r2 r3 r6 (by omega) h2
  · have hop2 : s2.m_collectiveOp = s1.m_collectiveOp := by
      obtain ⟨s3, h3, rfl⟩ := calcSliceCounts_final rc s1 s2 _ r1 r2 r6 h2
      rw [setHasBufferSize_op, calcFinalCounts_op rc s1 s3 _ h3]
    rw [← hss] at hop2 ⊢
    exact calcBoxAndScaleOutCounts_sliceElements rc ss ss1 (by rw [hop2]; exact hAR)
      (by rw [hop2]; exact hR) hbox

/-- An AllGather of 2000 elements per rank on four ranks is planned as 10
slices of 200 elements, the final one included. -/
theorem planned_counts_add_up_witness :
    slicedAllGather.m_collectiveOp = eHCLAllGather ∧ slicedAllGather.m_count = 2000 ∧
    slicedAllGather.m_sliceIterations = 10 ∧ slicedAllGather.sliceElements = 200 ∧
    slicedAllGather.totalCountForLastSlice = .ok 200 ∧
    (∃ t, slicedAllGather.totalCountForLastSlice = .ok t ∧
      (slicedAllGather.m_sliceIterations - 1) * slicedAllGather.sliceElements + t =
        slicedAllGather.requestedElements) := by
  obtain ⟨h1, h2, t, h3, h4, _⟩ := planned_counts_add_up conf0 floorCalculator
    (plannable eHCLAllGather comm4 2000) slicedAllGather floorCalculator_sound
    ⟨by decide, by decide, by decide, by decide, by decide⟩ rfl
  exact ⟨h1, h2, rfl, rfl, rfl, t, h3, h4⟩

/-- Counterexample of C3: an AllReduce of 1024 elements of four bytes on two
ranks with a buffer of 256 elements is planned as 2 slices of 256 elements
per rank, which is not in [4, 8]; the final slice is left
1024 - 256 * 2 * 1 = 512 elements, 256 per rank, not 1024 - 256 * (2 - 1). -/
theorem allReduce_final_slice_not_per_rank :
    ((CommonState.planFinalSlice conf0 floorCalculator
        (callState eHCLAllReduce comm2 1024 0 8192) true).map fun s =>
          (s.m_count, s.m_isSlicing, s.m_sliceIterations, s.m_optimalBufferCount,
            s.m_rankScaleUpCount, s.m_boxCount)) = .ok (1024, true, 2, 256, 256, 512) ∧
      (256 : Nat) ≠ 1024 - 256 * (2 - 1) ∧ (512 : Nat) ≠ 1024 - 256 * (2 - 1) ∧
      ¬ (4 ≤ 2 ∧ 2 ≤ 8) := by
  refine ⟨rfl, by decide, by decide, by decide⟩

/-- C3 (amended): for an AllReduce call (well sized, sound remainder
calculator) that `calcMaxSliceCounts` plans as sliced, `calcSliceCounts`
leaves the final slice `count - optimalCount * (podSize * boxIterations) *
(sliceCount - 1)` elements, which is at least 1, and gives each rank `getDiv`
of it by the communicator size; the chosen slice count lies in
`[minSlices, minSlices + 4]` for the per-rank count `getDiv(count, commSize)`;
for count = 1024 and a buffer of 256 elements on a communicator of one rank it
lies in [4, 8]. -/
theorem allReduce_final_slice (cfg : GlobalConf) (rc : RemainderCalculator)
    (s s1 : CommonState) (hrc : rc.Sound) (hw : s.WellSized)
    (hop : s.m_collectiveOp = eHCLAllReduce)
    (hplan : CommonState.calcMaxSliceCounts cfg rc s = .ok s1)
    (hsl : s1.m_isSlicing = true) :
    s1.m_optimalBufferCount * (s.m_dynamicComm.podSize * s.m_boxIterations) *
        (s1.m_sliceIterations - 1) < s.m_count ∧
    s1.totalCountForLastSlice = .ok (s.m_count -
      s1.m_optimalBufferCount * (s.m_dynamicComm.podSize * s.m_boxIterations) *
        (s1.m_sliceIterations - 1)) ∧
    (∀ s2, CommonState.calcSliceCounts rc s1 (s1.m_sliceIterations - 1) = .ok s2 →
      rc.getDiv (s.m_count -
        s1.m_optimalBufferCount * (s.m_dynamicComm.podSize * s.m_boxIterations) *
          (s1.m_sliceIterations - 1)) s.m_dynamicComm.commSize = .ok s2.m_rankScaleUpCount) ∧
    (∃ T q, rc.getDiv s.m_count s.m_dynamicComm.commSize = .ok T ∧
      div_round_up T (s.m_dynamicComm.sliceSize / s.m_dataTypeSizeInBytes) = .ok q ∧
      minSlicesOf q ≤ s1.m_sliceIterations ∧ s1.m_sliceIterations ≤ minSlicesOf q + 4) ∧
    (s.m_count = 1024 → s.m_dynamicComm.sliceSize / s.m_dataTypeSizeInBytes = 256 →
      s.m_dynamicComm.commSize = 1 → rc.getDiv 1024 1 = .ok 1024 →
      4 ≤ s1.m_sliceIterations ∧ s1.m_sliceIterations ≤ 8) := by
  obtain ⟨O0, s0, T, R, hO0, hstride, e1, e2, e3, e4, hcase⟩ :=
    calcMaxSliceCounts_spec cfg rc s s1 hrc hw hplan
  obtain ⟨r1, r2, r3, r4, r5, r6⟩ := calcMaxSliceCounts_residual cfg rc s s1 hrc hw hplan
  obtain ⟨_, _, hsm⟩ : 0 < s.m_dynamicComm.podSize ∧
      s.m_dynamicComm.podSize ≤ s.m_dynamicComm.commSize ∧
      (s.m_count + 3) * (s.m_dynamicComm.commSize + 2) < 2 ^ 32 := ⟨hw.1, hw.2.1, hw.2.2.2.2⟩
  have hC32 : s.m_dynamicComm.commSize < 2 ^ 32 := by nlinarith
  rcases hcase with ⟨c1, _⟩ | ⟨_, _, _, ⟨q, hq, hlo, hhi⟩, c5, _⟩
  · rw [c1] at hsl; cases hsl
  have hreq : s1.requestedElements = s.m_count := by
    simp [CommonState.requestedElements, e1, hop, e2]
  have hmul : s.sliceMultiplier = s.m_dynamicComm.podSize * s.m_boxIterations := by
    simp [CommonState.sliceMultiplier, hop]
  rw [hmul] at c5
  rw [c5, hreq] at r5 r6
  -- the per-rank count and the buffer count of the search
  have hsize : s.m_dataTypeSizeInBytes ≠ 0 := by
    intro h0
    simp [div, h0] at hO0
  have hO0v : O0 = s.m_dynamicComm.sliceSize / s.m_dataTypeSizeInBytes := by
    simp only [div, hsize, if_false, Except.ok.injEq] at hO0
    exact hO0.symm
  have hT : rc.getDiv s.m_count s.m_dynamicComm.commSize = .ok T ∧ s0.m_optimalBufferCount = O0 := by
    simp only [CommonState.calcStrideCounts, hop, u32_of_lt hC32] at hstride
    split at hstride
    · cases hstride
    · rename_i d hd
      simp only [Except.ok.injEq, Prod.mk.injEq] at hstride
      obtain ⟨rfl, rfl, _⟩ := hstride
      exact ⟨hd, rfl⟩
  rw [hT.2, hO0v] at hq
  refine ⟨r5 hsl, r6, fun s2 h2 => ?_, ⟨T, q, hT.1, hq, hlo, hhi⟩, fun h1 h2 h3 h4 => ?_⟩
  · have h5 := planned_facts rc s1 s2 hrc (by rw [e3]; omega) (by rw [e3]; omega)
      (by rw [e3]; omega) r1 r2 r3 r6 (by rw [hreq]; omega) h2
    rw [e1, hop] at h5
    simp only [e3] at h5
    exact h5.1
  · rw [h1, h3, h4] at hT
    have hTv : T = 1024 := by
      have := hT.1
      simp only [Except.ok.injEq] at this
      exact this.symm
    rw [hTv, h2] at hq
    have hqv : q = 4 := by
      simp [div_round_up] at hq
      omega
    rw [hqv] at hlo hhi
    have : minSlicesOf 4 = 4 := by decide
    omega

/-- Witness of C3 (amended): the AllReduce of 1024 elements of four bytes on
one rank with a buffer of 256 elements: 4 slices, the final one of 256
elements. -/
theorem allReduce_final_slice_witness :
    slicedAllReduce.totalCountForLastSlice = .ok 256 ∧
      4 ≤ slicedAllReduce.m_sliceIterations ∧ slicedAllReduce.m_sliceIterations ≤ 8 :=
  have h := allReduce_final_slice conf0 floorCalculator (plannable eHCLAllReduce comm1 1024)
    slicedAllReduce floorCalculator_sound
    ⟨by decide, by decide, by decide, by decide, by decide⟩ rfl rfl rfl
  ⟨h.2.1, h.2.2.2.2 rfl rfl rfl rfl⟩

/-! ## Theorems: planning the hierarchy and the broadcast kind -/

/-- C12: `checkHierarchicalOp` sets the box-iteration count to 1 (and the box
stride to 0) when the communicator is single-box or the operation is
point-to-point (`eHCLNoCollective`); otherwise, the box size not being zero, it
sets it to the communicator size divided by the box size (as an `unsigned`,
which is the quotient itself for a 32-bit communicator size). For a
communicator size of 8 and a box size of 4 the communicator is multi-box and
the count is 2. -/
theorem checkHierarchicalOp_boxIterations (s : CommonState) :
    ((s.m_isMultiPod = false ∨ s.m_collectiveOp = eHCLNoCollective) →
        s.checkHierarchicalOp = .ok { s with m_boxIterations := 1, m_boxStrideCount := 0 }) ∧
      (s.m_isMultiPod = true → s.m_collectiveOp ≠ eHCLNoCollective →
        s.m_dynamicComm.podSize ≠ 0 →
        s.checkHierarchicalOp = .ok { s with
          m_boxIterations := u32 (s.m_dynamicComm.commSize / s.m_dynamicComm.podSize) } ∧
        (s.m_dynamicComm.commSize < 2 ^ 32 →
          u32 (s.m_dynamicComm.commSize / s.m_dynamicComm.podSize) =
            s.m_dynamicComm.commSize / s.m_dynamicComm.podSize)) ∧
      (s.m_dynamicComm.commSize = 8 → s.m_dynamicComm.podSize = 4 →
        s.m_isMultiPod = isCommunicatorMultiPod 8 4 → s.m_collectiveOp ≠ eHCLNoCollective →
        s.m_isMultiPod = true ∧ s.checkHierarchicalOp = .ok { s with m_boxIterations := 2 }) := by
  refine ⟨?_, ?_, ?_⟩
  · rintro (h | h)
    · simp [CommonState.checkHierarchicalOp, h]
    · cases hm : s.m_isMultiPod <;> simp [CommonState.checkHierarchicalOp, h, hm]
  · intro hm hop hpod
    refine ⟨by simp [CommonState.checkHierarchicalOp, hm, hop, hpod], fun hc => ?_⟩
    exact u32_of_lt (lt_of_le_of_lt (Nat.div_le_self _ _) hc)
  · intro hc hp hm hop
    have hm1 : s.m_isMultiPod = true := by rw [hm]; decide
    refine ⟨hm1, ?_⟩
    simp [CommonState.checkHierarchicalOp, hm1, hop, hc, hp, u32]

/-- C13: for a Broadcast call whose `count * elementSize` is below
`GCFG_HCL_COMPLEX_BCAST_MIN_SIZE`, `initCollectiveOp` changes the operation
kind to SimpleBroadcast and nothing else, whatever the box size, the multi-box
flag, the single-peer permission of the caller and the single-peer setting. -/
theorem initCollectiveOp_small_broadcast (cfg : GlobalConf) (s : CommonState)
    (singlePeerBroadcastAllowed : Bool)
    (hop : s.m_collectiveOp = eHCLBroadcast)
    (hsmall : s.m_count * s.m_dataTypeSizeInBytes < cfg.HCL_COMPLEX_BCAST_MIN_SIZE) :
    s.initCollectiveOp cfg singlePeerBroadcastAllowed =
      { s with m_collectiveOp := eHCLSimpleBroadcast } := by
  have hle : u64 (s.m_count * s.m_dataTypeSizeInBytes) ≤ cfg.HCL_COMPLEX_BCAST_MIN_SIZE :=
    le_trans (Nat.mod_le _ _) (Nat.le_of_lt hsmall)
  simp [CommonState.initCollectiveOp, hop, hle]

/-- Witness of C13: a Broadcast of 32 elements of four bytes (128 bytes, below
the threshold of 256) on the two-box communicator, single-peer broadcast being
allowed. -/
theorem initCollectiveOp_small_broadcast_witness :
    (callState eHCLBroadcast comm8 32 0 65536).initCollectiveOp conf0 true =
      { callState eHCLBroadcast comm8 32 0 65536 with m_collectiveOp := eHCLSimpleBroadcast } :=
  initCollectiveOp_small_broadcast conf0 (callState eHCLBroadcast comm8 32 0 65536) true rfl
    (by decide)

/-! ## Theorems: the scale-out requirement -/

/-- C14: for the current sub-operation ReduceScatter or All-to-All and a hop to
a box other than the rank's own, `isScaleoutRequired` returns true, for a send
and for a receive, whatever the collective, the root and the rank are. -/
theorem isScaleoutRequired_symmetric_ops (s : CommonState) (isSend : Bool)
    (sendBoxNumInfo : BoxNumInfo)
    (hcur : s.m_currentOp = eHCLReduceScatter ∨ s.m_currentOp = eHCLAll2All)
    (hbox : sendBoxNumInfo.m_boxNum ≠ s.m_dynamicComm.myPod) :
    s.isScaleoutRequired isSend sendBoxNumInfo = .ok true := by
  rcases hcur with h | h <;> simp [CommonState.isScaleoutRequired, h, hbox]

/-- Witness of C14: a receive of a ReduceScatter step of an AllReduce from
box 1 by a rank of box 0. -/
theorem isScaleoutRequired_symmetric_ops_witness :
    (hopState eHCLAllReduce eHCLReduceScatter 0 0 false false).isScaleoutRequired false ⟨1⟩ =
      .ok true :=
  isScaleoutRequired_symmetric_ops (hopState eHCLAllReduce eHCLReduceScatter 0 0 false false)
    false ⟨1⟩ (Or.inl rfl) (by decide)

/-- Counterexample of C15: the collective is SimpleBroadcast, the current
sub-operation AllGather and the hop goes from box 0 to box 1; the code answers
true in both directions, where the claim has false. -/
theorem isScaleoutRequired_allGather_simpleBroadcast_crosses :
    (hopState eHCLSimpleBroadcast eHCLAllGather 0 0 false false).isScaleoutRequired true ⟨1⟩ =
        .ok true ∧
      (hopState eHCLSimpleBroadcast eHCLAllGather 0 0 false false).isScaleoutRequired false ⟨1⟩ =
        .ok true := by
  constructor <;> rfl

/-- C15 (amended): for the current sub-operation AllGather and a hop to a box
other than the rank's own, `isScaleoutRequired` returns, in both directions,
false when the collective is Broadcast or SinglePeerBroadcast and true for
every other collective, SimpleBroadcast included. -/
theorem isScaleoutRequired_allGather (s : CommonState) (isSend : Bool)
    (sendBoxNumInfo : BoxNumInfo)
    (hcur : s.m_currentOp = eHCLAllGather)
    (hbox : sendBoxNumInfo.m_boxNum ≠ s.m_dynamicComm.myPod) :
    ((s.m_collectiveOp = eHCLBroadcast ∨ s.m_collectiveOp = eHCLSinglePeerBroadcast) →
        s.isScaleoutRequired isSend sendBoxNumInfo = .ok false) ∧
      (s.m_collectiveOp ≠ eHCLBroadcast → s.m_collectiveOp ≠ eHCLSinglePeerBroadcast →
        s.isScaleoutRequired isSend sendBoxNumInfo = .ok true) := by
  constructor
  · rintro (h | h) <;> simp [CommonState.isScaleoutRequired, hcur, hbox, h]
  · intro h1 h2
    simp [CommonState.isScaleoutRequired, hcur, hbox, h1, h2]

/-- Witness of C15 (amended): an AllGather step of a Broadcast, sending from
box 0 to box 1. -/
theorem isScaleoutRequired_allGather_witness :
    ((eHCLBroadcast = eHCLBroadcast ∨ eHCLBroadcast = eHCLSinglePeerBroadcast) →
        (hopState eHCLBroadcast eHCLAllGather 0 0 false false).isScaleoutRequired true ⟨1⟩ =
          .ok false) ∧
      (eHCLBroadcast ≠ eHCLBroadcast → eHCLBroadcast ≠ eHCLSinglePeerBroadcast →
        (hopState eHCLBroadcast eHCLAllGather 0 0 false false).isScaleoutRequired true ⟨1⟩ =
          .ok true) :=
  isScaleoutRequired_allGather (hopState eHCLBroadcast eHCLAllGather 0 0 false false) true ⟨1⟩
    rfl (by decide)

/-- C16: for the current sub-operation Scatter `isScaleoutRequired` always
returns a value; it returns true for a send only if the hop's box is the box
next after the rank's own box in ring order over the box iterations and is not
the root's box, and for a receive only if the hop's box is the box previous to
the rank's own box and the rank's own box is not the root's box. Hence no
Scatter leg sends into the root's box or is received inside it. -/
theorem isScaleoutRequired_scatter (s : CommonState) (sendBoxNumInfo : BoxNumInfo)
    (hcur : s.m_currentOp = eHCLScatter) :
    (∀ isSend, ∃ b, s.isScaleoutRequired isSend sendBoxNumInfo = .ok b) ∧
      (s.isScaleoutRequired true sendBoxNumInfo = .ok true →
        sendBoxNumInfo.m_boxNum = getNextBox s.m_dynamicComm.myPod s.m_boxIterations ∧
          sendBoxNumInfo.m_boxNum ≠ s.m_rootBox) ∧
      (s.isScaleoutRequired false sendBoxNumInfo = .ok true →
        sendBoxNumInfo.m_boxNum = getPrevBox s.m_dynamicComm.myPod s.m_boxIterations ∧
          s.m_dynamicComm.myPod ≠ s.m_rootBox) := by
  refine ⟨?_, ?_, ?_⟩
  · intro isSend
    simp only [CommonState.isScaleoutRequired, hcur]
    cases isSend <;> repeat' split
    all_goals exact ⟨_, rfl⟩
  · simp only [CommonState.isScaleoutRequired, hcur, CommonState.rootBox]
    split
    · intro h; cases h
    · simp only [if_true]
      split
      · rename_i h; intro _; exact ⟨h.1, h.2.1⟩
      · intro h; cases h
  · simp only [CommonState.isScaleoutRequired, hcur, CommonState.rootBox]
    split
    · intro h; cases h
    · simp only [Bool.false_eq_true, if_false]
      split
      · rename_i h; intro _; exact ⟨h.1, h.2.1⟩
      · intro h; cases h

/-- Witness of C16: a Scatter step of a Broadcast rooted in box 1, on two
boxes; a rank of box 1 sends to box 0, the box next after its own. -/
theorem isScaleoutRequired_scatter_witness :
    (∀ isSend, ∃ b, scatterInRootBox.isScaleoutRequired isSend ⟨0⟩ = .ok b) ∧
      (scatterInRootBox.isScaleoutRequired true ⟨0⟩ = .ok true →
        (0 : Nat) = getNextBox 1 2 ∧ (0 : Nat) ≠ 1) ∧
      (scatterInRootBox.isScaleoutRequired false ⟨0⟩ = .ok true →
        (0 : Nat) = getPrevBox 1 2 ∧ (1 : Nat) ≠ 1) :=
  isScaleoutRequired_scatter scatterInRootBox ⟨0⟩ rfl

/-- C17: for the current sub-operations Gather and SimpleBroadcast, whenever
`isScaleoutRequired` returns true: a Gather send goes to the root's box, a
Gather receive is by a rank inside the root's box, a SimpleBroadcast send is
by the root, and a SimpleBroadcast receive comes from the root's box and is by
a peer of the root. So, the root being inside the root's box, the root's box
is one end of the hop. -/
theorem isScaleoutRequired_gather_simpleBroadcast (s : CommonState) (isSend : Bool)
    (sendBoxNumInfo : BoxNumInfo)
    (hcur : s.m_currentOp = eHCLGather ∨ s.m_currentOp = eHCLSimpleBroadcast)
    (htrue : s.isScaleoutRequired isSend sendBoxNumInfo = .ok true) :
    (s.m_currentOp = eHCLGather → isSend = true → sendBoxNumInfo.m_boxNum = s.m_rootBox) ∧
      (s.m_currentOp = eHCLGather → isSend = false → s.m_dynamicComm.myPod = s.m_rootBox) ∧
      (s.m_currentOp = eHCLSimpleBroadcast → isSend = true → s.m_isRoot = true) ∧
      (s.m_currentOp = eHCLSimpleBroadcast → isSend = false →
        sendBoxNumInfo.m_boxNum = s.m_rootBox ∧ s.m_isRootPeer = true) ∧
      ((s.m_isRoot = true → s.m_dynamicComm.myPod = s.m_rootBox) →
        sendBoxNumInfo.m_boxNum = s.m_rootBox ∨ s.m_dynamicComm.myPod = s.m_rootBox) := by
  rcases hcur with h | h
  · simp only [CommonState.isScaleoutRequired, h, CommonState.rootBox] at htrue
    split at htrue
    · cases htrue
    · split at htrue
      · rename_i h1
        refine ⟨fun _ _ => h1.2, fun _ hs => ?_, fun hc => ?_, fun hc => ?_, fun _ => Or.inl h1.2⟩
        · rw [h1.1] at hs; cases hs
        · rw [h] at hc; cases hc
        · rw [h] at hc; cases hc
      · split at htrue
        · rename_i h1
          refine ⟨fun _ hs => ?_, fun _ _ => h1.2, fun hc => ?_, fun hc => ?_,
            fun _ => Or.inr h1.2⟩
          · rw [h1.1] at hs; cases hs
          · rw [h] at hc; cases hc
          · rw [h] at hc; cases hc
        · cases htrue
  · simp only [CommonState.isScaleoutRequired, h, CommonState.rootBox,
      CommonState.isRootPeer] at htrue
    split at htrue
    · cases htrue
    · split at htrue
      · rename_i h1
        refine ⟨fun hc => ?_, fun hc => ?_, fun _ _ => h1.2, fun _ hs => ?_,
          fun hr => Or.inr (hr h1.2)⟩
        · rw [h] at hc; cases hc
        · rw [h] at hc; cases hc
        · rw [h1.1] at hs; cases hs
      · split at htrue
        · rename_i h1
          refine ⟨fun hc => ?_, fun hc => ?_, fun _ hs => ?_, fun _ _ => ⟨h1.2.2, h1.2.1⟩,
            fun _ => Or.inl h1.2.2⟩
          · rw [h] at hc; cases hc
          · rw [h] at hc; cases hc
          · rw [h1.1] at hs; cases hs
        · cases htrue

/-- Witness of C17: a Gather step rooted at rank 4 of box 1; this rank, in
box 0, sends to box 1. -/
theorem isScaleoutRequired_gather_simpleBroadcast_witness :
    (eHCLGather = eHCLGather → true = true → (1 : Nat) = 1) ∧
      (eHCLGather = eHCLGather → true = false → (0 : Nat) = 1) ∧
      (eHCLGather = eHCLSimpleBroadcast → true = true → false = true) ∧
      (eHCLGather = eHCLSimpleBroadcast → true = false → (1 : Nat) = 1 ∧ false = true) ∧
      ((false = true → (0 : Nat) = 1) → (1 : Nat) = 1 ∨ (0 : Nat) = 1) :=
  isScaleoutRequired_gather_simpleBroadcast (hopState eHCLGather eHCLGather 4 1 false false)
    true ⟨1⟩ (Or.inl rfl) rfl

/-- C18: when the collective is SinglePeerBroadcast and the current
sub-operation is Scatter or AllGather, the flags of the rank being those the
constructor derives (`m_isRoot` from `m_root == myRank`, `m_isRootPeer` from
`isRootPeerExclusive(myRank)`), `isScaleoutRequired` always returns a value; it
returns true for a send only if the rank is the root or a peer of the root,
for a receive only if the rank is a peer of the root other than the root, and
it returns false in both directions for a rank that is neither. -/
theorem isScaleoutRequired_singlePeerBroadcast (arePeers : Nat → Nat → Bool)
    (s : CommonState) (sendBoxNumInfo : BoxNumInfo)
    (hcoll : s.m_collectiveOp = eHCLSinglePeerBroadcast)
    (hcur : s.m_currentOp = eHCLScatter ∨ s.m_currentOp = eHCLAllGather)
    (hroot : s.m_isRoot = decide (s.m_root = s.m_dynamicComm.myRank))
    (hpeer : s.m_isRootPeer = s.isRootPeerExclusive arePeers s.m_dynamicComm.myRank) :
    (∀ isSend, ∃ b, s.isScaleoutRequired isSend sendBoxNumInfo = .ok b) ∧
      (s.isScaleoutRequired true sendBoxNumInfo = .ok true →
        s.m_dynamicComm.myRank = s.m_root ∨ arePeers s.m_dynamicComm.myRank s.m_root = true) ∧
      (s.isScaleoutRequired false sendBoxNumInfo = .ok true →
        arePeers s.m_dynamicComm.myRank s.m_root = true ∧ s.m_dynamicComm.myRank ≠ s.m_root) ∧
      (s.m_dynamicComm.myRank ≠ s.m_root → arePeers s.m_dynamicComm.myRank s.m_root = false →
        ∀ isSend, s.isScaleoutRequired isSend sendBoxNumInfo = .ok false) := by
  have hpeer1 : s.m_isRootPeer = true ↔
      arePeers s.m_dynamicComm.myRank s.m_root = true ∧ s.m_dynamicComm.myRank ≠ s.m_root := by
    rw [hpeer]
    simp [CommonState.isRootPeerExclusive, CommonState.isRootPeerInclusive]
  have hroot1 : s.m_isRoot = true ↔ s.m_dynamicComm.myRank = s.m_root := by
    rw [hroot]
    simp [eq_comm]
  rcases hcur with h | h
  · refine ⟨?_, ?_, ?_, ?_⟩
    · intro isSend
      simp only [CommonState.isScaleoutRequired, h]
      cases isSend <;> repeat' split
      all_goals exact ⟨_, rfl⟩
    · simp only [CommonState.isScaleoutRequired, h, hcoll, CommonState.isRootOrRootPeer]
      split
      · intro hh; cases hh
      · simp only [if_true]
        split
        · rename_i h1
          intro _
          rcases h1.2.2 with h2 | h2
          · exact absurd rfl h2
          · rw [Bool.or_eq_true] at h2
            rcases h2 with h3 | h3
            · exact Or.inl (hroot1.1 h3)
            · exact Or.inr (hpeer1.1 h3).1
        · intro hh; cases hh
    · simp only [CommonState.isScaleoutRequired, h, hcoll, CommonState.isRootPeer]
      split
      · intro hh; cases hh
      · simp only [Bool.false_eq_true, if_false]
        split
        · rename_i h1
          intro _
          rcases h1.2.2 with h2 | h2
          · exact absurd rfl h2
          · exact hpeer1.1 h2
        · intro hh; cases hh
    · intro hne hnp isSend
      have hr : s.m_isRoot = false := by
        cases hh : s.m_isRoot
        · rfl
        · exact absurd (hroot1.1 hh) hne
      have hp : s.m_isRootPeer = false := by
        cases hh : s.m_isRootPeer
        · rfl
        · rw [(hpeer1.1 hh).1] at hnp; cases hnp
      cases isSend <;>
        simp [CommonState.isScaleoutRequired, h, hcoll, CommonState.isRootOrRootPeer,
          CommonState.isRootPeer, hr, hp]
  · have hall : ∀ isSend, s.isScaleoutRequired isSend sendBoxNumInfo = .ok false := by
      intro isSend
      simp only [CommonState.isScaleoutRequired, h, hcoll]
      split
      · rfl
      · simp
    refine ⟨fun isSend => ⟨false, hall isSend⟩, ?_, ?_, fun _ _ => hall⟩
    · rw [hall true]; intro hh; cases hh
    · rw [hall false]; intro hh; cases hh

/-- Witness of C18: rank 4 of box 1, the peer of root 0, receives the Scatter
step of a SinglePeerBroadcast from box 0. -/
theorem isScaleoutRequired_singlePeerBroadcast_witness :
    singlePeerReceiver.isScaleoutRequired false ⟨0⟩ = .ok true ∧
      ((∀ isSend, ∃ b, singlePeerReceiver.isScaleoutRequired isSend ⟨0⟩ = .ok b) ∧
        (singlePeerReceiver.isScaleoutRequired true ⟨0⟩ = .ok true →
          (4 : Nat) = 0 ∨ arePeers8 4 0 = true) ∧
        (singlePeerReceiver.isScaleoutRequired false ⟨0⟩ = .ok true →
          arePeers8 4 0 = true ∧ (4 : Nat) ≠ 0) ∧
        ((4 : Nat) ≠ 0 → arePeers8 4 0 = false →
          ∀ isSend, singlePeerReceiver.isScaleoutRequired isSend ⟨0⟩ = .ok false)) :=
  ⟨rfl, isScaleoutRequired_singlePeerBroadcast arePeers8 singlePeerReceiver ⟨0⟩ rfl
    (Or.inl rfl) rfl rfl⟩

/-- Counterexample of C19: the current sub-operation is AllReduce, which has no
entry in the policy, and the hop's box is the rank's own box 0; the code
returns false instead of aborting. -/
theorem isScaleoutRequired_own_box_returns :
    (hopState eHCLAllReduce eHCLAllReduce 0 0 false false).isScaleoutRequired true ⟨0⟩ =
        .ok false ∧
      (hopState eHCLAllReduce eHCLAllReduce 0 0 false false).isScaleoutRequired false ⟨0⟩ =
        .ok false := by
  constructor <;> rfl

/-- C19 (amended): for a current sub-operation without an entry in the policy
(SinglePeerBroadcast, Broadcast, AllReduce, Reduce, point-to-point/none, and
the end marker of the enumeration) `isScaleoutRequired` aborts with the failed
`VERIFY` in both directions when the hop's box is not the rank's own box; when
the hop's box is the rank's own box it returns false without looking at the
sub-operation. -/
theorem isScaleoutRequired_invalid_current_op (s : CommonState) (isSend : Bool)
    (sendBoxNumInfo : BoxNumInfo)
    (hcur : s.m_currentOp = eHCLSinglePeerBroadcast ∨ s.m_currentOp = eHCLBroadcast ∨
      s.m_currentOp = eHCLAllReduce ∨ s.m_currentOp = eHCLReduce ∨
      s.m_currentOp = eHCLNoCollective ∨ s.m_currentOp = eHCLCollectiveLastValue) :
    (sendBoxNumInfo.m_boxNum ≠ s.m_dynamicComm.myPod →
        s.isScaleoutRequired isSend sendBoxNumInfo = .error (.verify .invalidCurrentOp)) ∧
      (sendBoxNumInfo.m_boxNum = s.m_dynamicComm.myPod →
        s.isScaleoutRequired isSend sendBoxNumInfo = .ok false) := by
  constructor
  · intro hbox
    rcases hcur with h | h | h | h | h | h <;>
      simp [CommonState.isScaleoutRequired, h, hbox]
  · intro hbox
    simp [CommonState.isScaleoutRequired, hbox]

/-- Witness of C19 (amended): the current sub-operation AllReduce and a send to
box 1 from box 0. -/
theorem isScaleoutRequired_invalid_current_op_witness :
    ((1 : Nat) ≠ 0 →
        (hopState eHCLAllReduce eHCLAllReduce 0 0 false false).isScaleoutRequired true ⟨1⟩ =
          .error (.verify .invalidCurrentOp)) ∧
      ((1 : Nat) = 0 →
        (hopState eHCLAllReduce eHCLAllReduce 0 0 false false).isScaleoutRequired true ⟨1⟩ =
          .ok false) :=
  isScaleoutRequired_invalid_current_op (hopState eHCLAllReduce eHCLAllReduce 0 0 false false)
    true ⟨1⟩ (Or.inr (Or.inr (Or.inl rfl)))

/-! ## Theorems: the connection set of a slice -/

/-- C20: with at least one connection set, `calcSliceQpSet` returns for every
slice index and changes only the connection-set index, which it sets to the
64-bit sum `collectiveCtr + sliceIter` modulo `maxScaleOutQpSetsNum`; that is
`(collectiveCtr + sliceIter) mod maxScaleOutQpSetsNum` when the sum does not
wrap. The index is below the number of connection sets, `getQpSet` returns it
unchanged when there are at most 256 sets, and any other rank with the same
call counter and number of sets computes the same index for the slice. -/
theorem calcSliceQpSet_rotation (s : CommonState) (sliceIter : Nat)
    (hmax : 0 < s.m_dynamicComm.maxScaleOutQpSetsNum) :
    ∃ s1, s.calcSliceQpSet sliceIter = .ok s1 ∧
      s1 = { s with
        m_qpSet :=
          u64 (s.m_dynamicComm.collectiveCtr + sliceIter) %
            s.m_dynamicComm.maxScaleOutQpSetsNum } ∧
      (s.m_dynamicComm.collectiveCtr + sliceIter < 2 ^ 64 →
        s1.m_qpSet =
          (s.m_dynamicComm.collectiveCtr + sliceIter) % s.m_dynamicComm.maxScaleOutQpSetsNum) ∧
      s1.m_qpSet < s.m_dynamicComm.maxScaleOutQpSetsNum ∧
      (s.m_dynamicComm.maxScaleOutQpSetsNum ≤ 256 → s1.getQpSet = s1.m_qpSet) ∧
      ∀ t : CommonState,
        t.m_dynamicComm.collectiveCtr = s.m_dynamicComm.collectiveCtr →
        t.m_dynamicComm.maxScaleOutQpSetsNum = s.m_dynamicComm.maxScaleOutQpSetsNum →
        ∃ t1, t.calcSliceQpSet sliceIter = .ok t1 ∧ t1.m_qpSet = s1.m_qpSet := by
  have hne : s.m_dynamicComm.maxScaleOutQpSetsNum ≠ 0 := Nat.pos_iff_ne_zero.1 hmax
  have hlt : u64 (s.m_dynamicComm.collectiveCtr + sliceIter) %
      s.m_dynamicComm.maxScaleOutQpSetsNum < s.m_dynamicComm.maxScaleOutQpSetsNum :=
    Nat.mod_lt _ hmax
  refine ⟨_, by simp [CommonState.calcSliceQpSet, hne], rfl, ?_, hlt, ?_, ?_⟩
  · intro h
    show u64 _ % _ = _
    rw [u64_of_lt h]
  · intro h
    show (u64 _ % _) % 2 ^ 8 = _
    exact Nat.mod_eq_of_lt (by omega)
  · intro t hc hm
    refine ⟨{ t with m_qpSet := u64 (t.m_dynamicComm.collectiveCtr + sliceIter) %
      t.m_dynamicComm.maxScaleOutQpSetsNum }, ?_, ?_⟩
    · have : t.m_dynamicComm.maxScaleOutQpSetsNum ≠ 0 := by rw [hm]; exact hne
      simp [CommonState.calcSliceQpSet, this]
    · show u64 _ % _ = u64 _ % _
      rw [hc, hm]

/-- Witness of C20: the call counter at 5, four connection sets and slice 2:
the slice uses connection set `(5 + 2) mod 4 = 3`. -/
theorem calcSliceQpSet_rotation_witness :
    ∃ s1, (hopState eHCLAllGather eHCLAllGather 0 0 false false).calcSliceQpSet 2 = .ok s1 ∧
      s1 = { hopState eHCLAllGather eHCLAllGather 0 0 false false with
        m_qpSet := u64 (5 + 2) % 4 } ∧
      (5 + 2 < 2 ^ 64 → s1.m_qpSet = (5 + 2) % 4) ∧
      s1.m_qpSet < 4 ∧
      (4 ≤ 256 → s1.getQpSet = s1.m_qpSet) ∧
      ∀ t : CommonState,
        t.m_dynamicComm.collectiveCtr = 5 →
        t.m_dynamicComm.maxScaleOutQpSetsNum = 4 →
        ∃ t1, t.calcSliceQpSet 2 = .ok t1 ∧ t1.m_qpSet = s1.m_qpSet :=
  calcSliceQpSet_rotation (hopState eHCLAllGather eHCLAllGather 0 0 false false) 2 (by decide)

/-! ## Theorems: closing the connections of a communicator -/

theorem set_of_getElem? {α : Type} (xs : List α) (i : Nat) (v : α) (h : xs[i]? = some v) :
    xs.set i v = xs := by
  apply List.ext_getElem?
  intro j
  rw [List.getElem?_set]
  split
  · rename_i hij
    subst hij
    have hlt : i < xs.length := (List.getElem?_eq_some.1 h).1
    rw [if_pos hlt, h]
  · rfl

theorem forEach_fixed {α σ : Type} (body : α → σ → Outcome σ) (xs : List α) (s : σ)
    (h : ∀ x ∈ xs, body x s = ⟨s, none⟩) : forEach body xs s = ⟨s, none⟩ := by
  induction xs with
  | nil => rfl
  | cons x xs ih =>
    have hx := h x (List.mem_cons_self _ _)
    simp only [forEach, hx]
    exact ih fun y hy => h y (List.mem_cons_of_mem _ hy)

theorem forEach_cons_ok {α σ : Type} (body : α → σ → Outcome σ) (x : α) (xs : List α) (s : σ)
    (h : (forEach body (x :: xs) s).failure = none) :
    (body x s).failure = none ∧ forEach body (x :: xs) s = forEach body xs (body x s).state := by
  rcases hb : body x s with ⟨s1, _ | e⟩
  · simp only [forEach, hb, and_self]
  · simp [forEach, hb] at h

theorem forEach_preserves {α σ : Type} (body : α → σ → Outcome σ) (P : σ → Prop)
    (hP : ∀ x s, P s → (body x s).failure = none → P (body x s).state) :
    ∀ (xs : List α) (s : σ), P s → (forEach body xs s).failure = none →
      P (forEach body xs s).state := by
  intro xs
  induction xs with
  | nil => intro s hs _; exact hs
  | cons x xs ih =>
    intro s hs hok
    obtain ⟨h1, h2⟩ := forEach_cons_ok body x xs s hok
    rw [h2] at hok ⊢
    exact ih _ (hP x s hs h1) hok

theorem forEach_establishes {α σ : Type} (body : α → σ → Outcome σ) (Q : α → σ → Prop)
    (hset : ∀ x s, (body x s).failure = none → Q x (body x s).state)
    (hkeep : ∀ x y s, Q x s → (body y s).failure = none → Q x (body y s).state) :
    ∀ (xs : List α) (s : σ), (forEach body xs s).failure = none →
      ∀ x ∈ xs, Q x (forEach body xs s).state := by
  intro xs
  induction xs with
  | nil => intro s _ x hx; cases hx
  | cons y ys ih =>
    intro s hok x hx
    obtain ⟨h1, h2⟩ := forEach_cons_ok body y ys s hok
    rw [h2] at hok ⊢
    rcases List.mem_cons.1 hx with rfl | hx
    · exact forEach_preserves body (Q x) (fun z t ht hz => hkeep x z t ht hz) ys _
        (hset x s h1) hok
    · exact ih _ hok x hx

theorem getScaleUp_eq (t : List (List Nat)) (comm qpi : Nat) :
    getScaleUp t comm qpi =
      match entryScaleUp t comm qpi with
      | some v => .ok v
      | none => .error .outOfRange :=
  getQPn_scaleUp_eq ⟨0, t⟩ comm qpi

theorem setScaleUp_same {t : List (List Nat)} {comm qpi v : Nat}
    (h : entryScaleUp t comm qpi = some v) : setScaleUp t comm qpi v = .ok t := by
  unfold entryScaleUp at h
  cases h1 : t[comm]? with
  | none => simp [h1] at h
  | some row =>
    simp only [h1, Option.some_bind] at h
    have hlt : qpi < row.length := (List.getElem?_eq_some.1 h).1
    simp only [setScaleUp, at?, h1, hlt, if_true]
    rw [set_of_getElem? row qpi v h, set_of_getElem? t comm row h1]

theorem closeScaleUpNic_table (d : Gaudi3Device) (p : Gaudi3Ports) (comm qpi nic : Nat)
    (st : Closing (List (List Nat))) :
    (closeScaleUpNic d p comm qpi nic st).state.table = st.table := by
  unfold closeScaleUpNic
  split
  · rfl
  · split
    · rfl
    · split <;> rfl

theorem closeScaleUpNic_fixed (d : Gaudi3Device) (p : Gaudi3Ports) (comm qpi nic : Nat)
    (st : Closing (List (List Nat))) (hzero : p.isInvalidQPn 0 = true)
    (h : entryScaleUp st.table comm qpi = some 0) :
    closeScaleUpNic d p comm qpi nic st = ⟨st, none⟩ := by
  unfold closeScaleUpNic
  split
  · rfl
  · rw [getScaleUp_eq, h]
    simp only [hzero, if_true]

theorem closeScaleUpQpi_fixed (d : Gaudi3Device) (p : Gaudi3Ports) (comm rank qpi : Nat)
    (st : Closing (List (List Nat))) (hzero : p.isInvalidQPn 0 = true)
    (h : entryScaleUp st.table comm qpi = some 0) :
    closeScaleUpQpi d p comm rank qpi st = ⟨st, none⟩ := by
  unfold closeScaleUpQpi
  rw [forEach_fixed _ _ _ fun nic _ => closeScaleUpNic_fixed d p comm qpi nic st hzero h]
  simp only [setScaleUp_same h]

theorem closeScaleUpQpi_ok (d : Gaudi3Device) (p : Gaudi3Ports) (comm rank qpi : Nat)
    (st : Closing (List (List Nat)))
    (hok : (closeScaleUpQpi d p comm rank qpi st).failure = none) :
    entryScaleUp (closeScaleUpQpi d p comm rank qpi st).state.table comm qpi = some 0 ∧
      ∀ c j, entryScaleUp st.table c j = some 0 →
        entryScaleUp (closeScaleUpQpi d p comm rank qpi st).state.table c j = some 0 := by
  unfold closeScaleUpQpi at hok ⊢
  rcases hn : forEach (closeScaleUpNic d p comm qpi) (p.getActiveNics rank comm) st with
    ⟨st1, _ | e⟩
  · have ht : st1.table = st.table := by
      have := forEach_preserves (closeScaleUpNic d p comm qpi) (fun s => s.table = st.table)
        (fun nic s hs _ => (closeScaleUpNic_table d p comm qpi nic s).trans hs)
        (p.getActiveNics rank comm) st rfl (by rw [hn])
      rw [hn] at this
      exact this
    rw [hn] at hok
    simp only [] at hok ⊢
    cases hs : setScaleUp st1.table comm qpi 0 with
    | error e => rw [hs] at hok; cases hok
    | ok t1 =>
      simp only []
      obtain ⟨h1, h2⟩ := setScaleUp_ok hs
      refine ⟨h1, fun c j hcj => ?_⟩
      by_cases hx : c = comm ∧ j = qpi
      · rw [hx.1, hx.2]; exact h1
      · rw [h2 c j hx, ht]; exact hcj
  · rw [hn] at hok
    cases hok

theorem closeScaleUpRank_fixed (d : Gaudi3Device) (p : Gaudi3Ports) (comm rank n : Nat)
    (st : Closing (List (List Nat))) (hzero : p.isInvalidQPn 0 = true)
    (h : ∀ qpi < n, entryScaleUp st.table comm qpi = some 0) :
    forEach (closeScaleUpQpi d p comm rank) (List.range n) st = ⟨st, none⟩ :=
  forEach_fixed _ _ _ fun qpi hq =>
    closeScaleUpQpi_fixed d p comm rank qpi st hzero (h qpi (List.mem_range.1 hq))

theorem closeScaleUpRank_ok (d : Gaudi3Device) (p : Gaudi3Ports) (comm rank n : Nat)
    (st : Closing (List (List Nat)))
    (hok : (forEach (closeScaleUpQpi d p comm rank) (List.range n) st).failure = none) :
    (∀ qpi < n,
        entryScaleUp (forEach (closeScaleUpQpi d p comm rank) (List.range n) st).state.table
          comm qpi = some 0) ∧
      ∀ c j, entryScaleUp st.table c j = some 0 →
        entryScaleUp (forEach (closeScaleUpQpi d p comm rank) (List.range n) st).state.table
          c j = some 0 := by
  constructor
  · intro qpi hq
    exact forEach_establishes (closeScaleUpQpi d p comm rank)
      (fun i s => entryScaleUp s.table comm i = some 0)
      (fun i s hi => (closeScaleUpQpi_ok d p comm rank i s hi).1)
      (fun i k s hs hk => (closeScaleUpQpi_ok d p comm rank k s hk).2 comm i hs)
      (List.range n) st hok qpi (List.mem_range.2 hq)
  · intro c j hcj
    exact forEach_preserves (closeScaleUpQpi d p comm rank)
      (fun s => entryScaleUp s.table c j = some 0)
      (fun k s hs hk => (closeScaleUpQpi_ok d p comm rank k s hk).2 c j hs)
      (List.range n) st hcj hok

theorem closeQPs_scaleUp_twice (d : Gaudi3Device) (p : Gaudi3Ports)
    (m : QPManagerGaudi3ScaleUp) (comm : Nat) (hzero : p.isInvalidQPn 0 = true)
    (hok : (m.closeQPs d p comm).failure = none) :
    (m.closeQPs d p comm).state.table.closeQPs d p comm =
      ⟨⟨(m.closeQPs d p comm).state.table, []⟩, none⟩ := by
  have hall := forEach_establishes
    (fun rank => forEach (closeScaleUpQpi d p comm rank) (List.range m.m_maxQPsPerConnection))
    (fun _ s => ∀ qpi < m.m_maxQPsPerConnection, entryScaleUp s.table comm qpi = some 0)
    (fun rank s h => (closeScaleUpRank_ok d p comm rank _ s h).1)
    (fun _ rank s hs h qpi hq => (closeScaleUpRank_ok d p comm rank _ s h).2 comm qpi (hs qpi hq))
    (p.getInnerRanksExclusive comm) ⟨m.m_qpInfoScaleUp, []⟩ hok
  have hfix := forEach_fixed
    (fun rank => forEach (closeScaleUpQpi d p comm rank) (List.range m.m_maxQPsPerConnection))
    (p.getInnerRanksExclusive comm)
    ⟨(m.closeQPs d p comm).state.table.m_qpInfoScaleUp, []⟩
    (fun rank hr => closeScaleUpRank_fixed d p comm rank _ _ hzero (hall rank hr))
  show (⟨⟨_, _⟩, _⟩ : Outcome (Closing QPManagerGaudi3ScaleUp)) = _
  simp only [QPManagerGaudi3ScaleUp.closeQPs] at hfix ⊢
  rw [hfix]

theorem getScaleOut_eq (t : List (List (List (List Nat)))) (comm remoteRank qpSet qpi : Nat) :
    getScaleOut t comm remoteRank qpSet qpi =
      match entryScaleOut t comm remoteRank qpSet qpi with
      | some v => .ok v
      | none => .error .outOfRange :=
  getQPn_scaleOut_eq ⟨0, t⟩ comm remoteRank qpSet qpi

theorem setScaleOut_same {t : List (List (List (List Nat)))} {comm remoteRank qpSet qpi v : Nat}
    (h : entryScaleOut t comm remoteRank qpSet qpi = some v) :
    setScaleOut t comm remoteRank qpSet qpi v = .ok t := by
  unfold entryScaleOut at h
  cases h1 : t[comm]? with
  | none => simp [h1] at h
  | some ranks =>
    simp only [h1, Option.some_bind] at h
    cases h2 : ranks[remoteRank]? with
    | none => simp [h2] at h
    | some sets =>
      simp only [h2, Option.some_bind] at h
      cases h3 : sets[qpSet]? with
      | none => simp [h3] at h
      | some row =>
        simp only [h3, Option.some_bind] at h
        have hlt : qpi < row.length := (List.getElem?_eq_some.1 h).1
        simp only [setScaleOut, at?, h1, h2, h3, hlt, if_true]
        rw [set_of_getElem? row qpi v h, set_of_getElem? sets qpSet row h3,
          set_of_getElem? ranks remoteRank sets h2, set_of_getElem? t comm ranks h1]

theorem closeScaleOutNic_table (d : Gaudi3Device) (p : Gaudi3Ports)
    (comm rank qpSet qpi nic : Nat) (st : Closing (List (List (List (List Nat))))) :
    (closeScaleOutNic d p comm rank qpSet qpi nic st).state.table = st.table := by
  unfold closeScaleOutNic
  split
  · rfl
  · split
    · rfl
    · split <;> rfl

theorem closeScaleOutNic_fixed (d : Gaudi3Device) (p : Gaudi3Ports)
    (comm rank qpSet qpi nic : Nat) (st : Closing (List (List (List (List Nat)))))
    (hzero : p.isInvalidQPn 0 = true)
    (h : entryScaleOut st.table comm rank qpSet qpi = some 0) :
    closeScaleOutNic d p comm rank qpSet qpi nic st = ⟨st, none⟩ := by
  unfold closeScaleOutNic
  split
  · rfl
  · rw [getScaleOut_eq, h]
    simp only [hzero, if_true]

theorem closeScaleOutQpi_fixed (d : Gaudi3Device) (p : Gaudi3Ports)
    (comm rank qpSet qpi : Nat) (st : Closing (List (List (List (List Nat)))))
    (hzero : p.isInvalidQPn 0 = true)
    (h : entryScaleOut st.table comm rank qpSet qpi = some 0) :
    closeScaleOutQpi d p comm rank qpSet qpi st = ⟨st, none⟩ := by
  unfold closeScaleOutQpi
  rw [forEach_fixed _ _ _ fun nic _ =>
    closeScaleOutNic_fixed d p comm rank qpSet qpi nic st hzero h]
  simp only [setScaleOut_same h]

theorem closeScaleOutQpi_ok (d : Gaudi3Device) (p : Gaudi3Ports)
    (comm rank qpSet qpi : Nat) (st : Closing (List (List (List (List Nat)))))
    (hok : (closeScaleOutQpi d p comm rank qpSet qpi st).failure = none) :
    entryScaleOut (closeScaleOutQpi d p comm rank qpSet qpi st).state.table
        comm rank qpSet qpi = some 0 ∧
      ∀ c r s j, entryScaleOut st.table c r s j = some 0 →
        entryScaleOut (closeScaleOutQpi d p comm rank qpSet qpi st).state.table c r s j =
          some 0 := by
  unfold closeScaleOutQpi at hok ⊢
  rcases hn : forEach (closeScaleOutNic d p comm rank qpSet qpi) (p.getActiveNics rank comm) st
    with ⟨st1, _ | e⟩
  · have ht : st1.table = st.table := by
      have := forEach_preserves (closeScaleOutNic d p comm rank qpSet qpi)
        (fun s => s.table = st.table)
        (fun nic s hs _ => (closeScaleOutNic_table d p comm rank qpSet qpi nic s).trans hs)
        (p.getActiveNics rank comm) st rfl (by rw [hn])
      rw [hn] at this
      exact this
    rw [hn] at hok
    simp only [] at hok ⊢
    cases hs : setScaleOut st1.table comm rank qpSet qpi 0 with
    | error e => rw [hs] at hok; cases hok
    | ok t1 =>
      simp only []
      obtain ⟨h1, h2⟩ := setScaleOut_ok hs
      refine ⟨h1, fun c r s j hcj => ?_⟩
      by_cases hx : c = comm ∧ r = rank ∧ s = qpSet ∧ j = qpi
      · rw [hx.1, hx.2.1, hx.2.2.1, hx.2.2.2]; exact h1
      · rw [h2 c r s j hx, ht]; exact hcj
  · rw [hn] at hok
    cases hok

theorem closeScaleOutRank_fixed (d : Gaudi3Device) (p : Gaudi3Ports) (maxQPs comm rank : Nat)
    (st : Closing (List (List (List (List Nat))))) (hzero : p.isInvalidQPn 0 = true)
    (h : ∀ qpSet < d.MAX_QPS_SETS_PER_CONNECTION, ∀ qpi < maxQPs,
      entryScaleOut st.table comm rank qpSet qpi = some 0) :
    closeScaleOutRank d p maxQPs comm rank st = ⟨st, none⟩ :=
  forEach_fixed _ _ _ fun qpSet hs =>
    forEach_fixed _ _ _ fun qpi hq =>
      closeScaleOutQpi_fixed d p comm rank qpSet qpi st hzero
        (h qpSet (List.mem_range.1 hs) qpi (List.mem_range.1 hq))

theorem closeScaleOutSet_ok (d : Gaudi3Device) (p : Gaudi3Ports) (maxQPs comm rank qpSet : Nat)
    (st : Closing (List (List (List (List Nat)))))
    (hok : (forEach (closeScaleOutQpi d p comm rank qpSet) (List.range maxQPs) st).failure =
      none) :
    (∀ qpi < maxQPs,
        entryScaleOut
          (forEach (closeScaleOutQpi d p comm rank qpSet) (List.range maxQPs) st).state.table
          comm rank qpSet qpi = some 0) ∧
      ∀ c r s j, entryScaleOut st.table c r s j = some 0 →
        entryScaleOut
          (forEach (closeScaleOutQpi d p comm rank qpSet) (List.range maxQPs) st).state.table
          c r s j = some 0 := by
  constructor
  · intro qpi hq
    exact forEach_establishes (closeScaleOutQpi d p comm rank qpSet)
      (fun i s => entryScaleOut s.table comm rank qpSet i = some 0)
      (fun i s hi => (closeScaleOutQpi_ok d p comm rank qpSet i s hi).1)
      (fun i k s hs hk => (closeScaleOutQpi_ok d p comm rank qpSet k s hk).2 comm rank qpSet i hs)
      (List.range maxQPs) st hok qpi (List.mem_range.2 hq)
  · intro c r s j hcj
    exact forEach_preserves (closeScaleOutQpi d p comm rank qpSet)
      (fun x => entryScaleOut x.table c r s j = some 0)
      (fun k x hx hk => (closeScaleOutQpi_ok d p comm rank qpSet k x hk).2 c r s j hx)
      (List.range maxQPs) st hcj hok

theorem closeScaleOutRank_ok (d : Gaudi3Device) (p : Gaudi3Ports) (maxQPs comm rank : Nat)
    (st : Closing (List (List (List (List Nat)))))
    (hok : (closeScaleOutRank d p maxQPs comm rank st).failure = none) :
    (∀ qpSet < d.MAX_QPS_SETS_PER_CONNECTION, ∀ qpi < maxQPs,
        entryScaleOut (closeScaleOutRank d p maxQPs comm rank st).state.table
          comm rank qpSet qpi = some 0) ∧
      ∀ c r s j, entryScaleOut st.table c r s j = some 0 →
        entryScaleOut (closeScaleOutRank d p maxQPs comm rank st).state.table c r s j =
          some 0 := by
  constructor
  · intro qpSet hs
    exact forEach_establishes
      (fun qpSet => forEach (closeScaleOutQpi d p comm rank qpSet) (List.range maxQPs))
      (fun i x => ∀ qpi < maxQPs, entryScaleOut x.table comm rank i qpi = some 0)
      (fun i x hi => (closeScaleOutSet_ok d p maxQPs comm rank i x hi).1)
      (fun i k x hx hk qpi hq =>
        (closeScaleOutSet_ok d p maxQPs comm rank k x hk).2 comm rank i qpi (hx qpi hq))
      (List.range d.MAX_QPS_SETS_PER_CONNECTION) st hok qpSet (List.mem_range.2 hs)
  · intro c r s j hcj
    exact forEach_preserves
      (fun qpSet => forEach (closeScaleOutQpi d p comm rank qpSet) (List.range maxQPs))
      (fun x => entryScaleOut x.table c r s j = some 0)
      (fun k x hx hk => (closeScaleOutSet_ok d p maxQPs comm rank k x hk).2 c r s j hx)
      (List.range d.MAX_QPS_SETS_PER_CONNECTION) st hcj hok

theorem closeQPs_scaleOut_twice (d : Gaudi3Device) (p : Gaudi3Ports)
    (m : QPManagerGaudi3ScaleOut) (comm : Nat) (hzero : p.isInvalidQPn 0 = true)
    (hok : (m.closeQPs d p comm).failure = none) :
    (m.closeQPs d p comm).state.table.closeQPs d p comm =
      ⟨⟨(m.closeQPs d p comm).state.table, []⟩, none⟩ := by
  by_cases hlen : m.m_qpInfoScaleOut.length = 0
  · simp [QPManagerGaudi3ScaleOut.closeQPs, hlen]
  · simp only [QPManagerGaudi3ScaleOut.closeQPs, hlen, if_false] at hok
    have hall := forEach_establishes (closeScaleOutRank d p m.m_maxQPsPerConnection comm)
      (fun rank s => ∀ qpSet < d.MAX_QPS_SETS_PER_CONNECTION, ∀ qpi < m.m_maxQPsPerConnection,
        entryScaleOut s.table comm rank qpSet qpi = some 0)
      (fun rank s h => (closeScaleOutRank_ok d p _ comm rank s h).1)
      (fun r rank s hs h qpSet hq qpi hi =>
        (closeScaleOutRank_ok d p _ comm rank s h).2 comm r qpSet qpi (hs qpSet hq qpi hi))
      (p.getOuterRanksExclusive comm) ⟨m.m_qpInfoScaleOut, []⟩ hok
    have hfix := forEach_fixed (closeScaleOutRank d p m.m_maxQPsPerConnection comm)
      (p.getOuterRanksExclusive comm)
      ⟨(forEach (closeScaleOutRank d p m.m_maxQPsPerConnection comm)
        (p.getOuterRanksExclusive comm) ⟨m.m_qpInfoScaleOut, []⟩).state.table, []⟩
      (fun rank hr => closeScaleOutRank_fixed d p _ comm rank _ hzero (hall rank hr))
    simp only [QPManagerGaudi3ScaleOut.closeQPs, hlen, if_false]
    split
    · rfl
    · rw [hfix]

theorem closeQPs_scaleUp_closed (d : Gaudi3Device) (p : Gaudi3Ports)
    (m : QPManagerGaudi3ScaleUp) (comm : Nat)
    (hok : (m.closeQPs d p comm).failure = none) :
    ∀ rank ∈ p.getInnerRanksExclusive comm, ∀ qpi < m.m_maxQPsPerConnection,
      entryScaleUp (m.closeQPs d p comm).state.table.m_qpInfoScaleUp comm qpi = some 0 :=
  forEach_establishes
    (fun rank => forEach (closeScaleUpQpi d p comm rank) (List.range m.m_maxQPsPerConnection))
    (fun _ s => ∀ qpi < m.m_maxQPsPerConnection, entryScaleUp s.table comm qpi = some 0)
    (fun rank s h => (closeScaleUpRank_ok d p comm rank _ s h).1)
    (fun _ rank s hs h qpi hq => (closeScaleUpRank_ok d p comm rank _ s h).2 comm qpi (hs qpi hq))
    (p.getInnerRanksExclusive comm) ⟨m.m_qpInfoScaleUp, []⟩ hok

theorem closeQPs_scaleOut_closed (d : Gaudi3Device) (p : Gaudi3Ports)
    (m : QPManagerGaudi3ScaleOut) (comm : Nat)
    (hok : (m.closeQPs d p comm).failure = none) (hlen : m.m_qpInfoScaleOut.length ≠ 0) :
    ∀ rank ∈ p.getOuterRanksExclusive comm, ∀ qpSet < d.MAX_QPS_SETS_PER_CONNECTION,
      ∀ qpi < m.m_maxQPsPerConnection,
        entryScaleOut (m.closeQPs d p comm).state.table.m_qpInfoScaleOut comm rank qpSet qpi =
          some 0 := by
  simp only [QPManagerGaudi3ScaleOut.closeQPs, hlen, if_false] at hok ⊢
  exact forEach_establishes (closeScaleOutRank d p m.m_maxQPsPerConnection comm)
    (fun rank s => ∀ qpSet < d.MAX_QPS_SETS_PER_CONNECTION, ∀ qpi < m.m_maxQPsPerConnection,
      entryScaleOut s.table comm rank qpSet qpi = some 0)
    (fun rank s h => (closeScaleOutRank_ok d p _ comm rank s h).1)
    (fun r rank s hs h qpSet hq qpi hi =>
      (closeScaleOutRank_ok d p _ comm rank s h).2 comm r qpSet qpi (hs qpSet hq qpi hi))
    (p.getOuterRanksExclusive comm) ⟨m.m_qpInfoScaleOut, []⟩ hok

/-- C11: the helper `isInvalidQPn` counting the value 0 that `closeQPs` writes
as invalid, `closeQPs` is idempotent for the scale-up and for the scale-out
resolver: after a call that returned, every entry the call visited is 0, and
a second call for the same communicator calls `destroyQp` for no connection,
returns without a failure and leaves the manager, with its table, exactly as
the first call left it. -/
theorem closeQPs_idempotent (d : Gaudi3Device) (p : Gaudi3Ports)
    (hzero : p.isInvalidQPn 0 = true) :
    (∀ (m : QPManagerGaudi3ScaleUp) (comm : Nat), (m.closeQPs d p comm).failure = none →
        (p.getInnerRanksExclusive comm ≠ [] → ∀ qpi < m.m_maxQPsPerConnection,
          (m.closeQPs d p comm).state.table.getQPn comm qpi = .ok 0) ∧
        ((m.closeQPs d p comm).state.table.closeQPs d p comm).state.destroyed = [] ∧
        ((m.closeQPs d p comm).state.table.closeQPs d p comm).failure = none ∧
        ((m.closeQPs d p comm).state.table.closeQPs d p comm).state.table =
          (m.closeQPs d p comm).state.table) ∧
      (∀ (m : QPManagerGaudi3ScaleOut) (comm : Nat), (m.closeQPs d p comm).failure = none →
        (m.m_qpInfoScaleOut.length ≠ 0 →
          ∀ rank ∈ p.getOuterRanksExclusive comm, ∀ qpSet < d.MAX_QPS_SETS_PER_CONNECTION,
            ∀ qpi < m.m_maxQPsPerConnection,
              (m.closeQPs d p comm).state.table.getQPn comm rank qpSet qpi = .ok 0) ∧
        ((m.closeQPs d p comm).state.table.closeQPs d p comm).state.destroyed = [] ∧
        ((m.closeQPs d p comm).state.table.closeQPs d p comm).failure = none ∧
        ((m.closeQPs d p comm).state.table.closeQPs d p comm).state.table =
          (m.closeQPs d p comm).state.table) := by
  constructor
  · intro m comm hok
    have h2 := closeQPs_scaleUp_twice d p m comm hzero hok
    refine ⟨fun hne qpi hq => ?_, by rw [h2], by rw [h2], by rw [h2]⟩
    obtain ⟨rank, hr⟩ := List.exists_mem_of_ne_nil _ hne
    rw [getQPn_scaleUp_eq, closeQPs_scaleUp_closed d p m comm hok rank hr qpi hq]
  · intro m comm hok
    have h2 := closeQPs_scaleOut_twice d p m comm hzero hok
    refine ⟨fun hlen rank hr qpSet hs qpi hq => ?_, by rw [h2], by rw [h2], by rw [h2]⟩
    rw [getQPn_scaleOut_eq,
      closeQPs_scaleOut_closed d p m comm hok hlen rank hr qpSet hs qpi hq]

/-- Witness of C11: the first `closeQPs` destroys the 18 scale-up connections
(six roles on three nics) and the 24 scale-out connections (twelve registered
ids on two nics); the second destroys none. -/
theorem closeQPs_idempotent_witness :
    (openScaleUp.closeQPs device0 ports0 0).state.destroyed.length = 18 ∧
      (openScaleOut.closeQPs device0 ports0 0).state.destroyed.length = 24 ∧
      ((openScaleUp.closeQPs device0 ports0 0).state.table.closeQPs device0 ports0
          0).state.destroyed = [] ∧
      ((openScaleOut.closeQPs device0 ports0 0).state.table.closeQPs device0 ports0
          0).state.destroyed = [] :=
  ⟨by decide, by decide,
    ((closeQPs_idempotent device0 ports0 rfl).1 openScaleUp 0 (by decide)).2.1,
    ((closeQPs_idempotent device0 ports0 rfl).2 openScaleOut 0 (by decide)).2.1⟩

/-- The assumption of C11 on `isInvalidQPn` is needed: with a helper that counts
only `INVALID_QP` as invalid, the second scale-up `closeQPs` hands the entries
0 the first one wrote, plus the nic offsets, to `destroyQp`. -/
theorem closeQPs_again_with_strict_helper :
    ((openScaleUp.closeQPs device0 portsStrict 0).state.table.closeQPs device0 portsStrict
        0).state.destroyed.take 3 = [(0, 0), (1, 1), (2, 2)] := by
  decide

/-! ## Theorems: reduction flags, address validity, broadcast kinds -/

theorem initCollectiveOp_frame (cfg : GlobalConf) (s : CommonState) (b : Bool) :
    (s.initCollectiveOp cfg b).m_dataType = s.m_dataType ∧
      (((s.initCollectiveOp cfg b).m_collectiveOp = eHCLReduceScatter ∨
          (s.initCollectiveOp cfg b).m_collectiveOp = eHCLAllReduce ∨
          (s.initCollectiveOp cfg b).m_collectiveOp = eHCLReduce) ↔
        (s.m_collectiveOp = eHCLReduceScatter ∨ s.m_collectiveOp = eHCLAllReduce ∨
          s.m_collectiveOp = eHCLReduce)) := by
  unfold CommonState.initCollectiveOp
  split
  · rename_i h
    split
    · simp [h]
    · split
      · simp [h]
      · simp
  · simp

theorem checkInPlaceOp_frame (s s1 : CommonState) (h : s.checkInPlaceOp = .ok s1) :
    ∃ v, s1 = { s with m_inPlace := v } := by
  unfold CommonState.checkInPlaceOp at h
  dsimp only at h
  split at h <;> (try split at h) <;>
    first
    | (simp only [Except.ok.injEq] at h; exact ⟨_, h.symm⟩)
    | cases h

theorem checkHierarchicalOp_frame (s s1 : CommonState) (h : s.checkHierarchicalOp = .ok s1) :
    ∃ v w, s1 = { s with m_boxIterations := v, m_boxStrideCount := w } := by
  unfold CommonState.checkHierarchicalOp at h
  split at h
  · simp only [Except.ok.injEq] at h; exact ⟨_, _, h.symm⟩
  · split at h
    · simp only [Except.ok.injEq] at h; exact ⟨_, _, h.symm⟩
    · split at h
      · cases h
      · simp only [Except.ok.injEq] at h; exact ⟨_, _, h.symm⟩

theorem calcStrideCounts_frame (rc : RemainderCalculator) (s s1 : CommonState) (T R : Nat)
    (h : CommonState.calcStrideCounts rc s = .ok (s1, T, R)) :
    ∃ a b c, s1 = { s with m_optimalBufferCount := a, m_scaleUpStrideCount := b,
                           m_boxStrideCount := c } := by
  unfold CommonState.calcStrideCounts at h
  dsimp only at h
  split at h <;> (try split at h) <;> (try split at h) <;>
    first
    | (simp only [Except.ok.injEq, Prod.mk.injEq] at h; exact ⟨_, _, _, h.1.symm⟩)
    | cases h

theorem calcNonFinalCounts_frame (s s1 : CommonState) (T : Nat)
    (h : CommonState.calcNonFinalCounts s T = .ok s1) :
    ∃ a b c d e f, s1 =
      { s with
        m_rankScaleUpCount := a, m_rankScaleOutCount := b, m_sliceOffsetCount := c,
        m_boxCount := d, m_boxStrideCount := e, m_scaleUpStrideCount := f } := by
  unfold CommonState.calcNonFinalCounts at h
  dsimp only at h
  split at h <;>
    first
    | (simp only [Except.ok.injEq] at h; exact ⟨_, _, _, _, _, _, h.symm⟩)
    | cases h

theorem calcReproScaleoutLongterm_frame (s s1 : CommonState)
    (h : s.calcReproScaleoutLongterm = .ok s1) :
    ∃ v, s1 = { s with m_reproScaleoutLongtermAmount := v } := by
  unfold CommonState.calcReproScaleoutLongterm at h
  simp only [] at h
  split_ifs at h <;> (simp only [Except.ok.injEq] at h; exact ⟨_, h.symm⟩)

theorem calcMaxSliceCounts_kind (cfg : GlobalConf) (rc : RemainderCalculator)
    (s s1 : CommonState) (h : CommonState.calcMaxSliceCounts cfg rc s = .ok s1) :
    s1.m_collectiveOp = s.m_collectiveOp ∧ s1.m_dataType = s.m_dataType ∧
      s1.m_isReductionCollective = s.m_isReductionCollective ∧
      s1.m_16BitReduction = s.m_16BitReduction := by
  unfold CommonState.calcMaxSliceCounts at h
  split at h
  · cases h
  · rename_i o _
    split at h
    · cases h
    · rename_i s2 T R hst
      obtain ⟨a, b, c, rfl⟩ := calcStrideCounts_frame rc _ s2 T R hst
      simp only [] at h
      split at h
      · simp only [Except.ok.injEq] at h
        subst h
        exact ⟨rfl, rfl, rfl, rfl⟩
      · split at h
        · cases h
        · rename_i n s3 hn
          obtain ⟨_, O1, _, rfl, _⟩ := getNumSlices_cases cfg rc _ s3 T R n hn
          split at h
          · obtain ⟨_, _, _, _, _, _, rfl⟩ := calcNonFinalCounts_frame _ s1 T h
            exact ⟨rfl, rfl, rfl, rfl⟩
          · obtain ⟨_, _, _, _, _, _, rfl⟩ := calcNonFinalCounts_frame _ s1 T h
            exact ⟨rfl, rfl, rfl, rfl⟩

/-- C21: when planning (the constructor body) returns, the flag
`m_isReductionCollective` is true exactly when the operation kind is
ReduceScatter, AllReduce or Reduce (the kind of the planned state, which for
these is the kind of the call), and `m_16BitReduction` is true exactly when
`m_isReductionCollective` is true and the element type, which planning leaves
as it is, is bfloat16 or float16. -/
theorem plan_reduction_flags (cfg : GlobalConf) (rc : RemainderCalculator)
    (s s1 : CommonState) (singlePeerBroadcastAllowed : Bool)
    (h : CommonState.plan cfg rc s singlePeerBroadcastAllowed = .ok s1) :
    (s1.m_isReductionCollective = true ↔
        (s1.m_collectiveOp = eHCLReduceScatter ∨ s1.m_collectiveOp = eHCLAllReduce ∨
          s1.m_collectiveOp = eHCLReduce)) ∧
      (s1.m_16BitReduction = true ↔
        (s1.m_isReductionCollective = true ∧
          (s1.m_dataType = hcclBfloat16 ∨ s1.m_dataType = hcclFloat16))) ∧
      (s1.m_isReductionCollective = true ↔
        (s.m_collectiveOp = eHCLReduceScatter ∨ s.m_collectiveOp = eHCLAllReduce ∨
          s.m_collectiveOp = eHCLReduce)) ∧
      s1.m_dataType = s.m_dataType := by
  unfold CommonState.plan at h
  split at h
  · cases h
  · rename_i s2 h2
    split at h
    · cases h
    · rename_i s3 h3
      split at h
      · cases h
      · rename_i s4 h4
        obtain ⟨f1, f2⟩ := initCollectiveOp_frame cfg s singlePeerBroadcastAllowed
        obtain ⟨v, rfl⟩ := checkInPlaceOp_frame _ s2 h2
        obtain ⟨a, b, rfl⟩ := checkHierarchicalOp_frame _ s3 h3
        obtain ⟨k1, k2, k3, k4⟩ := calcMaxSliceCounts_kind cfg rc _ s4 h4
        obtain ⟨w, rfl⟩ := calcReproScaleoutLongterm_frame s4 s1 h
        have e1 : s4.m_collectiveOp =
            (s.initCollectiveOp cfg singlePeerBroadcastAllowed).m_collectiveOp := k1
        have e2 : s4.m_dataType = s.m_dataType := k2.trans f1
        have e3 : s4.m_isReductionCollective = decide
            ((s.initCollectiveOp cfg singlePeerBroadcastAllowed).m_collectiveOp =
                eHCLReduceScatter ∨
              (s.initCollectiveOp cfg singlePeerBroadcastAllowed).m_collectiveOp =
                eHCLAllReduce ∨
              (s.initCollectiveOp cfg singlePeerBroadcastAllowed).m_collectiveOp =
                eHCLReduce) := k3
        have e4 : s4.m_16BitReduction = (s4.m_isReductionCollective &&
            decide (s4.m_dataType = hcclBfloat16 ∨ s4.m_dataType = hcclFloat16)) := by
          rw [k4, e3, e2]
          show (decide _ &&
            decide ((s.initCollectiveOp cfg singlePeerBroadcastAllowed).m_dataType = _ ∨
              (s.initCollectiveOp cfg singlePeerBroadcastAllowed).m_dataType = _)) = _
          rw [f1]
        show (s4.m_isReductionCollective = true ↔ _) ∧ (s4.m_16BitReduction = true ↔ _) ∧
          (s4.m_isReductionCollective = true ↔ _) ∧ s4.m_dataType = _
        refine ⟨?_, ?_, ?_, e2⟩
        · show _ ↔ (s4.m_collectiveOp = _ ∨ s4.m_collectiveOp = _ ∨ s4.m_collectiveOp = _)
          rw [e3, e1, decide_eq_true_iff]
        · show _ ↔ (_ ∧ (s4.m_dataType = _ ∨ s4.m_dataType = _))
          rw [e4, Bool.and_eq_true, decide_eq_true_iff]
        · rw [e3, decide_eq_true_iff]
          exact f2

/-- Witness of C21: planning the AllReduce of 1024 bfloat16 elements. -/
theorem plan_reduction_flags_witness :
    (plannedBf16AllReduce.m_isReductionCollective = true ↔
        (plannedBf16AllReduce.m_collectiveOp = eHCLReduceScatter ∨
          plannedBf16AllReduce.m_collectiveOp = eHCLAllReduce ∨
          plannedBf16AllReduce.m_collectiveOp = eHCLReduce)) ∧
      (plannedBf16AllReduce.m_16BitReduction = true ↔
        (plannedBf16AllReduce.m_isReductionCollective = true ∧
          (plannedBf16AllReduce.m_dataType = hcclBfloat16 ∨
            plannedBf16AllReduce.m_dataType = hcclFloat16))) ∧
      (plannedBf16AllReduce.m_isReductionCollective = true ↔
        (bf16AllReduce.m_collectiveOp = eHCLReduceScatter ∨
          bf16AllReduce.m_collectiveOp = eHCLAllReduce ∨
          bf16AllReduce.m_collectiveOp = eHCLReduce)) ∧
      plannedBf16AllReduce.m_dataType = bf16AllReduce.m_dataType :=
  plan_reduction_flags conf0 floorCalculator bf16AllReduce plannedBf16AllReduce false rfl

/-- C22: `isRecvAddrValid` returns true for AllReduce, the three broadcast
kinds, All-to-All, AllGather and ReduceScatter whatever the rank is, and for
Reduce it returns the root flag of the rank; `isSendAddrValid` returns true for
AllReduce, All-to-All, AllGather, ReduceScatter and Reduce whatever the rank
is, and for Broadcast, SimpleBroadcast and SinglePeerBroadcast it returns the
root flag of the rank. -/
theorem addrValid_policy (s : CommonState) :
    ((s.m_collectiveOp = eHCLAllReduce ∨ s.m_collectiveOp = eHCLBroadcast ∨
        s.m_collectiveOp = eHCLSinglePeerBroadcast ∨ s.m_collectiveOp = eHCLSimpleBroadcast ∨
        s.m_collectiveOp = eHCLAll2All ∨ s.m_collectiveOp = eHCLAllGather ∨
        s.m_collectiveOp = eHCLReduceScatter) → s.isRecvAddrValid = .ok true) ∧
      (s.m_collectiveOp = eHCLReduce → s.isRecvAddrValid = .ok s.m_isRoot) ∧
      ((s.m_collectiveOp = eHCLAllReduce ∨ s.m_collectiveOp = eHCLAll2All ∨
        s.m_collectiveOp = eHCLAllGather ∨ s.m_collectiveOp = eHCLReduceScatter ∨
        s.m_collectiveOp = eHCLReduce) → s.isSendAddrValid = .ok true) ∧
      ((s.m_collectiveOp = eHCLBroadcast ∨ s.m_collectiveOp = eHCLSimpleBroadcast ∨
        s.m_collectiveOp = eHCLSinglePeerBroadcast) → s.isSendAddrValid = .ok s.m_isRoot) := by
  refine ⟨?_, ?_, ?_, ?_⟩
  · rintro (h | h | h | h | h | h | h) <;> simp [CommonState.isRecvAddrValid, h]
  · intro h
    simp [CommonState.isRecvAddrValid, h, CommonState.isRoot]
  · rintro (h | h | h | h | h) <;> simp [CommonState.isSendAddrValid, h]
  · rintro (h | h | h) <;> simp [CommonState.isSendAddrValid, h, CommonState.isRoot]


/-- Counterexample of C27: a Broadcast of 64 elements of four bytes, exactly
the threshold of 256 bytes, on boxes of four ranks: the kind becomes
SimpleBroadcast although the size is not below the threshold and the box
holds more than two ranks. -/
theorem initCollectiveOp_at_threshold :
    (callState eHCLBroadcast comm8 64 0 65536).initCollectiveOp conf0 true =
        { callState eHCLBroadcast comm8 64 0 65536 with m_collectiveOp := eHCLSimpleBroadcast } ∧
      ¬ ((callState eHCLBroadcast comm8 64 0 65536).m_count *
          (callState eHCLBroadcast comm8 64 0 65536).m_dataTypeSizeInBytes <
        conf0.HCL_COMPLEX_BCAST_MIN_SIZE) ∧
      ¬ (comm8.podSize ≤ 2) := by
  refine ⟨rfl, by decide, by decide⟩

/-- C27 (amended): `initCollectiveOp` (the size `count * elementSize` fitting
64 bits) changes the operation kind only when it is Broadcast: it becomes
SimpleBroadcast exactly when the size is at or below the threshold or the box
holds at most two ranks; otherwise it becomes SinglePeerBroadcast exactly when
single-peer broadcast is allowed for the device and the single-peer setting is
on or the communicator is single-box; otherwise it stays Broadcast. Nothing
else of the state changes. -/
theorem initCollectiveOp_cases (cfg : GlobalConf) (s : CommonState)
    (singlePeerBroadcastAllowed : Bool)
    (hprod : s.m_count * s.m_dataTypeSizeInBytes < 2 ^ 64) :
    (s.m_collectiveOp ≠ eHCLBroadcast → s.initCollectiveOp cfg singlePeerBroadcastAllowed = s) ∧
      (s.m_collectiveOp = eHCLBroadcast →
        ((s.m_count * s.m_dataTypeSizeInBytes ≤ cfg.HCL_COMPLEX_BCAST_MIN_SIZE ∨
            s.m_dynamicComm.podSize ≤ 2) →
          s.initCollectiveOp cfg singlePeerBroadcastAllowed =
            { s with m_collectiveOp := eHCLSimpleBroadcast }) ∧
        (¬ (s.m_count * s.m_dataTypeSizeInBytes ≤ cfg.HCL_COMPLEX_BCAST_MIN_SIZE ∨
            s.m_dynamicComm.podSize ≤ 2) →
          ((singlePeerBroadcastAllowed = true ∧
              (cfg.HCL_USE_SINGLE_PEER_BROADCAST = true ∨ s.m_isMultiPod = false)) →
            s.initCollectiveOp cfg singlePeerBroadcastAllowed =
              { s with m_collectiveOp := eHCLSinglePeerBroadcast }) ∧
          (¬ (singlePeerBroadcastAllowed = true ∧
              (cfg.HCL_USE_SINGLE_PEER_BROADCAST = true ∨ s.m_isMultiPod = false)) →
            s.initCollectiveOp cfg singlePeerBroadcastAllowed = s))) := by
  unfold CommonState.initCollectiveOp
  rw [u64_of_lt hprod]
  refine ⟨fun h => if_neg h, fun h => ?_⟩
  rw [if_pos h]
  refine ⟨fun h1 => if_pos h1, fun h1 => ?_⟩
  rw [if_neg h1]
  exact ⟨fun h2 => if_pos h2, fun h2 => if_neg h2⟩

/-- Witness of C27 (amended): a Broadcast of 1024 elements of four bytes on
the two-box communicator, single-peer broadcast allowed but not set. -/
theorem initCollectiveOp_cases_witness :
    (eHCLBroadcast ≠ eHCLBroadcast →
        (callState eHCLBroadcast comm8 1024 0 65536).initCollectiveOp conf0 true =
          callState eHCLBroadcast comm8 1024 0 65536) ∧
      (eHCLBroadcast = eHCLBroadcast →
        ((1024 * 4 ≤ 256 ∨ 4 ≤ 2) →
          (callState eHCLBroadcast comm8 1024 0 65536).initCollectiveOp conf0 true =
            { callState eHCLBroadcast comm8 1024 0 65536 with
              m_collectiveOp := eHCLSimpleBroadcast }) ∧
        (¬ (1024 * 4 ≤ 256 ∨ 4 ≤ 2) →
          ((true = true ∧ (false = true ∨ isCommunicatorMultiPod 8 4 = false)) →
            (callState eHCLBroadcast comm8 1024 0 65536).initCollectiveOp conf0 true =
              { callState eHCLBroadcast comm8 1024 0 65536 with
                m_collectiveOp := eHCLSinglePeerBroadcast }) ∧
          (¬ (true = true ∧ (false = true ∨ isCommunicatorMultiPod 8 4 = false)) →
            (callState eHCLBroadcast comm8 1024 0 65536).initCollectiveOp conf0 true =
              callState eHCLBroadcast comm8 1024 0 65536))) :=
  initCollectiveOp_cases conf0 (callState eHCLBroadcast comm8 1024 0 65536) true (by decide)


/-! ## Theorems: the slices before the final one, the element type of a leg -/

/-- C28: with a slice count that is not zero, for every slice index other
than the final one `calcSliceCounts` returns the state as it is, and so does
`SliceState::calcBoxAndScaleOutCounts` for a slice state at that index: no
count, stride or flag changes, so all slices before the final one carry the
same counts. -/
theorem nonFinal_slice_unchanged (rc : RemainderCalculator) (s : SliceState) (sliceIter : Nat)
    (h1 : 1 ≤ s.m_sliceIterations) (h2 : s.m_sliceIterations < 2 ^ 32)
    (hne : sliceIter ≠ s.m_sliceIterations - 1) :
    CommonState.calcSliceCounts rc s.toCommonState sliceIter = .ok s.toCommonState ∧
      (s.m_sliceIter = sliceIter → s.calcBoxAndScaleOutCounts rc = .ok s) := by
  have hsub : sub32 s.m_sliceIterations 1 = s.m_sliceIterations - 1 := sub32_one h1 h2
  constructor
  · simp [CommonState.calcSliceCounts, hsub, hne]
  · intro hs
    simp [SliceState.calcBoxAndScaleOutCounts, hsub, hs, hne]


/-- Witness of C28: slice 3 of the ten slices of `slicedAllGather`. -/
theorem nonFinal_slice_unchanged_witness :
    CommonState.calcSliceCounts floorCalculator (sliceOf slicedAllGather true 3 0).toCommonState
        3 = .ok (sliceOf slicedAllGather true 3 0).toCommonState ∧
      ((sliceOf slicedAllGather true 3 0).m_sliceIter = 3 →
        (sliceOf slicedAllGather true 3 0).calcBoxAndScaleOutCounts floorCalculator =
          .ok (sliceOf slicedAllGather true 3 0)) :=
  nonFinal_slice_unchanged floorCalculator (sliceOf slicedAllGather true 3 0) 3 (by decide)
    (by decide) (by decide)

/-- C29: `NativeScaleoutDescriptor::run` (for a send, the box-iteration count
not being zero) builds its operation with the element type 32-bit float when
the leg is a receive, the current sub-operation is neither AllGather nor
Gather and the call is a 16-bit reduction, and with the caller's element type
in every other case; with the flag as `check16BitReductionOp` sets it, the
type handed on differs from the caller's exactly in the first case. -/
theorem run_dataType (sliceState : SliceState)
    (hbox : sliceState.m_isSend = true → sliceState.m_boxIterations ≠ 0) :
    ∃ op, NativeScaleoutDescriptor.run sliceState = .ok op ∧
      ((sliceState.m_isSend = false ∧ sliceState.m_currentOp ≠ eHCLAllGather ∧
          sliceState.m_currentOp ≠ eHCLGather ∧ sliceState.m_16BitReduction = true) →
        op.m_dataType = hcclFloat32) ∧
      (¬ (sliceState.m_isSend = false ∧ sliceState.m_currentOp ≠ eHCLAllGather ∧
          sliceState.m_currentOp ≠ eHCLGather ∧ sliceState.m_16BitReduction = true) →
        op.m_dataType = sliceState.m_dataType) ∧
      (sliceState.m_16BitReduction = (sliceState.m_isReductionCollective &&
          decide (sliceState.m_dataType = hcclBfloat16 ∨ sliceState.m_dataType = hcclFloat16)) →
        (op.m_dataType ≠ sliceState.m_dataType ↔
          (sliceState.m_isSend = false ∧ sliceState.m_currentOp ≠ eHCLAllGather ∧
            sliceState.m_currentOp ≠ eHCLGather ∧ sliceState.m_16BitReduction = true))) := by
  have hret : ∃ op, NativeScaleoutDescriptor.run sliceState = .ok op ∧ op.m_dataType =
      if sliceState.m_isSend = false ∧ sliceState.m_currentOp ≠ eHCLAllGather ∧
          sliceState.m_currentOp ≠ eHCLGather ∧ sliceState.m_16BitReduction = true then
        hcclFloat32
      else sliceState.m_dataType := by
    unfold NativeScaleoutDescriptor.run
    cases hs : sliceState.m_isSend
    · exact ⟨_, rfl, rfl⟩
    · have hb := hbox hs
      simp only [mod, hb, if_false]
      exact ⟨_, rfl, rfl⟩
  obtain ⟨op, hop, hd⟩ := hret
  refine ⟨op, hop, fun hc => by rw [hd, if_pos hc], fun hc => by rw [hd, if_neg hc],
    fun h16 => ?_⟩
  constructor
  · intro hne
    by_contra hc
    rw [hd, if_neg hc] at hne
    exact hne rfl
  · intro hc
    rw [hd, if_pos hc]
    have h16t := hc.2.2.2
    rw [h16] at h16t
    simp only [Bool.and_eq_true, decide_eq_true_eq] at h16t
    rcases h16t.2 with e | e <;> rw [e] <;> decide

/-- Witness of C29: the receive leg of the ReduceScatter step of an AllReduce
of bfloat16 elements is handed on as 32-bit float. -/
theorem run_dataType_witness :
    (NativeScaleoutDescriptor.run reduceScatterRecv).map (fun op => op.m_dataType) =
        .ok hcclFloat32 ∧
      ∃ op, NativeScaleoutDescriptor.run reduceScatterRecv = .ok op ∧
        ((reduceScatterRecv.m_isSend = false ∧ reduceScatterRecv.m_currentOp ≠ eHCLAllGather ∧
            reduceScatterRecv.m_currentOp ≠ eHCLGather ∧
            reduceScatterRecv.m_16BitReduction = true) →
          op.m_dataType = hcclFloat32) ∧
        (¬ (reduceScatterRecv.m_isSend = false ∧
            reduceScatterRecv.m_currentOp ≠ eHCLAllGather ∧
            reduceScatterRecv.m_currentOp ≠ eHCLGather ∧
            reduceScatterRecv.m_16BitReduction = true) →
          op.m_dataType = reduceScatterRecv.m_dataType) ∧
        (reduceScatterRecv.m_16BitReduction = (reduceScatterRecv.m_isReductionCollective &&
            decide (reduceScatterRecv.m_dataType = hcclBfloat16 ∨
              reduceScatterRecv.m_dataType = hcclFloat16)) →
          (op.m_dataType ≠ reduceScatterRecv.m_dataType ↔
            (reduceScatterRecv.m_isSend = false ∧
              reduceScatterRecv.m_currentOp ≠ eHCLAllGather ∧
              reduceScatterRecv.m_currentOp ≠ eHCLGather ∧
              reduceScatterRecv.m_16BitReduction = true))) :=
  ⟨rfl, run_dataType reduceScatterRecv (fun h => by cases h)⟩

/-! ## Theorems: the connection of an operation -/

theorem getBaseQpAndUsage_of_switch (k : Gaudi3Constants) (m : QPManagerGaudi3)
    (comm myRank scaleupGroupSize : Nat) (collectiveOp : HCL_CollectiveOp)
    (isSend isComplexCollective isReductionInIMB isHierarchical : Bool)
    (count cellCount boxType : Nat) (isScaleOut : Bool) (remoteRank qpSet : Nat)
    (isReduction : Bool) (complexCollective : HCL_CollectiveOp) (isRoot : Bool)
    (hmod : count = k.INVALID_COUNT ∨ scaleupGroupSize ≠ 0) :
    ∃ oob, ∀ qpi d,
      getBaseQpAndUsageSwitch k collectiveOp isSend isComplexCollective isReductionInIMB
        isHierarchical boxType isScaleOut isReduction complexCollective isRoot oob =
          .ok (qpi, d) →
      m.getBaseQpAndUsage k comm myRank scaleupGroupSize collectiveOp isSend
        isComplexCollective isReductionInIMB isHierarchical count cellCount boxType isScaleOut
        remoteRank qpSet isReduction complexCollective isRoot =
        match m.getQPn comm remoteRank (k.qpIndex qpi) qpSet with
        | .error e => .error e
        | .ok qpn => .ok { qpn := qpn, disregardRank := if isScaleOut = true then true else d } := by
  by_cases hc : count = k.INVALID_COUNT
  · refine ⟨false, fun qpi d hsw => ?_⟩
    simp only [QPManagerGaudi3.getBaseQpAndUsage, hc, ne_eq, not_true_eq_false, if_false, hsw]
  · have hg : scaleupGroupSize ≠ 0 := hmod.resolve_left hc
    refine ⟨decide (count ≤ u64 (cellCount * (myRank % scaleupGroupSize))), fun qpi d hsw => ?_⟩
    simp only [QPManagerGaudi3.getBaseQpAndUsage, hc, ne_eq, not_false_eq_true, if_true, mod,
      hg, if_false, hsw]

theorem getBaseQpAndUsage_default (k : Gaudi3Constants) (m : QPManagerGaudi3)
    (comm myRank scaleupGroupSize : Nat) (collectiveOp : HCL_CollectiveOp)
    (isSend isComplexCollective isReductionInIMB isHierarchical : Bool)
    (count cellCount boxType : Nat) (isScaleOut : Bool) (remoteRank qpSet : Nat)
    (isReduction : Bool) (complexCollective : HCL_CollectiveOp) (isRoot : Bool)
    (hop : collectiveOp = eHCLAllReduce ∨ collectiveOp = eHCLCollectiveLastValue) :
    ∃ e, m.getBaseQpAndUsage k comm myRank scaleupGroupSize collectiveOp isSend
        isComplexCollective isReductionInIMB isHierarchical count cellCount boxType isScaleOut
        remoteRank qpSet isReduction complexCollective isRoot = .error e := by
  unfold QPManagerGaudi3.getBaseQpAndUsage
  simp only []
  split
  · exact ⟨_, rfl⟩
  · rcases hop with h | h <;> subst h <;> exact ⟨_, rfl⟩

theorem getBaseQpAndUsageSwitch_total (k : Gaudi3Constants) (collectiveOp : HCL_CollectiveOp)
    (isSend isComplexCollective isReductionInIMB isHierarchical : Bool) (boxType : Nat)
    (isScaleOut isReduction : Bool) (complexCollective : HCL_CollectiveOp)
    (isRoot outOfBounds : Bool)
    (h1 : collectiveOp ≠ eHCLAllReduce) (h2 : collectiveOp ≠ eHCLCollectiveLastValue) :
    ∃ qpi d, getBaseQpAndUsageSwitch k collectiveOp isSend isComplexCollective isReductionInIMB
      isHierarchical boxType isScaleOut isReduction complexCollective isRoot outOfBounds =
        .ok (qpi, d) := by
  unfold getBaseQpAndUsageSwitch
  cases collectiveOp <;> simp only [] <;>
    first
    | exact absurd rfl h1
    | exact absurd rfl h2
    | (repeat' split) <;> exact ⟨_, _, rfl⟩

/-- Counterexample of C23: the operation AllReduce with `isScaleOut` true:
the call ends in the failed `VERIFY` of the `default` label and returns no
flag. -/
theorem getBaseQpAndUsage_allReduce_aborts :
    (QPManagerGaudi3.scaleOut openScaleOut).getBaseQpAndUsage consts0 0 1 4 eHCLAllReduce true
        false false true 1024 256 0 true 5 0 false eHCLAllReduce false =
      .error (.verify .cannotRunCollectiveOp) := by
  rfl

/-- C23 (amended): when `getBaseQpAndUsage` can compute `outOfBounds` and the
table holds the connection of every role, it returns `disregardRank` true in
both directions for Broadcast, SinglePeerBroadcast, SimpleBroadcast and
point-to-point, true whenever `isScaleOut` is true for every operation other
than AllReduce and the end marker, and false in both directions for All-to-All
with `isScaleOut` false; for AllReduce and the end marker it fails and returns
nothing. -/
theorem getBaseQpAndUsage_disregardRank (k : Gaudi3Constants) (m : QPManagerGaudi3)
    (comm myRank scaleupGroupSize : Nat) (collectiveOp : HCL_CollectiveOp)
    (isSend isComplexCollective isReductionInIMB isHierarchical : Bool)
    (count cellCount boxType : Nat) (isScaleOut : Bool) (remoteRank qpSet : Nat)
    (isReduction : Bool) (complexCollective : HCL_CollectiveOp) (isRoot : Bool)
    (hmod : count = k.INVALID_COUNT ∨ scaleupGroupSize ≠ 0)
    (hqpn : ∀ qpi, ∃ qpn, m.getQPn comm remoteRank (k.qpIndex qpi) qpSet = .ok qpn) :
    ((collectiveOp = eHCLBroadcast ∨ collectiveOp = eHCLSinglePeerBroadcast ∨
        collectiveOp = eHCLSimpleBroadcast ∨ collectiveOp = eHCLNoCollective) →
        ∃ qpn, m.getBaseQpAndUsage k comm myRank scaleupGroupSize collectiveOp isSend
          isComplexCollective isReductionInIMB isHierarchical count cellCount boxType isScaleOut
          remoteRank qpSet isReduction complexCollective isRoot =
            .ok { qpn := qpn, disregardRank := true }) ∧
      (isScaleOut = true → collectiveOp ≠ eHCLAllReduce →
        collectiveOp ≠ eHCLCollectiveLastValue →
        ∃ qpn, m.getBaseQpAndUsage k comm myRank scaleupGroupSize collectiveOp isSend
          isComplexCollective isReductionInIMB isHierarchical count cellCount boxType isScaleOut
          remoteRank qpSet isReduction complexCollective isRoot =
            .ok { qpn := qpn, disregardRank := true }) ∧
      (collectiveOp = eHCLAll2All → isScaleOut = false →
        ∃ qpn, m.getBaseQpAndUsage k comm myRank scaleupGroupSize collectiveOp isSend
          isComplexCollective isReductionInIMB isHierarchical count cellCount boxType isScaleOut
          remoteRank qpSet isReduction complexCollective isRoot =
            .ok { qpn := qpn, disregardRank := false }) ∧
      ((collectiveOp = eHCLAllReduce ∨ collectiveOp = eHCLCollectiveLastValue) →
        ∃ e, m.getBaseQpAndUsage k comm myRank scaleupGroupSize collectiveOp isSend
          isComplexCollective isReductionInIMB isHierarchical count cellCount boxType isScaleOut
          remoteRank qpSet isReduction complexCollective isRoot = .error e) := by
  obtain ⟨oob, hkey⟩ := getBaseQpAndUsage_of_switch k m comm myRank scaleupGroupSize
    collectiveOp isSend isComplexCollective isReductionInIMB isHierarchical count cellCount
    boxType isScaleOut remoteRank qpSet isReduction complexCollective isRoot hmod
  have hret : ∀ qpi d, getBaseQpAndUsageSwitch k collectiveOp isSend isComplexCollective
      isReductionInIMB isHierarchical boxType isScaleOut isReduction complexCollective isRoot
      oob = .ok (qpi, d) →
      ∃ qpn, m.getBaseQpAndUsage k comm myRank scaleupGroupSize collectiveOp isSend
        isComplexCollective isReductionInIMB isHierarchical count cellCount boxType isScaleOut
        remoteRank qpSet isReduction complexCollective isRoot =
          .ok { qpn := qpn, disregardRank := if isScaleOut = true then true else d } := by
    intro qpi d hsw
    obtain ⟨qpn, hq⟩ := hqpn qpi
    exact ⟨qpn, by rw [hkey qpi d hsw, hq]⟩
  refine ⟨?_, ?_, ?_, ?_⟩
  · intro hop
    have hsw : ∃ qpi, getBaseQpAndUsageSwitch k collectiveOp isSend isComplexCollective
        isReductionInIMB isHierarchical boxType isScaleOut isReduction complexCollective isRoot
        oob = .ok (qpi, true) := by
      rcases hop with h | h | h | h <;> subst h <;> cases isSend <;> exact ⟨_, rfl⟩
    obtain ⟨qpi, hsw⟩ := hsw
    obtain ⟨qpn, hq⟩ := hret qpi true hsw
    exact ⟨qpn, by rw [hq]; simp⟩
  · intro hso h1 h2
    obtain ⟨qpi, d, hsw⟩ := getBaseQpAndUsageSwitch_total k collectiveOp isSend
      isComplexCollective isReductionInIMB isHierarchical boxType isScaleOut isReduction
      complexCollective isRoot oob h1 h2
    obtain ⟨qpn, hq⟩ := hret qpi d hsw
    exact ⟨qpn, by rw [hq, if_pos hso]⟩
  · intro hop hso
    have hsw : ∃ qpi, getBaseQpAndUsageSwitch k collectiveOp isSend isComplexCollective
        isReductionInIMB isHierarchical boxType isScaleOut isReduction complexCollective isRoot
        oob = .ok (qpi, false) := by
      subst hop; subst hso; cases isSend <;> exact ⟨_, rfl⟩
    obtain ⟨qpi, hsw⟩ := hsw
    obtain ⟨qpn, hq⟩ := hret qpi false hsw
    exact ⟨qpn, by rw [hq]; simp [hso]⟩
  · intro hop
    exact getBaseQpAndUsage_default k m comm myRank scaleupGroupSize collectiveOp isSend
      isComplexCollective isReductionInIMB isHierarchical count cellCount boxType isScaleOut
      remoteRank qpSet isReduction complexCollective isRoot hop


/-- Witness of C23 (amended): the connections of rank 5 in `openScaleOut`, a
Broadcast send. -/
theorem getBaseQpAndUsage_disregardRank_witness :
    (QPManagerGaudi3.scaleOut openScaleOut).getBaseQpAndUsage consts0 0 1 4 eHCLBroadcast true
        false false true 1024 256 0 true 5 0 false eHCLBroadcast false =
      .ok { qpn := 140, disregardRank := true } ∧
    (eHCLAll2All = eHCLAll2All → false = false →
      ∃ qpn, (QPManagerGaudi3.scaleOut openScaleOut).getBaseQpAndUsage consts0 0 1 4
        eHCLAll2All true false false true 1024 256 0 false 5 0 false eHCLAll2All false =
          .ok { qpn := qpn, disregardRank := false }) :=
  ⟨rfl, (getBaseQpAndUsage_disregardRank consts0 (QPManagerGaudi3.scaleOut openScaleOut) 0 1 4
    eHCLAll2All true false false true 1024 256 0 false 5 0 false eHCLAll2All false
    (Or.inr (by decide)) (fun q => by cases q <;> exact ⟨_, rfl⟩)).2.2.1⟩

/-! ## Theorems: divisions of the slice-count search -/

theorem lastSliceCountOf_pos {T R k : Nat} (hT : T < 2 ^ 32) (h : sumSlicesOf T R k < T) :
    lastSliceCountOf T R k = T - sumSlicesOf T R k ∧ lastSliceCountOf T R k ≠ 0 := by
  have e : lastSliceCountOf T R k = T - sumSlicesOf T R k := u32_of_lt (by omega)
  exact ⟨e, by omega⟩

theorem getNumSlicesBody_eq (rc : RemainderCalculator) (count T R obc mbc k : Nat)
    (st : SliceSearch) (hk : k ≠ 0) (hR : R ≠ 0) (hT : T < 2 ^ 32) :
    getNumSlicesBody rc count T R obc mbc k st =
      if T ≤ sumSlicesOf T R k then .next st
      else if rc.isValidSlicing obc (sliceCountOf T R k) count k R mbc = true then
        if sliceRatioOf T R k < st.minSliceRatio then
          .next { numSlices := k, minSliceRatio := sliceRatioOf T R k,
                  optimalBufferCount := sliceCountOf T R k }
        else .next st
      else if sliceCountOf T R k < mbc ∨
          st.minSliceRatio = 2 ^ SLICE_RATIO_FIXED_POINT_ACCURACY then .stop st
      else .next st := by
  have hsc : u32 ((u32 ((T + k - 1) / k) + R - 1) / R * R) = sliceCountOf T R k := rfl
  have hss : u32 (sliceCountOf T R k * sub32 k 1) = sumSlicesOf T R k := rfl
  simp only [getNumSlicesBody, div_round_up, hk, hR, if_false]
  rw [hsc, hss]
  by_cases h1 : T ≤ sumSlicesOf T R k
  · rw [if_pos h1, if_pos h1]
  · rw [if_neg h1, if_neg h1]
    have hlast := (lastSliceCountOf_pos hT (Nat.lt_of_not_le h1)).2
    by_cases h2 : rc.isValidSlicing obc (sliceCountOf T R k) count k R mbc = true
    · rw [if_pos h2, if_pos h2]
      have hdiv : div (u32 (sliceCountOf T R k * 2 ^ SLICE_RATIO_FIXED_POINT_ACCURACY))
          (u32 (T - sumSlicesOf T R k)) = .ok (sliceRatioOf T R k) := by
        change div _ (lastSliceCountOf T R k) = _
        simp only [div, hlast, if_false]
        rfl
      rw [hdiv]
    · rw [if_neg h2, if_neg h2]

theorem getNumSlicesLoop_returns (rc : RemainderCalculator) (count T R obc mbc : Nat)
    (hR : R ≠ 0) (hT : T < 2 ^ 32) :
    ∀ (fuel k : Nat) (st : SliceSearch), k ≠ 0 →
      ∃ res, getNumSlicesLoop rc count T R obc mbc fuel k st = .ok res := by
  intro fuel
  induction fuel with
  | zero => intro k st _; exact ⟨st, rfl⟩
  | succ n ih =>
    intro k st hk
    have hk1 : k + 1 ≠ 0 := by omega
    unfold getNumSlicesLoop
    rw [getNumSlicesBody_eq rc count T R obc mbc k st hk hR hT]
    by_cases h1 : T ≤ sumSlicesOf T R k
    · rw [if_pos h1]; exact ih (k + 1) st hk1
    · rw [if_neg h1]
      by_cases h2 : rc.isValidSlicing obc (sliceCountOf T R k) count k R mbc = true
      · rw [if_pos h2]
        by_cases h3 : sliceRatioOf T R k < st.minSliceRatio
        · rw [if_pos h3]; exact ih (k + 1) _ hk1
        · rw [if_neg h3]; exact ih (k + 1) st hk1
      · rw [if_neg h2]
        by_cases h4 : sliceCountOf T R k < mbc ∨
            st.minSliceRatio = 2 ^ SLICE_RATIO_FIXED_POINT_ACCURACY
        · rw [if_pos h4]; exact ⟨st, rfl⟩
        · rw [if_neg h4]; exact ih (k + 1) st hk1

theorem minSlicesOf_ceil {T O : Nat} (hO : 1 ≤ O) (hOT : O < T) (hT : T < 2 ^ 32) :
    minSlicesOf ((T + O - 1) / O) = (T + O - 1) / O ∧ 2 ≤ (T + O - 1) / O ∧
      (T + O - 1) / O ≤ T ∧ O * ((T + O - 1) / O - 1) < T ∧
      (T + 4 < 2 ^ 32 → maxSlicesOf ((T + O - 1) / O) = (T + O - 1) / O + 4) := by
  obtain ⟨c1, c2, c3⟩ := ceil_pred_mul_lt hO hOT
  have hu : u32 ((T + O - 1) / O) = (T + O - 1) / O := u32_of_lt (by omega)
  refine ⟨?_, c1, c2, c3, fun h4 => ?_⟩
  · unfold minSlicesOf
    rw [hu, if_neg (by omega)]
  · unfold maxSlicesOf MAX_NUM_SLICES_SEARCH
    rw [hu, if_neg (by omega)]
    exact u32_of_lt (by omega)

theorem getNumSlicesFirst_eq (rc : RemainderCalculator) (count O T R : Nat)
    (hO : 1 ≤ O) (hOT : O < T) (hT : T < 2 ^ 32) :
    getNumSlicesFirst rc count O T R ((T + O - 1) / O) =
      if rc.isValidSlicing O O count ((T + O - 1) / O) R 0 = true then
        .ok { numSlices := (T + O - 1) / O,
              minSliceRatio := u32 (O * 2 ^ SLICE_RATIO_FIXED_POINT_ACCURACY /
                (T - O * ((T + O - 1) / O - 1))),
              optimalBufferCount := O }
      else
        .ok { numSlices := 0, minSliceRatio := u32 (O * 2 ^ SLICE_RATIO_FIXED_POINT_ACCURACY),
              optimalBufferCount := O } := by
  obtain ⟨_, c1, c2, c3, _⟩ := minSlicesOf_ceil hO hOT hT
  have hO32 : u32 O = O := u32_of_lt (by omega)
  have hsub : sub32 ((T + O - 1) / O) 1 = (T + O - 1) / O - 1 := sub32_one (by omega) (by omega)
  have hlast : u32 (sub64 T (u64 (O * ((T + O - 1) / O - 1)))) =
      T - O * ((T + O - 1) / O - 1) := by
    rw [sub64_of_le (Nat.le_of_lt c3) (by omega)]
    exact u32_of_lt (by omega)
  have h16 : u64 (O * 2 ^ SLICE_RATIO_FIXED_POINT_ACCURACY) =
      O * 2 ^ SLICE_RATIO_FIXED_POINT_ACCURACY := by
    apply u64_of_lt
    unfold SLICE_RATIO_FIXED_POINT_ACCURACY
    omega
  have hne : T - O * ((T + O - 1) / O - 1) ≠ 0 := by omega
  have hdiv : div (u64 (O * 2 ^ SLICE_RATIO_FIXED_POINT_ACCURACY))
      (u32 (sub64 T (u64 (O * sub32 ((T + O - 1) / O) 1)))) =
        .ok (O * 2 ^ SLICE_RATIO_FIXED_POINT_ACCURACY / (T - O * ((T + O - 1) / O - 1))) := by
    rw [hsub, hlast, h16]
    unfold div
    rw [if_neg hne]
  unfold getNumSlicesFirst
  rw [hO32]
  by_cases hv : rc.isValidSlicing O O count ((T + O - 1) / O) R 0 = true
  · rw [if_pos hv, if_pos hv]
    simp only [hdiv]
  · rw [if_neg hv, if_neg hv]

/-- Counterexample of C30: a buffer of 256 elements, 256 elements for one
rank: `minSlices` is 1 and is taken as 2, the first check is accepted, and
its last-slice count `256 - 256 * 1 = 0` is the divider of the first ratio. -/
theorem getNumSlices_divides_by_zero :
    (bufferState 256).getNumSlices conf0 floorCalculator 256 1 =
      .error (.verify .dividerZero) := by
  rfl

/-- C30 (amended): for a call that needs slicing
(`m_optimalBufferCount < totalRankCount`), with `m_optimalBufferCount ≥ 1`,
`numRanks ≥ 1`, a per-rank count that fits 32 bits and a configured factor
that is not zero, and whatever the buffer-validity check answers,
`getNumSlices` never divides by zero: it returns a slice count, or it fails
with the `VERIFY` on `numSlices` that closes it. -/
theorem getNumSlices_no_division_by_zero (cfg : GlobalConf) (rc : RemainderCalculator)
    (s : CommonState) (totalRankCount numRanks : Nat)
    (hO : 1 ≤ s.m_optimalBufferCount) (hslicing : s.m_optimalBufferCount < totalRankCount)
    (hT : totalRankCount < 2 ^ 32) (hR : 1 ≤ numRanks)
    (hf : cfg.HCL_MIN_IMB_SIZE_FACTOR ≠ 0) :
    (∃ n s1, s.getNumSlices cfg rc totalRankCount numRanks = .ok (n, s1)) ∨
      s.getNumSlices cfg rc totalRankCount numRanks = .error (.verify .numSlicesNotFound) := by
  obtain ⟨m1, m2, m3, _, _⟩ := minSlicesOf_ceil hO hslicing hT
  have hO0 : s.m_optimalBufferCount ≠ 0 := by omega
  have hfirst := getNumSlicesFirst_eq rc s.m_count s.m_optimalBufferCount totalRankCount
    numRanks hO hslicing hT
  have hst0 : ∃ st0, getNumSlicesFirst rc s.m_count s.m_optimalBufferCount totalRankCount
      numRanks ((totalRankCount + s.m_optimalBufferCount - 1) / s.m_optimalBufferCount) =
        .ok st0 := by
    rw [hfirst]
    split <;> exact ⟨_, rfl⟩
  obtain ⟨st0, hst0⟩ := hst0
  obtain ⟨res, hres⟩ := getNumSlicesLoop_returns rc s.m_count totalRankCount numRanks
    (u32 s.m_optimalBufferCount)
    (u32 (s.m_optimalBufferCount / cfg.HCL_MIN_IMB_SIZE_FACTOR)) (by omega) hT
    (maxSlicesOf ((totalRankCount + s.m_optimalBufferCount - 1) / s.m_optimalBufferCount) -
      (totalRankCount + s.m_optimalBufferCount - 1) / s.m_optimalBufferCount)
    ((totalRankCount + s.m_optimalBufferCount - 1) / s.m_optimalBufferCount) st0 (by omega)
  have hd1 : div s.m_optimalBufferCount cfg.HCL_MIN_IMB_SIZE_FACTOR =
      .ok (s.m_optimalBufferCount / cfg.HCL_MIN_IMB_SIZE_FACTOR) := by
    simp only [div, hf, if_false]
  have hd2 : div_round_up totalRankCount s.m_optimalBufferCount =
      .ok ((totalRankCount + s.m_optimalBufferCount - 1) / s.m_optimalBufferCount) := by
    simp only [div_round_up, hO0, if_false]
  unfold CommonState.getNumSlices
  simp only [hd1, hd2]
  rw [m1]
  simp only [hst0, hres]
  split
  · exact Or.inl ⟨_, _, rfl⟩
  · exact Or.inr rfl

/-- Witness of C30 (amended): a buffer of 256 elements and 1001 elements for
one rank. -/
theorem getNumSlices_no_division_by_zero_witness :
    (∃ n s1, (bufferState 256).getNumSlices conf0 floorCalculator 1001 1 = .ok (n, s1)) ∨
      (bufferState 256).getNumSlices conf0 floorCalculator 1001 1 =
        .error (.verify .numSlicesNotFound) :=
  getNumSlices_no_division_by_zero conf0 floorCalculator (bufferState 256) 1001 1 (by decide)
    (by decide) (by decide) (by decide) (by decide)

/-! ## Theorems: what the slice-count search returns -/

theorem ceilDiv_le_self (T : Nat) {k : Nat} (hk : 1 ≤ k) : (T + k - 1) / k ≤ T := by
  rcases Nat.eq_zero_or_pos T with h0 | h0
  · subst h0
    rw [Nat.zero_add]
    exact Nat.le_of_eq (Nat.div_eq_of_lt (by omega))
  · have e : T + k - 1 = (T - 1) + k := by omega
    rw [e, Nat.add_div_right _ (by omega)]
    have := Nat.div_le_self (T - 1) k
    omega

theorem le_ceilDiv_mul (T : Nat) {k : Nat} (hk : 1 ≤ k) : T ≤ (T + k - 1) / k * k := by
  have h := Nat.lt_div_mul_add (a := T + k - 1) (b := k) (by omega)
  omega

theorem sliceCountOf_eq {T R k : Nat} (hk : 1 ≤ k) (hR : 1 ≤ R) (h : T + R ≤ 2 ^ 32) :
    sliceCountOf T R k = ((T + k - 1) / k + R - 1) / R * R := by
  have h1 := ceilDiv_le_self T hk
  have h2 : ((T + k - 1) / k + R - 1) / R * R ≤ (T + k - 1) / k + R - 1 :=
    Nat.div_mul_le_self _ _
  unfold sliceCountOf
  rw [u32_of_lt (show (T + k - 1) / k < 2 ^ 32 by omega)]
  exact u32_of_lt (by omega)

theorem sliceCountOf_facts {T R k : Nat} (hk : 1 ≤ k) (hR : 1 ≤ R) (h : T + R ≤ 2 ^ 32) :
    R ∣ sliceCountOf T R k ∧ T ≤ sliceCountOf T R k * k ∧ sliceCountOf T R k < T + R := by
  rw [sliceCountOf_eq hk hR h]
  have h1 := ceilDiv_le_self T hk
  have h2 : ((T + k - 1) / k + R - 1) / R * R ≤ (T + k - 1) / k + R - 1 :=
    Nat.div_mul_le_self _ _
  have h3 : (T + k - 1) / k ≤ ((T + k - 1) / k + R - 1) / R * R :=
    le_ceilDiv_mul _ hR
  have h4 := le_ceilDiv_mul T hk
  refine ⟨Dvd.intro_left _ rfl, ?_, by omega⟩
  exact le_trans h4 (Nat.mul_le_mul_right _ h3)

/-- Counterexample of C24: a buffer of 256 elements, 1024 elements for each of
3 ranks: the first check accepts the slicing with the maximal buffer size, no
rounded candidate has a smaller ratio, and the count stays 256, which is not a
multiple of 3. -/
theorem getNumSlices_keeps_unrounded_count :
    (bufferState 256).getNumSlices conf0 floorCalculator 1024 3 =
        .ok (4, { bufferState 256 with m_optimalBufferCount := 256 }) ∧
      ¬ (3 ∣ 256) := by
  refine ⟨rfl, by decide⟩

/-- C24 (amended): when `getNumSlices(totalRankCount, numRanks)` returns (the
counts fitting 32 bits), either the first check accepted the slicing with the
maximal buffer size and `m_optimalBufferCount` is left as the caller set it,
or the search replaced it by the slice count of the returned candidate, which
is a multiple of `numRanks` and leaves the final slice at least one
element. -/
theorem getNumSlices_multiple_or_unchanged (cfg : GlobalConf) (rc : RemainderCalculator)
    (s s1 : CommonState) (totalRankCount numRanks n : Nat)
    (h : s.getNumSlices cfg rc totalRankCount numRanks = .ok (n, s1))
    (hsmall : totalRankCount + numRanks ≤ 2 ^ 32) :
    (s1.m_optimalBufferCount = s.m_optimalBufferCount ∧
        rc.isValidSlicing (u32 s.m_optimalBufferCount) (u32 s.m_optimalBufferCount) s.m_count
          n numRanks 0 = true) ∨
      (numRanks ∣ s1.m_optimalBufferCount ∧
        s1.m_optimalBufferCount = sliceCountOf totalRankCount numRanks n ∧
        sumSlicesOf totalRankCount numRanks n < totalRankCount) := by
  obtain ⟨q, O1, _, hs1, hn, _, _, hcase⟩ := getNumSlices_cases cfg rc s s1 totalRankCount
    numRanks n h
  have hO1 : s1.m_optimalBufferCount = O1 := by rw [hs1]
  rcases hcase with ⟨e1, e2, e3⟩ | ⟨e1, e2, e3⟩
  · left
    rw [hO1, e1]
    exact ⟨e2, e3⟩
  · right
    rw [hO1, e2]
    exact ⟨(sliceCountOf_facts (by omega) (by omega) hsmall).1, rfl, e3⟩

/-- Witness of C24 (amended): a buffer of 256 elements and 1001 elements for
one rank: the search returns 4 slices of 251 elements. -/
theorem getNumSlices_multiple_or_unchanged_witness :
    (searched251.m_optimalBufferCount = (bufferState 256).m_optimalBufferCount ∧
        floorCalculator.isValidSlicing (u32 (bufferState 256).m_optimalBufferCount)
          (u32 (bufferState 256).m_optimalBufferCount) (bufferState 256).m_count 4 1 0 = true) ∨
      (1 ∣ searched251.m_optimalBufferCount ∧
        searched251.m_optimalBufferCount = sliceCountOf 1001 1 4 ∧
        sumSlicesOf 1001 1 4 < 1001) :=
  getNumSlices_multiple_or_unchanged conf0 floorCalculator (bufferState 256) searched251
    1001 1 4 rfl (by decide)

/-- Why the search theorems assume a validity check that accepts without a
minimum what it accepts with one: with a buffer of 2 elements, 3 elements for
one rank and a calculator that accepts only slices filling the buffer, and only
when a minimum is asked for, the candidate of 2 slices (2 elements, the last 1)
is valid, its ratio 32 is not below the bound `2 << 4`, and `getNumSlices`
fails. -/
theorem getNumSlices_fails_with_valid_candidate :
    (bufferState 2).getNumSlices conf0 fullBufferCalculator 3 1 =
        .error (.verify .numSlicesNotFound) ∧
      div_round_up 3 (bufferState 2).m_optimalBufferCount = .ok 2 ∧
      minSlicesOf 2 ≤ 2 ∧ 2 < maxSlicesOf 2 ∧
      validCandidate fullBufferCalculator (bufferState 2).m_count 3 1 2 1 2 = true := by
  refine ⟨rfl, rfl, by decide, by decide, by decide⟩

/-! ## Theorems: a buffer used in place, the addresses of the slices -/
/-- C31: when `checkInPlaceOp` detects in-place for a ReduceScatter or an
AllGather on a rank with `myRank < commSize` (the communicator size an `int`,
the 64-bit sums of the full buffer not overflowing), both sizes are returned
and the per-rank buffer lies inside the full buffer: for ReduceScatter
`[recvAddr, recvAddr + calcRecvAddrSize)` is inside
`[sendAddr, sendAddr + calcSendAddrSize)`, for AllGather
`[sendAddr, sendAddr + calcSendAddrSize)` is inside
`[recvAddr, recvAddr + calcRecvAddrSize)`. -/
theorem inPlace_buffer_contained (s s1 : CommonState)
    (hop : s.m_collectiveOp = eHCLReduceScatter ∨ s.m_collectiveOp = eHCLAllGather)
    (hr : s.m_dynamicComm.myRank < s.m_dynamicComm.commSize)
    (hc : s.m_dynamicComm.commSize < 2 ^ 31)
    (hsend : s.m_collectiveOp = eHCLReduceScatter →
      s.m_sendBufferAddr + s.m_count * s.m_dataTypeSizeInBytes < 2 ^ 64)
    (hrecv : s.m_collectiveOp = eHCLAllGather →
      s.m_recvBufferAddr + s.m_count * s.m_dataTypeSizeInBytes * s.m_dynamicComm.commSize <
        2 ^ 64)
    (h : s.checkInPlaceOp = .ok s1) (hin : s1.m_inPlace = true) :
    ∃ sendSize recvSize, s.calcSendAddrSize = .ok sendSize ∧
      s.calcRecvAddrSize = .ok recvSize ∧
      (s.m_collectiveOp = eHCLReduceScatter →
        s.m_sendBufferAddr ≤ s.m_recvBufferAddr ∧
          s.m_recvBufferAddr + recvSize ≤ s.m_sendBufferAddr + sendSize) ∧
      (s.m_collectiveOp = eHCLAllGather →
        s.m_recvBufferAddr ≤ s.m_sendBufferAddr ∧
          s.m_sendBufferAddr + sendSize ≤ s.m_recvBufferAddr + recvSize) := by
  have hc32 : u32 s.m_dynamicComm.commSize = s.m_dynamicComm.commSize := u32_of_lt (by omega)
  have hc64 : u64 s.m_dynamicComm.commSize = s.m_dynamicComm.commSize := u64_of_lt (by omega)
  have hcomm : s.m_dataTypeSizeInBytes * s.m_count = s.m_count * s.m_dataTypeSizeInBytes :=
    Nat.mul_comm _ _
  rcases hop with hop | hop
  · have hD := hsend hop
    have hD64 : u64 (s.m_count * s.m_dataTypeSizeInBytes) = s.m_count * s.m_dataTypeSizeInBytes :=
      u64_of_lt (by omega)
    have hq : s.m_count * s.m_dataTypeSizeInBytes / s.m_dynamicComm.commSize *
        (s.m_dynamicComm.myRank + 1) ≤ s.m_count * s.m_dataTypeSizeInBytes :=
      Nat.le_trans (Nat.mul_le_mul_left _ hr) (Nat.div_mul_le_self _ _)
    rw [Nat.mul_add, Nat.mul_one] at hq
    unfold CommonState.checkInPlaceOp at h
    simp only [hop, hc32, hD64] at h
    rw [if_neg (by omega)] at h
    simp only [Except.ok.injEq] at h
    subst h
    simp only [decide_eq_true_eq] at hin
    unfold CommonState.calcSendAddrSize CommonState.calcRecvAddrSize
    simp only [hop, hcomm, hD64, hc64]
    rw [if_neg (by omega)]
    generalize s.m_count * s.m_dataTypeSizeInBytes / s.m_dynamicComm.commSize = X at hin hq ⊢
    generalize hY : X * s.m_dynamicComm.myRank = Y at hin hq
    rw [u64_of_lt (show Y < 2 ^ 64 by omega)] at hin
    rw [u64_of_lt (by omega)] at hin
    refine ⟨_, _, rfl, rfl, fun _ => ⟨by omega, by omega⟩, fun hh => ?_⟩
    cases hh
  · have hD := hrecv hop
    have hle : s.m_count * s.m_dataTypeSizeInBytes * (s.m_dynamicComm.myRank + 1) ≤
        s.m_count * s.m_dataTypeSizeInBytes * s.m_dynamicComm.commSize :=
      Nat.mul_le_mul_left _ hr
    rw [Nat.mul_add, Nat.mul_one] at hle
    have hD64 : u64 (s.m_count * s.m_dataTypeSizeInBytes) = s.m_count * s.m_dataTypeSizeInBytes :=
      u64_of_lt (by omega)
    unfold CommonState.checkInPlaceOp at h
    simp only [hop, hD64] at h
    simp only [Except.ok.injEq] at h
    subst h
    simp only [decide_eq_true_eq] at hin
    have hi : u64 (s.m_count * s.m_dataTypeSizeInBytes * s.m_dynamicComm.myRank) =
        s.m_count * s.m_dataTypeSizeInBytes * s.m_dynamicComm.myRank := u64_of_lt (by omega)
    rw [hi] at hin
    rw [u64_of_lt (by omega)] at hin
    unfold CommonState.calcSendAddrSize CommonState.calcRecvAddrSize
    simp only [hop, hcomm, hD64, hc64]
    rw [u64_of_lt (by omega)]
    refine ⟨_, _, rfl, rfl, fun hh => ?_, fun _ => ⟨by omega, by omega⟩⟩
    cases hh

/-- Witness of C31: rank 1 of two ranks gathers 4 elements of four bytes from
address 16 into the buffer at address 0: `[16, 32)` lies inside `[0, 32)`. -/
theorem inPlace_buffer_contained_witness :
    ∃ sendSize recvSize, allGatherCall.calcSendAddrSize = .ok sendSize ∧
      allGatherCall.calcRecvAddrSize = .ok recvSize ∧
      (allGatherCall.m_collectiveOp = eHCLReduceScatter →
        allGatherCall.m_sendBufferAddr ≤ allGatherCall.m_recvBufferAddr ∧
          allGatherCall.m_recvBufferAddr + recvSize ≤
            allGatherCall.m_sendBufferAddr + sendSize) ∧
      (allGatherCall.m_collectiveOp = eHCLAllGather →
        allGatherCall.m_recvBufferAddr ≤ allGatherCall.m_sendBufferAddr ∧
          allGatherCall.m_sendBufferAddr + sendSize ≤
            allGatherCall.m_recvBufferAddr + recvSize) :=
  inPlace_buffer_contained allGatherCall { allGatherCall with m_inPlace := true }
    (Or.inr rfl) (by decide) (by decide) (fun h => absurd h (by decide)) (fun _ => by decide)
    rfl rfl

theorem getAddressOffset_eq (s : CommonState) (i n : Nat) (hi : i ≤ n) (hn : n < 2 ^ 32)
    (hfit : n * s.m_sliceOffsetCount * s.m_dataTypeSizeInBytes < 2 ^ 64) :
    s.getAddressOffset i = i * s.m_sliceOffsetCount * s.m_dataTypeSizeInBytes := by
  unfold CommonState.getAddressOffset
  rw [u32_of_lt (by omega)]
  have hle : i * s.m_sliceOffsetCount * s.m_dataTypeSizeInBytes ≤
      n * s.m_sliceOffsetCount * s.m_dataTypeSizeInBytes :=
    Nat.mul_le_mul_right _ (Nat.mul_le_mul_right _ hi)
  rcases Nat.eq_zero_or_pos s.m_dataTypeSizeInBytes with h0 | h0
  · rw [h0, Nat.mul_zero, Nat.mul_zero]
    rfl
  · have h1 : i * s.m_sliceOffsetCount ≤ i * s.m_sliceOffsetCount * s.m_dataTypeSizeInBytes :=
      Nat.le_mul_of_pos_right _ h0
    rw [u64_of_lt (show i * s.m_sliceOffsetCount < 2 ^ 64 by omega), u64_of_lt (by omega)]

theorem calcMaxSliceCounts_sliced (cfg : GlobalConf) (rc : RemainderCalculator)
    (s s1 : CommonState)
    (hop : s.m_collectiveOp = eHCLSimpleBroadcast ∨ s.m_collectiveOp = eHCLGather ∨
      s.m_collectiveOp = eHCLAllGather ∨ s.m_collectiveOp = eHCLScatter ∨
      s.m_collectiveOp = eHCLReduceScatter ∨ s.m_collectiveOp = eHCLAll2All ∨
      s.m_collectiveOp = eHCLNoCollective)
    (h : CommonState.calcMaxSliceCounts cfg rc s = .ok s1) (hs : s1.m_isSlicing = true) :
    s1.m_sliceOffsetCount = s1.m_optimalBufferCount ∧
      s1.m_rankScaleUpCount = s1.m_optimalBufferCount ∧
      s1.m_dataTypeSizeInBytes = s.m_dataTypeSizeInBytes := by
  unfold CommonState.calcMaxSliceCounts at h
  split at h
  · cases h
  · rename_i o _
    split at h
    · cases h
    · rename_i s2 T R hst
      obtain ⟨a, b, c, rfl⟩ := calcStrideCounts_frame rc _ s2 T R hst
      simp only [] at h
      split at h
      · simp only [Except.ok.injEq] at h
        subst h
        cases hs
      · split at h
        · cases h
        · rename_i n s3 hn
          obtain ⟨_, O1, _, rfl, _⟩ := getNumSlices_cases cfg rc _ s3 T R n hn
          unfold CommonState.calcNonFinalCounts at h
          rcases hop with hop | hop | hop | hop | hop | hop | hop <;>
            simp only [hop, reduceCtorEq, if_false, if_true, Except.ok.injEq] at h <;>
            subst h <;> exact ⟨rfl, rfl, rfl⟩

theorem setHasBufferSize_offsets (s : CommonState) :
    s.setHasBufferSize.m_sliceOffsetCount = s.m_sliceOffsetCount ∧
      s.setHasBufferSize.m_dataTypeSizeInBytes = s.m_dataTypeSizeInBytes := by
  unfold CommonState.setHasBufferSize
  split <;> exact ⟨rfl, rfl⟩

theorem calcFinalCounts_offsets (rc : RemainderCalculator) (s s1 : CommonState) (t : Nat)
    (h : CommonState.calcFinalCounts rc s t = .ok s1) :
    s1.m_sliceOffsetCount = s.m_sliceOffsetCount ∧
      s1.m_dataTypeSizeInBytes = s.m_dataTypeSizeInBytes := by
  unfold CommonState.calcFinalCounts at h
  dsimp only at h
  split at h <;> (try split at h) <;> (try split at h) <;>
    first
    | contradiction
    | (simp only [Except.ok.injEq] at h; subst h; exact ⟨rfl, rfl⟩)

theorem calcSliceCounts_offsets (rc : RemainderCalculator) (s s1 : CommonState) (i : Nat)
    (h : CommonState.calcSliceCounts rc s i = .ok s1) (k : Nat) :
    s1.getAddressOffset k = s.getAddressOffset k := by
  have key : s1.m_sliceOffsetCount = s.m_sliceOffsetCount ∧
      s1.m_dataTypeSizeInBytes = s.m_dataTypeSizeInBytes := by
    unfold CommonState.calcSliceCounts at h
    split at h
    · split at h
      · cases h
      · split at h
        · cases h
        · rename_i s2 h2
          simp only [Except.ok.injEq] at h
          subst h
          obtain ⟨a, b⟩ := calcFinalCounts_offsets rc s s2 _ h2
          obtain ⟨c, d⟩ := setHasBufferSize_offsets s2
          exact ⟨c.trans a, d.trans b⟩
    · simp only [Except.ok.injEq] at h
      subst h
      exact ⟨rfl, rfl⟩
  unfold CommonState.getAddressOffset
  rw [key.1, key.2]

/-- C32: for a SimpleBroadcast, Gather, AllGather, Scatter, ReduceScatter,
All-to-All or point-to-point call that `calcMaxSliceCounts` planned as sliced
(the slice count and the byte extent of the slices fitting their machine
types), `m_sliceOffsetCount = m_rankScaleUpCount = m_optimalBufferCount`, the
chosen count; the offset of slice 0 is 0; every slice before the final one
keeps the planned state, and the offset of the next slice is the end of its
range `[getAddressOffset(i), getAddressOffset(i) + count * elementSize)`; for
`i < j` the range of slice `i` ends at or before the offset of slice `j`
(strictly before it starts, when a slice is not empty), so the ranges are in
increasing order and pairwise disjoint; `calcSliceCounts` changes no offset. -/
theorem sliced_ranges_contiguous (cfg : GlobalConf) (rc : RemainderCalculator)
    (s s1 : CommonState)
    (hop : s.m_collectiveOp = eHCLSimpleBroadcast ∨ s.m_collectiveOp = eHCLGather ∨
      s.m_collectiveOp = eHCLAllGather ∨ s.m_collectiveOp = eHCLScatter ∨
      s.m_collectiveOp = eHCLReduceScatter ∨ s.m_collectiveOp = eHCLAll2All ∨
      s.m_collectiveOp = eHCLNoCollective)
    (h : CommonState.calcMaxSliceCounts cfg rc s = .ok s1) (hs : s1.m_isSlicing = true)
    (hn : s1.m_sliceIterations < 2 ^ 32)
    (hfit : s1.m_sliceIterations * s1.m_optimalBufferCount * s1.m_dataTypeSizeInBytes <
      2 ^ 64) :
    s1.m_sliceOffsetCount = s1.m_optimalBufferCount ∧
      s1.m_rankScaleUpCount = s1.m_optimalBufferCount ∧
      s1.getAddressOffset 0 = 0 ∧
      (∀ i, i + 1 < s1.m_sliceIterations →
        CommonState.calcSliceCounts rc s1 i = .ok s1 ∧
        s1.getAddressOffset (i + 1) =
          s1.getAddressOffset i + s1.m_rankScaleUpCount * s1.m_dataTypeSizeInBytes) ∧
      (∀ i j, i < j → j < s1.m_sliceIterations →
        s1.getAddressOffset i + s1.m_rankScaleUpCount * s1.m_dataTypeSizeInBytes ≤
          s1.getAddressOffset j ∧
        (0 < s1.m_optimalBufferCount * s1.m_dataTypeSizeInBytes →
          s1.getAddressOffset i < s1.getAddressOffset j)) ∧
      (∀ i sf k, CommonState.calcSliceCounts rc s1 i = .ok sf →
        sf.getAddressOffset k = s1.getAddressOffset k) := by
  obtain ⟨ho, hr, _⟩ := calcMaxSliceCounts_sliced cfg rc s s1 hop h hs
  have hfit2 : s1.m_sliceIterations * s1.m_sliceOffsetCount * s1.m_dataTypeSizeInBytes <
      2 ^ 64 := by rw [ho]; exact hfit
  have off : ∀ i, i ≤ s1.m_sliceIterations → s1.getAddressOffset i =
      i * (s1.m_optimalBufferCount * s1.m_dataTypeSizeInBytes) := by
    intro i hi
    rw [getAddressOffset_eq s1 i _ hi hn hfit2, ho, Nat.mul_assoc]
  refine ⟨ho, hr, ?_, ?_, ?_, ?_⟩
  · rw [off 0 (Nat.zero_le _), Nat.zero_mul]
  · intro i hi
    constructor
    · unfold CommonState.calcSliceCounts
      rw [if_neg]
      rw [sub32_one (by omega) hn]
      omega
    · rw [off _ (by omega), off _ (by omega), hr, Nat.add_mul, Nat.one_mul]
  · intro i j hij hj
    rw [off _ (by omega), off _ (by omega), hr]
    have h1 : (i + 1) * (s1.m_optimalBufferCount * s1.m_dataTypeSizeInBytes) ≤
        j * (s1.m_optimalBufferCount * s1.m_dataTypeSizeInBytes) :=
      Nat.mul_le_mul_right _ hij
    rw [Nat.add_mul, Nat.one_mul] at h1
    exact ⟨h1, fun hp => by omega⟩
  · intro i sf k hsf
    exact calcSliceCounts_offsets rc s1 sf i hsf k

/-- Witness of C32: the AllGather of 2000 elements per rank on four ranks,
planned as ten slices of 200 elements of four bytes: slice 3 covers the bytes
`[2400, 3200)` and slice 4 starts at byte 3200. -/
theorem sliced_ranges_contiguous_witness :
    slicedAllGather.m_sliceOffsetCount = 200 ∧ slicedAllGather.m_rankScaleUpCount = 200 ∧
      slicedAllGather.getAddressOffset 3 = 2400 ∧
      slicedAllGather.getAddressOffset 4 =
        slicedAllGather.getAddressOffset 3 +
          slicedAllGather.m_rankScaleUpCount * slicedAllGather.m_dataTypeSizeInBytes :=
  have h := sliced_ranges_contiguous conf0 floorCalculator (plannable eHCLAllGather comm4 2000)
    slicedAllGather (Or.inr (Or.inr (Or.inl rfl))) rfl rfl (by decide) (by decide)
  ⟨h.1, h.2.1, rfl, (h.2.2.2.1 3 (by decide)).2⟩

/-! ## Theorems: the box iteration of a hop, the own box, the staging amount -/

theorem sendBoxIter_eq (B A T : Nat) (hA : A < B) (hT : T < B) (hB : 2 * B ≤ 2 ^ 32) :
    mod (sub32 (u32 (T + B)) A) B = .ok ((T + B - A) % B) := by
  have e : sub32 (u32 (T + B)) A = T + B - A := by
    unfold sub32 u32
    omega
  rw [e]
  unfold mod
  rw [if_neg (by omega)]

theorem boxIter_mod (B A T : Nat) (hA : A < B) (hT : T < B) :
    (T + B - A) % B = (if A ≤ T then T - A else T + B - A) ∧ (T + B - A) % B < B ∧
      ((T + B - A) % B = 0 ↔ A = T) := by
  by_cases h : A ≤ T
  · have e : T + B - A = (T - A) + B := by omega
    rw [if_pos h, e, Nat.add_mod_right, Nat.mod_eq_of_lt (by omega)]
    omega
  · rw [if_neg h, Nat.mod_eq_of_lt (by omega)]
    omega

/-- C33: the sender and the receiver of one hop between boxes derive the same
box-iteration index: for boxes `A` and `T` below `m_boxIterations` (twice the
count fitting 32 bits), the index `mod(T + boxIterations - A, boxIterations)`
that `NativeScaleoutDescriptor::run` computes in box `A` for its send to box
`T` is what `calcBoxIterRecv` returns in box `T` for the source box `A`; the
index is below `m_boxIterations` and is 0 exactly when `A = T`; so the
`doReduction` of the send is decided by the receiver's index. -/
theorem boxIter_agreement (snd : SliceState) (rcv : CommonState) (A T : Nat)
    (hA : A < snd.m_boxIterations) (hT : T < snd.m_boxIterations)
    (hB : 2 * snd.m_boxIterations ≤ 2 ^ 32)
    (hsend : snd.m_isSend = true) (hsA : snd.m_dynamicComm.myPod = A) (hsT : snd.m_boxNum = T)
    (hrT : rcv.m_dynamicComm.myPod = T) (hrB : rcv.m_boxIterations = snd.m_boxIterations) :
    mod (sub32 (u32 (snd.m_boxNum + snd.m_boxIterations)) snd.m_dynamicComm.myPod)
        snd.m_boxIterations = .ok ((T + snd.m_boxIterations - A) % snd.m_boxIterations) ∧
      rcv.calcBoxIterRecv ⟨A⟩ = (T + snd.m_boxIterations - A) % snd.m_boxIterations ∧
      (T + snd.m_boxIterations - A) % snd.m_boxIterations < snd.m_boxIterations ∧
      ((T + snd.m_boxIterations - A) % snd.m_boxIterations = 0 ↔ A = T) ∧
      Except.map ScaleOutCollectiveOp.m_doReduction (NativeScaleoutDescriptor.run snd) =
        .ok (snd.m_isReductionCollective &&
          decide (snd.m_reproScaleoutBuffersAmount ≤ rcv.calcBoxIterRecv ⟨A⟩)) := by
  obtain ⟨hm, hlt, hz⟩ := boxIter_mod snd.m_boxIterations A T hA hT
  have hs := sendBoxIter_eq snd.m_boxIterations A T hA hT hB
  have hr : rcv.calcBoxIterRecv ⟨A⟩ = (T + snd.m_boxIterations - A) % snd.m_boxIterations := by
    unfold CommonState.calcBoxIterRecv
    simp only [hrT, hrB]
    have e : sub32 (u32 (snd.m_boxIterations + T)) A = snd.m_boxIterations + T - A := by
      unfold sub32 u32
      omega
    rw [e, hm]
    by_cases h : A ≤ T
    · rw [if_pos (by omega), if_pos h]
      unfold sub32 u32
      omega
    · rw [if_neg (by omega), if_neg h]
      omega
  refine ⟨by rw [hsT, hsA]; exact hs, hr, hlt, hz, ?_⟩
  unfold NativeScaleoutDescriptor.run
  simp only [hsend, hsT, hsA, hs, hr]
  rfl

/-- Witness of C33: the send of box 0 to box 1 over two box iterations has
index 1, as the receiver in box 1 computes for source box 0. -/
theorem boxIter_agreement_witness :
    Except.map ScaleOutCollectiveOp.m_doReduction (NativeScaleoutDescriptor.run sendToBox1) =
        .ok true ∧ stagedInBox1.calcBoxIterRecv ⟨0⟩ = 1 :=
  have h := boxIter_agreement sendToBox1 stagedInBox1 0 1 (by decide) (by decide) (by decide)
    rfl rfl rfl rfl rfl
  ⟨h.2.2.2.2, h.2.1⟩

/-- C34: a hop whose box is the rank's own box never requires scale-out: for
every sub-operation (also those for which every other box ends in the failed
`VERIFY`), every collective and both directions, `isScaleoutRequired` returns
false without failing when `m_boxNum` is the rank's own box. -/
theorem isScaleoutRequired_own_box (s : CommonState) (isSend : Bool)
    (sendBoxNumInfo : BoxNumInfo) (h : sendBoxNumInfo.m_boxNum = s.m_dynamicComm.myPod) :
    s.isScaleoutRequired isSend sendBoxNumInfo = .ok false := by
  unfold CommonState.isScaleoutRequired
  rw [if_pos h]

/-- Witness of C34: a rank of box 0 of `comm8` running the sub-operation
AllReduce, which is absent from the policy table, on a hop to box 0. -/
theorem isScaleoutRequired_own_box_witness :
    (⟨0⟩ : BoxNumInfo).m_boxNum =
        (hopState eHCLAllReduce eHCLAllReduce 0 0 true false).m_dynamicComm.myPod ∧
      (hopState eHCLAllReduce eHCLAllReduce 0 0 true false).isScaleoutRequired true ⟨0⟩ =
        .ok false :=
  ⟨rfl, isScaleoutRequired_own_box _ true ⟨0⟩ rfl⟩

/-- C39: for every box-iteration count (in particular every count that is at
least 1) and every staging-buffer amount whose double fits 32 bits,
`calcReproScaleoutLongterm` returns: its closing `VERIFY` holds, and the
long-term amount it stores is at least 1 and at most
`m_reproScaleoutBuffersAmount + 1`; nothing else of the state changes. -/
theorem calcReproScaleoutLongterm_bounds (s : CommonState)
    (ha : 2 * s.m_reproScaleoutBuffersAmount < 2 ^ 32) :
    ∃ v, s.calcReproScaleoutLongterm = .ok { s with m_reproScaleoutLongtermAmount := v } ∧
      1 ≤ v ∧ v ≤ s.m_reproScaleoutBuffersAmount + 1 := by
  have h2 : u32 (2 * s.m_reproScaleoutBuffersAmount) = 2 * s.m_reproScaleoutBuffersAmount :=
    u32_of_lt ha
  have h1 : u32 (s.m_reproScaleoutBuffersAmount + 1) = s.m_reproScaleoutBuffersAmount + 1 :=
    u32_of_lt (by omega)
  have key : ∀ v : Nat, 1 ≤ v → v ≤ s.m_reproScaleoutBuffersAmount + 1 →
      (if v ≤ u32 (s.m_reproScaleoutBuffersAmount + 1) then
          (Except.ok { s with m_reproScaleoutLongtermAmount := v } : Except HclFailure CommonState)
        else .error (.verify .reproLongtermAmount)) =
        .ok { s with m_reproScaleoutLongtermAmount := v } := by
    intro v _ hv
    rw [h1, if_pos hv]
  unfold CommonState.calcReproScaleoutLongterm
  simp only []
  by_cases hc : s.m_isMultiPod = true ∧ (s.m_collectiveOp = eHCLReduceScatter ∨
      s.m_collectiveOp = eHCLAllReduce ∨ s.m_collectiveOp = eHCLReduce)
  · rw [if_pos hc]
    by_cases hb : s.m_boxIterations ≤ s.m_reproScaleoutBuffersAmount
    · rw [if_pos hb]
      exact ⟨1, key 1 (by omega) (by omega), by omega, by omega⟩
    · rw [if_neg hb]
      by_cases hb2 : s.m_boxIterations ≤ u32 (2 * s.m_reproScaleoutBuffersAmount)
      · rw [if_pos hb2]
        rw [h2] at hb2
        have e : sub32 (u32 (s.m_boxIterations + 1)) s.m_reproScaleoutBuffersAmount =
            s.m_boxIterations + 1 - s.m_reproScaleoutBuffersAmount := by
          unfold sub32 u32
          omega
        rw [e]
        exact ⟨_, key _ (by omega) (by omega), by omega, by omega⟩
      · rw [if_neg hb2]
        exact ⟨_, key _ (by omega) (by omega), by omega, by omega⟩
  · rw [if_neg hc]
    exact ⟨1, key 1 (by omega) (by omega), by omega, by omega⟩

/-- Witness of C39: two box iterations and one staging buffer give the
long-term amount 2. -/
theorem calcReproScaleoutLongterm_bounds_witness :
    2 * stagedAllReduce.m_reproScaleoutBuffersAmount < 2 ^ 32 ∧
      ∃ v, stagedAllReduce.calcReproScaleoutLongterm =
          .ok { stagedAllReduce with m_reproScaleoutLongtermAmount := v } ∧
        1 ≤ v ∧ v ≤ stagedAllReduce.m_reproScaleoutBuffersAmount + 1 :=
  ⟨by decide, calcReproScaleoutLongterm_bounds stagedAllReduce (by decide)⟩

/-! ## Theorems: the roles of a connection -/

theorem getBaseQpAndUsageSwitch_role (k : Gaudi3Constants) (collectiveOp : HCL_CollectiveOp)
    (isSend isComplexCollective isReductionInIMB isHierarchical : Bool) (boxType : Nat)
    (isScaleOut isReduction : Bool) (complexCollective : HCL_CollectiveOp)
    (isRoot outOfBounds : Bool) (qpi : QP_e) (d : Bool)
    (h : getBaseQpAndUsageSwitch k collectiveOp isSend isComplexCollective isReductionInIMB
      isHierarchical boxType isScaleOut isReduction complexCollective isRoot outOfBounds =
        .ok (qpi, d)) :
    (isScaleOut = true → qpi ≠ .QPE_A2A_SEND ∧ qpi ≠ .QPE_A2A_RECV) ∧
      (collectiveOp = eHCLNoCollective ∨ (collectiveOp = eHCLAll2All ∧ isScaleOut = true) →
        qpi = (if isSend = true then QP_e.QPE_RS_SEND else QP_e.QPE_RS_RECV)) := by
  unfold getBaseQpAndUsageSwitch at h
  cases collectiveOp <;> cases isSend <;> cases isScaleOut <;> simp only [] at h <;>
    (try split_ifs at h) <;>
    first
    | contradiction
    | (simp only [Except.ok.injEq, Prod.mk.injEq] at h; obtain ⟨rfl, _⟩ := h; simp)

theorem getBaseQpAndUsage_ok_inv (k : Gaudi3Constants) (m : QPManagerGaudi3)
    (comm myRank scaleupGroupSize : Nat) (collectiveOp : HCL_CollectiveOp)
    (isSend isComplexCollective isReductionInIMB isHierarchical : Bool)
    (count cellCount boxType : Nat) (isScaleOut : Bool) (remoteRank qpSet : Nat)
    (isReduction : Bool) (complexCollective : HCL_CollectiveOp) (isRoot : Bool) (u : QPUsage)
    (h : m.getBaseQpAndUsage k comm myRank scaleupGroupSize collectiveOp isSend
      isComplexCollective isReductionInIMB isHierarchical count cellCount boxType isScaleOut
      remoteRank qpSet isReduction complexCollective isRoot = .ok u) :
    ∃ oob qpi d,
      getBaseQpAndUsageSwitch k collectiveOp isSend isComplexCollective isReductionInIMB
        isHierarchical boxType isScaleOut isReduction complexCollective isRoot oob =
          .ok (qpi, d) ∧
      m.getQPn comm remoteRank (k.qpIndex qpi) qpSet = .ok u.qpn := by
  unfold QPManagerGaudi3.getBaseQpAndUsage at h
  simp only [] at h
  split at h
  · cases h
  · rename_i oob _
    split at h
    · cases h
    · rename_i qpi d hsw
      split at h
      · cases h
      · rename_i qpn hq
        simp only [Except.ok.injEq] at h
        subst h
        exact ⟨oob, qpi, d, hsw, hq⟩

/-- C36: whenever `getBaseQpAndUsage` returns, the role its `switch` selected
(the one whose connection it returns) is, when `isScaleOut` is true, never
`QPE_A2A_SEND` or `QPE_A2A_RECV` (All-to-All is directed to the ReduceScatter
role of its direction), and for point-to-point (`eHCLNoCollective`) it is the
ReduceScatter role of the direction; with helpers `isRsQp` and `isA2AQp` that
recognise the ReduceScatter and All-to-All roles, `allocateQps` (null-submit
off) opens the selected role towards a scale-out peer, and the point-to-point
role towards every rank, peer or not. -/
theorem getBaseQpAndUsage_scaleOut_roles (k : Gaudi3Constants) (m : QPManagerGaudi3)
    (comm myRank scaleupGroupSize : Nat) (collectiveOp : HCL_CollectiveOp)
    (isSend isComplexCollective isReductionInIMB isHierarchical : Bool)
    (count cellCount boxType : Nat) (isScaleOut : Bool) (remoteRank qpSet : Nat)
    (isReduction : Bool) (complexCollective : HCL_CollectiveOp) (isRoot : Bool) (u : QPUsage)
    (isRsQp isA2AQp : Nat → Bool)
    (hRs : ∀ q, isRsQp (k.qpIndex q) = decide (q = .QPE_RS_SEND ∨ q = .QPE_RS_RECV))
    (hA2A : ∀ q, isA2AQp (k.qpIndex q) = decide (q = .QPE_A2A_SEND ∨ q = .QPE_A2A_RECV))
    (h : m.getBaseQpAndUsage k comm myRank scaleupGroupSize collectiveOp isSend
      isComplexCollective isReductionInIMB isHierarchical count cellCount boxType isScaleOut
      remoteRank qpSet isReduction complexCollective isRoot = .ok u) :
    ∃ oob qpi d,
      getBaseQpAndUsageSwitch k collectiveOp isSend isComplexCollective isReductionInIMB
        isHierarchical boxType isScaleOut isReduction complexCollective isRoot oob =
          .ok (qpi, d) ∧
      m.getQPn comm remoteRank (k.qpIndex qpi) qpSet = .ok u.qpn ∧
      (isScaleOut = true → qpi ≠ .QPE_A2A_SEND ∧ qpi ≠ .QPE_A2A_RECV ∧
        HclDeviceGaudi3.allocateQpsOpens isRsQp isA2AQp false true true (k.qpIndex qpi) = true) ∧
      (collectiveOp = eHCLAll2All → isScaleOut = true →
        qpi = (if isSend = true then QP_e.QPE_RS_SEND else QP_e.QPE_RS_RECV)) ∧
      (collectiveOp = eHCLNoCollective →
        qpi = (if isSend = true then QP_e.QPE_RS_SEND else QP_e.QPE_RS_RECV) ∧
        ∀ isPeer, HclDeviceGaudi3.allocateQpsOpens isRsQp isA2AQp false isScaleOut isPeer
          (k.qpIndex qpi) = true) := by
  obtain ⟨oob, qpi, d, hsw, hq⟩ := getBaseQpAndUsage_ok_inv k m comm myRank scaleupGroupSize
    collectiveOp isSend isComplexCollective isReductionInIMB isHierarchical count cellCount
    boxType isScaleOut remoteRank qpSet isReduction complexCollective isRoot u h
  obtain ⟨h1, h2⟩ := getBaseQpAndUsageSwitch_role k collectiveOp isSend isComplexCollective
    isReductionInIMB isHierarchical boxType isScaleOut isReduction complexCollective isRoot oob
    qpi d hsw
  refine ⟨oob, qpi, d, hsw, hq, ?_, fun ha hs => h2 (Or.inr ⟨ha, hs⟩), ?_⟩
  · intro hs
    obtain ⟨ha, hb⟩ := h1 hs
    refine ⟨ha, hb, ?_⟩
    unfold HclDeviceGaudi3.allocateQpsOpens
    simp [hA2A, ha, hb]
  · intro hn
    have hq2 := h2 (Or.inl hn)
    refine ⟨hq2, fun isPeer => ?_⟩
    unfold HclDeviceGaudi3.allocateQpsOpens
    have hr : isRsQp (k.qpIndex qpi) = true := by
      rw [hRs, hq2]
      cases isSend <;> simp
    have ha : isA2AQp (k.qpIndex qpi) = false := by
      rw [hA2A, hq2]
      cases isSend <;> simp
    simp [hr, ha]

/-- Witness of C36: an All-to-All send to rank 5 over `openScaleOut` uses the
ReduceScatter send connection 130. -/
theorem getBaseQpAndUsage_scaleOut_roles_witness :
    ∃ oob qpi d,
      getBaseQpAndUsageSwitch consts0 eHCLAll2All true false false true 0 true false
        eHCLAll2All false oob = .ok (qpi, d) ∧
      (QPManagerGaudi3.scaleOut openScaleOut).getQPn 0 5 (consts0.qpIndex qpi) 0 = .ok 130 ∧
      (true = true → qpi ≠ .QPE_A2A_SEND ∧ qpi ≠ .QPE_A2A_RECV ∧
        HclDeviceGaudi3.allocateQpsOpens isRsQp0 isA2AQp0 false true true
          (consts0.qpIndex qpi) = true) ∧
      (eHCLAll2All = eHCLAll2All → true = true →
        qpi = (if true = true then QP_e.QPE_RS_SEND else QP_e.QPE_RS_RECV)) ∧
      (eHCLAll2All = eHCLNoCollective →
        qpi = (if true = true then QP_e.QPE_RS_SEND else QP_e.QPE_RS_RECV) ∧
        ∀ isPeer, HclDeviceGaudi3.allocateQpsOpens isRsQp0 isA2AQp0 false true isPeer
          (consts0.qpIndex qpi) = true) :=
  getBaseQpAndUsage_scaleOut_roles consts0 (QPManagerGaudi3.scaleOut openScaleOut) 0 1 4
    eHCLAll2All true false false true 1024 256 0 true 5 0 false eHCLAll2All false
    { qpn := 130, disregardRank := true } isRsQp0 isA2AQp0
    (fun q => by cases q <;> rfl) (fun q => by cases q <;> rfl) rfl

/-- C37: with role numbers that are distinct (they are the `case` labels of one
`switch`), `getDestQPi` pairs each send role with the receive role of the same
operation: for each of the six roles `q`, `getDestQPi(q)` returns a role `d`
with `getDestQPi(d) = q` and `isSender(d) = !isSender(q)`; and for ReduceScatter,
AllGather and All-to-All and each direction `s`,
`getDestQPi(getQPi(op, s)) = getQPi(op, !s)`. -/
theorem getDestQPi_pairs (k : Gaudi3Constants) (hk : Function.Injective k.qpIndex) :
    (∀ q : QP_e, ∃ d : Nat,
      QPManagerGaudi3.getDestQPi k (k.qpIndex q) = .ok d ∧
      QPManagerGaudi3.getDestQPi k d = .ok (k.qpIndex q) ∧
      HclDeviceGaudi3.isSender k d = !HclDeviceGaudi3.isSender k (k.qpIndex q)) ∧
    (∀ (op : HCL_CollectiveOp) (s : Bool),
      op = eHCLReduceScatter ∨ op = eHCLAllGather ∨ op = eHCLAll2All →
      ∃ q : Nat, QPManagerGaudi3.getQPi k op s = .ok q ∧
        QPManagerGaudi3.getDestQPi k q = QPManagerGaudi3.getQPi k op (!s)) := by
  have dest : ∀ q : QP_e, QPManagerGaudi3.getDestQPi k (k.qpIndex q) =
      .ok (k.qpIndex (match q with
        | .QPE_RS_RECV => .QPE_RS_SEND | .QPE_AG_RECV => .QPE_AG_SEND
        | .QPE_A2A_RECV => .QPE_A2A_SEND | .QPE_RS_SEND => .QPE_RS_RECV
        | .QPE_AG_SEND => .QPE_AG_RECV | .QPE_A2A_SEND => .QPE_A2A_RECV)) := by
    intro q
    unfold QPManagerGaudi3.getDestQPi
    cases q <;> simp [hk.eq_iff]
  have snd : ∀ q : QP_e, HclDeviceGaudi3.isSender k (k.qpIndex q) =
      (match q with
        | .QPE_RS_SEND | .QPE_AG_SEND | .QPE_A2A_SEND => true
        | _ => false) := by
    intro q
    unfold HclDeviceGaudi3.isSender
    cases q <;> simp [hk.eq_iff]
  constructor
  · intro q
    cases q
    · exact ⟨_, dest .QPE_RS_RECV, dest .QPE_RS_SEND, by rw [snd, snd]; rfl⟩
    · exact ⟨_, dest .QPE_AG_RECV, dest .QPE_AG_SEND, by rw [snd, snd]; rfl⟩
    · exact ⟨_, dest .QPE_A2A_RECV, dest .QPE_A2A_SEND, by rw [snd, snd]; rfl⟩
    · exact ⟨_, dest .QPE_RS_SEND, dest .QPE_RS_RECV, by rw [snd, snd]; rfl⟩
    · exact ⟨_, dest .QPE_AG_SEND, dest .QPE_AG_RECV, by rw [snd, snd]; rfl⟩
    · exact ⟨_, dest .QPE_A2A_SEND, dest .QPE_A2A_RECV, by rw [snd, snd]; rfl⟩
  · intro op s hop
    rcases hop with rfl | rfl | rfl <;> cases s
    · exact ⟨_, rfl, dest .QPE_RS_RECV⟩
    · exact ⟨_, rfl, dest .QPE_RS_SEND⟩
    · exact ⟨_, rfl, dest .QPE_AG_RECV⟩
    · exact ⟨_, rfl, dest .QPE_AG_SEND⟩
    · exact ⟨_, rfl, dest .QPE_A2A_RECV⟩
    · exact ⟨_, rfl, dest .QPE_A2A_SEND⟩

theorem consts0_injective : Function.Injective consts0.qpIndex := by
  intro a b h
  cases a <;> cases b <;> first | rfl | exact absurd h (by decide)

/-- Witness of C37: with the role numbers of `consts0` the peer of the
All-to-All send role is the All-to-All receive role, and the peer of the
AllGather send role is the AllGather receive role. -/
theorem getDestQPi_pairs_witness :
    QPManagerGaudi3.getDestQPi consts0 (consts0.qpIndex .QPE_A2A_SEND) =
        .ok (consts0.qpIndex .QPE_A2A_RECV) ∧
      ∃ q : Nat, QPManagerGaudi3.getQPi consts0 eHCLAllGather true = .ok q ∧
        QPManagerGaudi3.getDestQPi consts0 q =
          QPManagerGaudi3.getQPi consts0 eHCLAllGather false :=
  ⟨rfl, (getDestQPi_pairs consts0 consts0_injective).2 eHCLAllGather true (Or.inr (Or.inl rfl))⟩

/-! ## Theorems: the divisor of SinglePeerBroadcast, closing every rank -/

/-- C38: whenever `initCollectiveOp` turns a Broadcast into
SinglePeerBroadcast the box holds at least 3 ranks (`getPodSize()` is an
`int`), so the divisor `podSize - 1` of SinglePeerBroadcast, in 32-bit and in
64-bit arithmetic, is at least 2, and with it (a calculator whose `getDiv`
returns for a divisor of at least 2) the stride counts of `calcMaxSliceCounts`,
its counts of a slice and the final counts of `calcSliceCounts` are all
computed: no division by zero. -/
theorem initCollectiveOp_singlePeer_divisor (cfg : GlobalConf) (rc : RemainderCalculator)
    (s : CommonState) (singlePeerBroadcastAllowed : Bool)
    (hB : s.m_collectiveOp = eHCLBroadcast)
    (hP : s.m_dynamicComm.podSize < 2 ^ 31)
    (hrc : ∀ a b, 2 ≤ b → ∃ v, rc.getDiv a b = .ok v)
    (h : (CommonState.initCollectiveOp cfg s singlePeerBroadcastAllowed).m_collectiveOp =
      eHCLSinglePeerBroadcast) :
    3 ≤ s.m_dynamicComm.podSize ∧
      sub32 (u32 s.m_dynamicComm.podSize) 1 = s.m_dynamicComm.podSize - 1 ∧
      sub64 (u64 s.m_dynamicComm.podSize) 1 = s.m_dynamicComm.podSize - 1 ∧
      2 ≤ s.m_dynamicComm.podSize - 1 ∧
      ∀ s2 : CommonState, s2.m_collectiveOp = eHCLSinglePeerBroadcast →
        s2.m_dynamicComm = s.m_dynamicComm →
        (∃ s3 T, CommonState.calcStrideCounts rc s2 =
          .ok (s3, T, s.m_dynamicComm.podSize - 1)) ∧
        (∃ s3, CommonState.calcNonFinalCounts s2 0 = .ok s3 ∧
          s3.m_boxCount = u64 (s2.m_optimalBufferCount * (s.m_dynamicComm.podSize - 1))) ∧
        ∀ t, ∃ s3 d, rc.getDiv t (s.m_dynamicComm.podSize - 1) = .ok d ∧
          CommonState.calcFinalCounts rc s2 t = .ok s3 ∧ s3.m_rankScaleUpCount = d := by
  have h3 : 3 ≤ s.m_dynamicComm.podSize := by
    unfold CommonState.initCollectiveOp at h
    rw [if_pos hB] at h
    by_cases hc : u64 (s.m_count * s.m_dataTypeSizeInBytes) ≤ cfg.HCL_COMPLEX_BCAST_MIN_SIZE ∨
        s.m_dynamicComm.podSize ≤ 2
    · rw [if_pos hc] at h
      cases h
    · have := fun hh => hc (Or.inr hh)
      omega
  have e32 : sub32 (u32 s.m_dynamicComm.podSize) 1 = s.m_dynamicComm.podSize - 1 := by
    unfold sub32 u32
    omega
  have e64 : sub64 (u64 s.m_dynamicComm.podSize) 1 = s.m_dynamicComm.podSize - 1 := by
    unfold sub64 u64
    omega
  refine ⟨h3, e32, e64, by omega, fun s2 hop hcomm => ⟨?_, ?_, fun t => ?_⟩⟩
  · obtain ⟨d, hd⟩ := hrc s2.m_count (s.m_dynamicComm.podSize - 1) (by omega)
    unfold CommonState.calcStrideCounts
    simp only [hop, hcomm, e32]
    by_cases hh : s2.m_isHostNic = true ∧ s2.m_isMultiPod = true
    · simp only [hh, and_self, if_true, div, hd]
      rw [if_neg (by omega)]
      exact ⟨_, _, rfl⟩
    · simp only [hh, if_false, hd]
      exact ⟨_, _, rfl⟩
  · unfold CommonState.calcNonFinalCounts
    simp only [hop, hcomm, e32]
    exact ⟨_, rfl, rfl⟩
  · obtain ⟨d, hd⟩ := hrc t (s.m_dynamicComm.podSize - 1) (by omega)
    unfold CommonState.calcFinalCounts
    simp only [hop, hcomm, e64, hd]
    exact ⟨_, d, rfl, rfl, rfl⟩

/-- Witness of C38: a Broadcast of 1024 elements of four bytes on a single box
of four ranks becomes SinglePeerBroadcast, with divisor 3. -/
theorem initCollectiveOp_singlePeer_divisor_witness :
    (CommonState.initCollectiveOp conf0 bigBroadcast true).m_collectiveOp =
        eHCLSinglePeerBroadcast ∧
      3 ≤ bigBroadcast.m_dynamicComm.podSize ∧
      sub32 (u32 bigBroadcast.m_dynamicComm.podSize) 1 =
        bigBroadcast.m_dynamicComm.podSize - 1 :=
  have h := initCollectiveOp_singlePeer_divisor conf0 floorCalculator bigBroadcast true rfl
    (by decide)
    (fun a b hb => ⟨a / b, by
      show div a b = .ok (a / b)
      unfold div
      rw [if_neg (by omega)]⟩)
    rfl
  ⟨rfl, h.1, h.2.1⟩

/-- Divergence for C35: with scale-up nics of their own for each rank of the
box (`portsPerRank`), scale-up `closeQPs` returns after destroying only the
connections on the nics 0 to 2 of the first rank: rank 2 is an inner rank,
role 0 had the valid base 10 before the call, nic 3 is an active scale-up nic
towards rank 2 with offset 3, and yet the connection 13 on nic 3 is not
destroyed, because the entry of role 0 was set to 0 when rank 0 was
processed. With a helper `isInvalidQPn` that does not count 0 as invalid
(`portsPerRankStrict`) the call destroys the connection 0 + 3 on nic 3
instead, and again not the connection 13. -/
theorem closeQPs_skips_later_ranks :
    2 ∈ portsPerRank.getInnerRanksExclusive 0 ∧
      entryScaleUp openScaleUp.m_qpInfoScaleUp 0 0 = some 10 ∧
      portsPerRank.isInvalidQPn 10 = false ∧
      3 ∈ portsPerRank.getActiveNics 2 0 ∧ portsPerRank.isScaleOutPort 3 0 = false ∧
      device0.getNicToQpOffset 3 = 3 ∧
      (QPManagerGaudi3ScaleUp.closeQPs device0 portsPerRank openScaleUp 0).failure = none ∧
      (QPManagerGaudi3ScaleUp.closeQPs device0 portsPerRank openScaleUp 0).state.destroyed =
        [(0, 10), (1, 11), (2, 12), (0, 20), (1, 21), (2, 22), (0, 30), (1, 31), (2, 32),
          (0, 40), (1, 41), (2, 42), (0, 50), (1, 51), (2, 52), (0, 60), (1, 61), (2, 62)] ∧
      (3, 13) ∉
        (QPManagerGaudi3ScaleUp.closeQPs device0 portsPerRank openScaleUp 0).state.destroyed ∧
      (QPManagerGaudi3ScaleUp.closeQPs device0 portsPerRankStrict openScaleUp 0).failure =
        none ∧
      (3, 13) ∉
        (QPManagerGaudi3ScaleUp.closeQPs device0 portsPerRankStrict openScaleUp
          0).state.destroyed ∧
      (3, 3) ∈
        (QPManagerGaudi3ScaleUp.closeQPs device0 portsPerRankStrict openScaleUp
          0).state.destroyed := by
  refine ⟨by decide, rfl, rfl, by decide, rfl, rfl, rfl, rfl, ?_, rfl, ?_, ?_⟩
  · decide
  · decide
  · decide

/-! ## Theorems: the counts of all slices and box-hops -/

theorem sum_range_const (n c : Nat) : ((List.range n).map fun _ => c).sum = n * c := by
  induction n with
  | zero => simp
  | succ k ih => rw [List.range_succ, List.map_append, List.sum_append, ih]; simp [Nat.succ_mul]

end HCL
